import Mathlib

/-!
# Bluetooth HCI management interface (net/bluetooth/mgmt.c)

A shallow embedding of the management control plane: the pending-command list,
the per-controller state the handlers read and write, the request dispatcher
`mgmt_control` and the `mgmt_*` callbacks used by the HCI core.

Conventions of the embedding.

* The global `cmd_list`, the controller registry `hci_dev_list` and everything
  the code hands to its collaborators (socket queue, HCI command queue, work
  queue, key store) are fields of `State`; calls into collaborators are appended
  to `State.trace` in program order.
* Results the code obtains from collaborators (allocation, user-space copy,
  `hci_send_cmd`, `hci_connect`, key store, blacklist) come from an `Env`.
* Enumerators of headers that are not part of the sources (opcode, event, errno
  and HCI numbering) are the fields of `mgmt_defs`; every definition and theorem
  is stated for an arbitrary such numbering.
* Machine integers are `Nat`/`Int`; conversions to `u8`/`u16` are explicit `%`.
* Locks and reference counts (`hci_dev_lock_bh`, `sock_hold`, ...) are not
  represented: the model is sequential.
-/

namespace Mgmt

/-! ## Enumerators of the missing headers -/

/-- Command opcodes `MGMT_OP_*`, the case labels of the switch in `mgmt_control`. -/
inductive mgmt_op
  | READ_VERSION | READ_INDEX_LIST | READ_INFO | SET_POWERED | SET_DISCOVERABLE
  | SET_CONNECTABLE | SET_PAIRABLE | ADD_UUID | REMOVE_UUID | SET_DEV_CLASS
  | SET_SERVICE_CACHE | LOAD_KEYS | REMOVE_KEY | DISCONNECT | GET_CONNECTIONS
  | PIN_CODE_REPLY | PIN_CODE_NEG_REPLY | SET_IO_CAPABILITY | PAIR_DEVICE
  | USER_CONFIRM_REPLY | USER_CONFIRM_NEG_REPLY | SET_LOCAL_NAME
  | READ_LOCAL_OOB_DATA | ADD_REMOTE_OOB_DATA | REMOVE_REMOTE_OOB_DATA
  | START_DISCOVERY | STOP_DISCOVERY | BLOCK_DEVICE | UNBLOCK_DEVICE
  deriving DecidableEq, Repr

/-- Event codes `MGMT_EV_*`. -/
inductive mgmt_ev
  | CMD_COMPLETE | CMD_STATUS | INDEX_ADDED | INDEX_REMOVED | POWERED
  | DISCOVERABLE | CONNECTABLE | PAIRABLE | NEW_KEY | CONNECTED | DISCONNECTED
  | CONNECT_FAILED | PIN_CODE_REQUEST | USER_CONFIRM_REQUEST | AUTH_FAILED
  | LOCAL_NAME_CHANGED | DEVICE_FOUND | REMOTE_NAME | DISCOVERING
  deriving DecidableEq, Repr

/-- HCI command opcodes `HCI_OP_*` submitted through `hci_send_cmd`. -/
inductive hci_opc
  | WRITE_SCAN_ENABLE | WRITE_EIR | WRITE_CLASS_OF_DEV | DISCONNECT
  | PIN_CODE_REPLY | PIN_CODE_NEG_REPLY | USER_CONFIRM_REPLY
  | USER_CONFIRM_NEG_REPLY | WRITE_LOCAL_NAME | READ_LOCAL_OOB_DATA
  | INQUIRY | INQUIRY_CANCEL
  deriving DecidableEq, Repr

/-- Error numbers of errno.h used by mgmt.c. -/
inductive Errno
  | EINVAL | ENODEV | ENOMEM | EBUSY | EALREADY | ENETDOWN | ENOTCONN
  | EIO_ | ENOENT | EOPNOTSUPP | EFAULT
  deriving DecidableEq, Repr

/-- Numbering of the enumerators declared in headers that are not among the
sources (net/bluetooth/mgmt.h, net/bluetooth/hci.h, net/bluetooth/bluetooth.h,
errno.h).  The proof fields record what the C code needs from them: case
labels of one switch are pairwise distinct 16-bit values, and error numbers are
pairwise distinct positive values that fit the status byte of a reply. -/
structure mgmt_defs where
  op : mgmt_op → Nat
  op_inj : Function.Injective op
  op_lt : ∀ o, op o < 65536
  ev : mgmt_ev → Nat
  hci : hci_opc → Nat
  errno : Errno → Nat
  errno_pos : ∀ e, 0 < errno e
  errno_lt : ∀ e, errno e < 256
  errno_inj : Function.Injective errno
  ACL_LINK : Nat
  LE_LINK : Nat
  BT_SECURITY_MEDIUM : Nat
  BT_SECURITY_HIGH : Nat
  BT_CONNECTED : Nat
  HCI_AT_DEDICATED_BONDING : Nat
  HCI_AT_DEDICATED_BONDING_MITM : Nat
  SCAN_INQUIRY : Nat
  SCAN_PAGE : Nat
  HCI_LK_SMP_LTK : Nat
  LMP_EXT_INQ : Nat
  LMP_SIMPLE_PAIR : Nat

/-! ## Data model -/

/-- Bits of `hdev->flags` that mgmt.c reads or writes. -/
inductive hci_flag
  | HCI_UP | HCI_PSCAN | HCI_ISCAN | HCI_AUTH | HCI_SETUP | HCI_MGMT
  | HCI_PAIRABLE | HCI_SERVICE_CACHE | HCI_LINK_KEYS | HCI_DEBUG_KEYS
  deriving DecidableEq, Repr

/-- The word `hdev->flags`: one boolean per bit used by mgmt.c, the remaining
bits of the word kept in `rest`. -/
structure hci_flags where
  up : Bool
  pscan : Bool
  iscan : Bool
  auth : Bool
  setup : Bool
  mgmt : Bool
  pairable : Bool
  service_cache : Bool
  link_keys : Bool
  debug_keys : Bool
  rest : Nat
  deriving DecidableEq, Repr

def test_bit (nr : hci_flag) (f : hci_flags) : Bool :=
  match nr with
  | .HCI_UP => f.up
  | .HCI_PSCAN => f.pscan
  | .HCI_ISCAN => f.iscan
  | .HCI_AUTH => f.auth
  | .HCI_SETUP => f.setup
  | .HCI_MGMT => f.mgmt
  | .HCI_PAIRABLE => f.pairable
  | .HCI_SERVICE_CACHE => f.service_cache
  | .HCI_LINK_KEYS => f.link_keys
  | .HCI_DEBUG_KEYS => f.debug_keys

def assign_bit (nr : hci_flag) (v : Bool) (f : hci_flags) : hci_flags :=
  match nr with
  | .HCI_UP => { f with up := v }
  | .HCI_PSCAN => { f with pscan := v }
  | .HCI_ISCAN => { f with iscan := v }
  | .HCI_AUTH => { f with auth := v }
  | .HCI_SETUP => { f with setup := v }
  | .HCI_MGMT => { f with mgmt := v }
  | .HCI_PAIRABLE => { f with pairable := v }
  | .HCI_SERVICE_CACHE => { f with service_cache := v }
  | .HCI_LINK_KEYS => { f with link_keys := v }
  | .HCI_DEBUG_KEYS => { f with debug_keys := v }

def set_bit (nr : hci_flag) (f : hci_flags) : hci_flags := assign_bit nr true f

def clear_bit (nr : hci_flag) (f : hci_flags) : hci_flags := assign_bit nr false f

/-- The struct bt_uuid entries of `hdev->uuids`. -/
structure bt_uuid where
  uuid : List Nat
  svc_hint : Nat
  deriving DecidableEq, Repr

/-- The fields of struct hci_conn used by mgmt.c.  `ptr` is the address of the
object; the three callback fields record whether a callback is attached (the
only callback mgmt.c attaches is `pairing_complete_cb`). -/
structure hci_conn where
  ptr : Nat
  type : Nat
  dst : List Nat
  handle : Nat
  state : Nat
  pending_sec_level : Nat
  io_capability : Nat
  connect_cfm_cb : Bool
  security_cfm_cb : Bool
  disconn_cfm_cb : Bool
  deriving DecidableEq, Repr

/-- The fields of struct hci_dev used by mgmt.c. -/
structure hci_dev where
  id : Nat
  flags : hci_flags
  dev_type : Nat
  ssp_mode : Nat
  bdaddr : List Nat
  features : List Nat
  dev_class : List Nat
  manufacturer : Nat
  hci_ver : Nat
  hci_rev : Nat
  dev_name : List Nat
  uuids : List bt_uuid
  eir : List Nat
  major_class : Nat
  minor_class : Nat
  io_capability : Nat
  conn_hash : List hci_conn
  deriving DecidableEq, Repr

/-- The struct pending_cmd of mgmt.c.  `index` is an `int` in the source,
`param` the copied request bytes, `sk` the owning socket, `user_data` the
connection a PAIR_DEVICE command waits for. -/
structure pending_cmd where
  opcode : Nat
  index : Int
  param : List Nat
  sk : Nat
  user_data : Option Nat
  deriving DecidableEq, Repr

/-- Calls into collaborators, recorded in program order. -/
inductive Effect
  | sock_queue_rcv_skb (sk : Nat) (skb : List Nat)
  | hci_send_to_sock (skb : List Nat) (skip_sk : Option Nat)
  | hci_send_cmd (dev : Nat) (opcode : Nat) (param : List Nat)
  | queue_work (dev : Nat) (power_on : Bool)
  | hci_del_off_timer (dev : Nat)
  | hci_link_keys_clear (dev : Nat)
  | hci_add_link_key (dev : Nat) (bdaddr val : List Nat) (type pin_len : Nat)
  | hci_add_ltk (dev : Nat) (bdaddr : List Nat) (pin_len : Nat) (ediv : Nat)
      (rand val : List Nat)
  | hci_remove_link_key (dev : Nat) (bdaddr : List Nat)
  | hci_add_remote_oob_data (dev : Nat) (bdaddr hash randomizer : List Nat)
  | hci_remove_remote_oob_data (dev : Nat) (bdaddr : List Nat)
  | hci_blacklist_add (dev : Nat) (bdaddr : List Nat)
  | hci_blacklist_del (dev : Nat) (bdaddr : List Nat)
  | hci_connect (dev : Nat) (bdaddr : List Nat) (sec_level auth_type : Nat)
  | hci_conn_security (conn : Nat) (sec_level auth_type : Nat)
  | hci_conn_put (conn : Nat)
  deriving DecidableEq, Repr

/-- The global state mgmt.c works on: `cmd_list` (head first), the registry
`hci_dev_list`, the number of allocation requests made so far and the trace of
collaborator calls. -/
structure State where
  cmd_list : List pending_cmd
  hci_dev_list : List hci_dev
  nalloc : Nat
  trace : List Effect
  deriving DecidableEq, Repr

/-- Results of collaborator calls.  `alloc n` tells whether the n-th allocation
request (kmalloc, kzalloc, alloc_skb) succeeds; `copy_fault` whether
memcpy_fromiovec faults; the remaining fields are the return values of the HCI
core functions of the same name. -/
structure Env where
  alloc : Nat → Bool
  copy_fault : Bool
  hci_send_cmd : Nat → Nat → List Nat → Int
  hci_connect : hci_dev → List Nat → Nat → Nat → Except Int hci_conn
  hci_conn_security : hci_conn → Nat → Nat → Bool
  hci_remove_link_key : hci_dev → List Nat → Int
  hci_add_remote_oob_data : hci_dev → List Nat → List Nat → List Nat → Int
  hci_remove_remote_oob_data : hci_dev → List Nat → Int
  hci_blacklist_add : hci_dev → List Nat → Int
  hci_blacklist_del : hci_dev → List Nat → Int
  hci_uuids_clear : hci_dev → Int

/-! ## Byte-level helpers -/

/-- The two bytes written by cpu_to_le16 / put_unaligned_le16. -/
def le16 (x : Nat) : List Nat := [x % 256, x / 256 % 256]

/-- The value read by get_unaligned_le16 at offset `off` (absent bytes read as 0). -/
def get_le16 (buf : List Nat) (off : Nat) : Nat :=
  buf.getD off 0 + 256 * buf.getD (off + 1) 0

/-- The `n` bytes a memcpy of length `n` takes from `src` (absent bytes read as 0). -/
def bytes (n : Nat) (src : List Nat) : List Nat :=
  (src ++ List.replicate n 0).take n

/-- Size of struct mgmt_hdr: three packed 16-bit fields opcode, index, len. -/
def sizeof_mgmt_hdr : Nat := 6

/-- Modelled from the spec: struct mgmt_ev_cmd_status is declared in mgmt.h,
which is not among the sources; the reply layout is
`EV_CMD_STATUS {original_opcode:u16-le, status:u8}`, three bytes. -/
def sizeof_mgmt_ev_cmd_status : Nat := 3

/-- Size of struct mgmt_ev_cmd_complete up to its flexible `data` member: the
16-bit opcode. -/
def sizeof_mgmt_ev_cmd_complete : Nat := 2

/-- The struct mgmt_hdr written in front of every outgoing frame. -/
def mgmt_hdr (opcode index len : Nat) : List Nat :=
  le16 opcode ++ le16 index ++ le16 len

/-! ## Collaborator calls -/

def emit (s : State) (e : Effect) : State := { s with trace := s.trace ++ [e] }

/-- One allocation request (kmalloc, kzalloc or alloc_skb). -/
def alloc (env : Env) (s : State) : Bool × State :=
  (env.alloc s.nalloc, { s with nalloc := s.nalloc + 1 })

/-- Modelled from the spec: hci_dev_get is defined in hci_core.c, which is not
among the sources; `registry.get_controller(index) -> Option<&ControllerState>`
returns the registered controller with that index. -/
def hci_dev_get (s : State) (index : Nat) : Option hci_dev :=
  s.hci_dev_list.find? (fun d => d.id = index)

/-- Write-back of the fields changed through the `hdev` pointer. -/
def put_dev : List hci_dev → hci_dev → List hci_dev
  | [], _ => []
  | d :: ds, h => if d.id = h.id then h :: ds else d :: put_dev ds h

def set_dev (s : State) (h : hci_dev) : State :=
  { s with hci_dev_list := put_dev s.hci_dev_list h }

/-- A call of hci_send_cmd(hdev, opcode, plen, param): recorded, result from `env`. -/
def hci_send_cmd (env : Env) (s : State) (hdev : hci_dev) (opcode : Nat)
    (param : List Nat) : Int × State :=
  (env.hci_send_cmd hdev.id opcode param, emit s (.hci_send_cmd hdev.id opcode param))

/-! ## Reply and event frames -/

/-- The skb filled in by `cmd_status`: header, then the event structure. -/
def cmd_status_skb (K : mgmt_defs) (index cmd status : Nat) : List Nat :=
  let hdr := mgmt_hdr (K.ev .CMD_STATUS) index sizeof_mgmt_ev_cmd_status
  let ev := le16 cmd ++ [status % 256]
  hdr ++ ev

def cmd_status (K : mgmt_defs) (env : Env) (s : State) (sk index cmd status : Nat) :
    Int × State :=
  let (skb, s) := alloc env s
  if !skb then (-(K.errno .ENOMEM : Int), s)
  else (0, emit s (.sock_queue_rcv_skb sk (cmd_status_skb K index cmd status)))

/-- The skb filled in by `cmd_complete`: header, opcode, then `rp_len` bytes
copied from `rp` (left as they are, shown as 0, when `rp` is NULL). -/
def cmd_complete_skb (K : mgmt_defs) (index cmd : Nat) (rp : Option (List Nat))
    (rp_len : Nat) : List Nat :=
  let hdr := mgmt_hdr (K.ev .CMD_COMPLETE) index (sizeof_mgmt_ev_cmd_complete + rp_len)
  let data := match rp with
    | some r => bytes rp_len r
    | none => List.replicate rp_len 0
  hdr ++ le16 cmd ++ data

def cmd_complete (K : mgmt_defs) (env : Env) (s : State) (sk index cmd : Nat)
    (rp : Option (List Nat)) (rp_len : Nat) : Int × State :=
  let (skb, s) := alloc env s
  if !skb then (-(K.errno .ENOMEM : Int), s)
  else (0, emit s (.sock_queue_rcv_skb sk (cmd_complete_skb K index cmd rp rp_len)))

/-- The skb filled in by `mgmt_event`: header, then `data_len` bytes copied
from `data` unless `data` is NULL. -/
def mgmt_event_skb (event index : Nat) (data : Option (List Nat)) (data_len : Nat) :
    List Nat :=
  let hdr := mgmt_hdr event index data_len
  let body := match data with
    | some d => bytes data_len d
    | none => []
  hdr ++ body

def mgmt_event (K : mgmt_defs) (env : Env) (s : State) (event index : Nat)
    (data : Option (List Nat)) (data_len : Nat) (skip_sk : Option Nat) : Int × State :=
  let (skb, s) := alloc env s
  if !skb then (-(K.errno .ENOMEM : Int), s)
  else (0, emit s (.hci_send_to_sock (mgmt_event_skb event index data data_len) skip_sk))

/-! ## The pending-command list -/

def mgmt_pending_add (env : Env) (s : State) (sk opcode index : Nat)
    (data : Option (List Nat)) (len : Nat) : Option pending_cmd × State :=
  let (c, s) := alloc env s
  if !c then (none, s)
  else
    let (p, s) := alloc env s
    if !p then (none, s)
    else
      let param := match data with
        | some d => bytes len d
        | none => List.replicate len 0
      let cmd : pending_cmd :=
        { opcode := opcode, index := index, param := param, sk := sk, user_data := none }
      (some cmd, { s with cmd_list := cmd :: s.cmd_list })

def mgmt_pending_find (l : List pending_cmd) (opcode : Nat) (index : Int) :
    Option pending_cmd :=
  match l with
  | [] => none
  | cmd :: rest =>
    if cmd.opcode ≠ opcode then mgmt_pending_find rest opcode index
    else if index ≥ 0 ∧ cmd.index ≠ index then mgmt_pending_find rest opcode index
    else some cmd

/-- The list_del of `mgmt_pending_remove`: `cmd` is always the entry just linked
at the head by `mgmt_pending_add` or the first entry a scan of the list stopped
at, so unlinking it removes the first entry equal to it. -/
def mgmt_pending_remove (s : State) (cmd : pending_cmd) : State :=
  { s with cmd_list := s.cmd_list.erase cmd }

/-- The loop of `mgmt_pending_foreach` over `l`.  The callback gets the visited
entry, its `data` argument and the state, and reports whether it unlinked the
entry. -/
def pending_foreach_loop {σ : Type} (opcode : Nat) (index : Int)
    (cb : State → pending_cmd → σ → Bool × σ × State) :
    List pending_cmd → σ → State → List pending_cmd × σ × State
  | [], d, s => ([], d, s)
  | cmd :: rest, d, s =>
    if cmd.opcode ≠ opcode then
      let (r, d, s) := pending_foreach_loop opcode index cb rest d s
      (cmd :: r, d, s)
    else if index ≥ 0 ∧ cmd.index ≠ index then
      let (r, d, s) := pending_foreach_loop opcode index cb rest d s
      (cmd :: r, d, s)
    else
      let (unlinked, d, s) := cb s cmd d
      let (r, d, s) := pending_foreach_loop opcode index cb rest d s
      (if unlinked then r else cmd :: r, d, s)

def mgmt_pending_foreach {σ : Type} (s : State) (opcode : Nat) (index : Int)
    (cb : State → pending_cmd → σ → Bool × σ × State) (data : σ) : σ × State :=
  let (l, d, s1) := pending_foreach_loop opcode index cb s.cmd_list data s
  (d, { s1 with cmd_list := l })

/-! ## Simple requests -/

def MGMT_VERSION : Nat := 0

def MGMT_REVISION : Nat := 1

/-- Modelled from the spec: MGMT_INDEX_NONE is declared in mgmt.h, which is not
among the sources; the wire format gives `controller_index:u16-le (0xFFFF = NONE)`. -/
def MGMT_INDEX_NONE : Nat := 0xFFFF

/-- Size of struct mgmt_mode, the one-byte `val` parameter of the mode commands. -/
def sizeof_mgmt_mode : Nat := 1

def read_version (K : mgmt_defs) (env : Env) (s : State) (sk : Nat) : Int × State :=
  let rp := [MGMT_VERSION % 256] ++ le16 MGMT_REVISION
  cmd_complete K env s sk MGMT_INDEX_NONE (K.op .READ_VERSION) (some rp) 3

/-- The second loop of `read_index_list`: every controller gets its off timer
deleted and HCI_MGMT set; the ids of those not in HCI_SETUP are appended to the
reply. -/
def read_index_list_loop : List hci_dev → List hci_dev × List Nat × List Effect
  | [] => ([], [], [])
  | d :: ds =>
    let d1 := { d with flags := set_bit .HCI_MGMT d.flags }
    let (ds1, ix, tr) := read_index_list_loop ds
    (d1 :: ds1,
      if test_bit .HCI_SETUP d1.flags then ix else le16 d.id ++ ix,
      Effect.hci_del_off_timer d.id :: tr)

def read_index_list (K : mgmt_defs) (env : Env) (s : State) (sk : Nat) : Int × State :=
  let count := s.hci_dev_list.length % 65536
  let rp_len := 2 + 2 * count
  let (rp, s) := alloc env s
  if !rp then (-(K.errno .ENOMEM : Int), s)
  else
    let (devs, ix, tr) := read_index_list_loop s.hci_dev_list
    let s := { s with hci_dev_list := devs, trace := s.trace ++ tr }
    cmd_complete K env s sk MGMT_INDEX_NONE (K.op .READ_INDEX_LIST)
      (some (le16 count ++ ix)) rp_len

/-- Bytes of struct mgmt_rp_read_info as filled in by `read_controller_info`:
type, powered, connectable, discoverable, pairable, sec_mode, bdaddr,
dev_class, features, manufacturer, hci_ver, hci_rev, name. -/
def read_info_rp (hdev : hci_dev) : List Nat :=
  let sec_mode :=
    if test_bit .HCI_AUTH hdev.flags then 3
    else if hdev.ssp_mode > 0 then 4
    else 2
  [hdev.dev_type % 256,
   (test_bit .HCI_UP hdev.flags).toNat,
   (test_bit .HCI_PSCAN hdev.flags).toNat,
   (test_bit .HCI_ISCAN hdev.flags).toNat,
   (test_bit .HCI_PSCAN hdev.flags).toNat,
   sec_mode]
  ++ bytes 6 hdev.bdaddr
  ++ bytes 3 hdev.dev_class
  ++ bytes 8 hdev.features
  ++ le16 hdev.manufacturer
  ++ [hdev.hci_ver % 256]
  ++ le16 hdev.hci_rev
  ++ bytes 248 hdev.dev_name ++ [0]

def read_controller_info (K : mgmt_defs) (env : Env) (s : State) (sk index : Nat) :
    Int × State :=
  match hci_dev_get s index with
  | none => cmd_status K env s sk index (K.op .READ_INFO) (K.errno .ENODEV)
  | some hdev =>
    let s := emit s (.hci_del_off_timer hdev.id)
    let hdev := { hdev with flags := set_bit .HCI_MGMT hdev.flags }
    let s := set_dev s hdev
    let rp := read_info_rp hdev
    cmd_complete K env s sk index (K.op .READ_INFO) (some rp) rp.length

/-! ## Mode commands -/

def set_powered (K : mgmt_defs) (env : Env) (s : State) (sk index : Nat)
    (data : List Nat) (len : Nat) : Int × State :=
  if len ≠ sizeof_mgmt_mode then
    cmd_status K env s sk index (K.op .SET_POWERED) (K.errno .EINVAL)
  else
    match hci_dev_get s index with
    | none => cmd_status K env s sk index (K.op .SET_POWERED) (K.errno .ENODEV)
    | some hdev =>
      let val := data.getD 0 0
      let up := test_bit .HCI_UP hdev.flags
      if (val ≠ 0 ∧ up = true) ∨ (¬ val ≠ 0 ∧ ¬ up = true) then
        cmd_status K env s sk index (K.op .SET_POWERED) (K.errno .EALREADY)
      else if (mgmt_pending_find s.cmd_list (K.op .SET_POWERED) index).isSome then
        cmd_status K env s sk index (K.op .SET_POWERED) (K.errno .EBUSY)
      else
        let (cmd, s) := mgmt_pending_add env s sk (K.op .SET_POWERED) index (some data) len
        match cmd with
        | none => (-(K.errno .ENOMEM : Int), s)
        | some _ => (0, emit s (.queue_work hdev.id (decide (val ≠ 0))))

def set_discoverable (K : mgmt_defs) (env : Env) (s : State) (sk index : Nat)
    (data : List Nat) (len : Nat) : Int × State :=
  if len ≠ sizeof_mgmt_mode then
    cmd_status K env s sk index (K.op .SET_DISCOVERABLE) (K.errno .EINVAL)
  else
    match hci_dev_get s index with
    | none => cmd_status K env s sk index (K.op .SET_DISCOVERABLE) (K.errno .ENODEV)
    | some hdev =>
      let val := data.getD 0 0
      if ¬ test_bit .HCI_UP hdev.flags = true then
        cmd_status K env s sk index (K.op .SET_DISCOVERABLE) (K.errno .ENETDOWN)
      else if (mgmt_pending_find s.cmd_list (K.op .SET_DISCOVERABLE) index).isSome ∨
          (mgmt_pending_find s.cmd_list (K.op .SET_CONNECTABLE) index).isSome then
        cmd_status K env s sk index (K.op .SET_DISCOVERABLE) (K.errno .EBUSY)
      else if val = (test_bit .HCI_ISCAN hdev.flags).toNat ∧
          test_bit .HCI_PSCAN hdev.flags = true then
        cmd_status K env s sk index (K.op .SET_DISCOVERABLE) (K.errno .EALREADY)
      else
        let (cmd, s) :=
          mgmt_pending_add env s sk (K.op .SET_DISCOVERABLE) index (some data) len
        match cmd with
        | none => (-(K.errno .ENOMEM : Int), s)
        | some cmd =>
          let scan := if val ≠ 0 then (K.SCAN_PAGE % 256 ||| K.SCAN_INQUIRY) % 256
            else K.SCAN_PAGE % 256
          let (err, s) := hci_send_cmd env s hdev (K.hci .WRITE_SCAN_ENABLE) [scan]
          if err < 0 then (err, mgmt_pending_remove s cmd) else (err, s)

def set_connectable (K : mgmt_defs) (env : Env) (s : State) (sk index : Nat)
    (data : List Nat) (len : Nat) : Int × State :=
  if len ≠ sizeof_mgmt_mode then
    cmd_status K env s sk index (K.op .SET_CONNECTABLE) (K.errno .EINVAL)
  else
    match hci_dev_get s index with
    | none => cmd_status K env s sk index (K.op .SET_CONNECTABLE) (K.errno .ENODEV)
    | some hdev =>
      let val := data.getD 0 0
      if ¬ test_bit .HCI_UP hdev.flags = true then
        cmd_status K env s sk index (K.op .SET_CONNECTABLE) (K.errno .ENETDOWN)
      else if (mgmt_pending_find s.cmd_list (K.op .SET_DISCOVERABLE) index).isSome ∨
          (mgmt_pending_find s.cmd_list (K.op .SET_CONNECTABLE) index).isSome then
        cmd_status K env s sk index (K.op .SET_CONNECTABLE) (K.errno .EBUSY)
      else if val = (test_bit .HCI_PSCAN hdev.flags).toNat then
        cmd_status K env s sk index (K.op .SET_CONNECTABLE) (K.errno .EALREADY)
      else
        let (cmd, s) :=
          mgmt_pending_add env s sk (K.op .SET_CONNECTABLE) index (some data) len
        match cmd with
        | none => (-(K.errno .ENOMEM : Int), s)
        | some cmd =>
          let scan := if val ≠ 0 then K.SCAN_PAGE % 256 else 0
          let (err, s) := hci_send_cmd env s hdev (K.hci .WRITE_SCAN_ENABLE) [scan]
          if err < 0 then (err, mgmt_pending_remove s cmd) else (err, s)

def send_mode_rsp (K : mgmt_defs) (env : Env) (s : State) (sk opcode index val : Nat) :
    Int × State :=
  cmd_complete K env s sk index opcode (some [val % 256]) sizeof_mgmt_mode

def set_pairable (K : mgmt_defs) (env : Env) (s : State) (sk index : Nat)
    (data : List Nat) (len : Nat) : Int × State :=
  if len ≠ sizeof_mgmt_mode then
    cmd_status K env s sk index (K.op .SET_PAIRABLE) (K.errno .EINVAL)
  else
    match hci_dev_get s index with
    | none => cmd_status K env s sk index (K.op .SET_PAIRABLE) (K.errno .ENODEV)
    | some hdev =>
      let val := data.getD 0 0
      let hdev :=
        if val ≠ 0 then { hdev with flags := set_bit .HCI_PAIRABLE hdev.flags }
        else { hdev with flags := clear_bit .HCI_PAIRABLE hdev.flags }
      let s := set_dev s hdev
      let (err, s) := send_mode_rsp K env s sk (K.op .SET_PAIRABLE) index val
      if err < 0 then (err, s)
      else mgmt_event K env s (K.ev .PAIRABLE) index (some [val]) sizeof_mgmt_mode (some sk)

/-! ## EIR and class of device -/

def EIR_UUID16_SOME : Nat := 0x02

def EIR_UUID16_ALL : Nat := 0x03

def EIR_NAME_SHORT : Nat := 0x08

def EIR_NAME_COMPLETE : Nat := 0x09

def PNP_INFO_SVCLASS_ID : Nat := 0x1200

/-- Length of the EIR data block (HCI_MAX_EIR_LENGTH of hci.h): `create_eir`
works on a 240-byte buffer and a scratch array of 240 / 2 entries. -/
def HCI_MAX_EIR_LENGTH : Nat := 240

/-- Length of the controller name (HCI_MAX_NAME_LENGTH of hci.h). -/
def HCI_MAX_NAME_LENGTH : Nat := 248

def bluetooth_base_uuid : List Nat :=
  [0xFB, 0x34, 0x9B, 0x5F, 0x80, 0x00, 0x00, 0x80,
   0x00, 0x10, 0x00, 0x00, 0x00, 0x00, 0x00, 0x00]

def get_uuid16 (uuid128 : List Nat) : Nat :=
  if (List.range 12).any (fun i => bluetooth_base_uuid.getD i 0 != uuid128.getD i 0) then 0
  else
    let val := uuid128.getD 12 0 + 256 * uuid128.getD 13 0 + 65536 * uuid128.getD 14 0
      + 16777216 * uuid128.getD 15 0
    if val > 0xffff then 0 else val

/-- The C `strlen` of a byte buffer. -/
def strlen (name : List Nat) : Nat := (name.takeWhile (fun c => c != 0)).length

/-- Writes `src` into `buf` starting at offset `off` (memcpy into the buffer). -/
def write_at (buf : List Nat) (off : Nat) : List Nat → List Nat
  | [] => buf
  | b :: bs => write_at (buf.set off b) (off + 1) bs

/-- The duplicate scan `for (i = 0; uuid16_list[i] != 0; i++) if (uuid16_list[i] == uuid16) break;`:
the index it stops at. -/
def uuid16_scan (uuid16_list : List Nat) (uuid16 : Nat) : Nat :=
  (uuid16_list.takeWhile (fun x => x != 0 && x != uuid16)).length

/-- The loop of `create_eir` over `hdev->uuids`: `none` when the function
returns from inside the loop, otherwise the scratch array, `eir_len` and
`truncated` at the end of the loop. -/
def create_eir_uuids : List bt_uuid → List Nat → Nat → Option (List Nat × Nat × Bool)
  | [], uuid16_list, eir_len => some (uuid16_list, eir_len, false)
  | uuid :: rest, uuid16_list, eir_len =>
    let uuid16 := get_uuid16 uuid.uuid
    if uuid16 = 0 then none
    else if uuid16 < 0x1100 then create_eir_uuids rest uuid16_list eir_len
    else if uuid16 = PNP_INFO_SVCLASS_ID then create_eir_uuids rest uuid16_list eir_len
    else if eir_len + 2 + 2 > HCI_MAX_EIR_LENGTH then some (uuid16_list, eir_len, true)
    else
      let i := uuid16_scan uuid16_list uuid16
      if uuid16_list.getD i 0 = 0 then
        create_eir_uuids rest (uuid16_list.set i uuid16) ((eir_len + 2) % 65536)
      else create_eir_uuids rest uuid16_list eir_len

/-- The bytes the last loop of `create_eir` writes for the entries before the
first zero of the scratch array. -/
def eir_uuid_bytes (uuid16_list : List Nat) : List Nat :=
  (uuid16_list.takeWhile (fun x => x != 0)).flatMap
    (fun u => [u % 256, u / 256 % 256])

def create_eir (hdev : hci_dev) (data : List Nat) : List Nat :=
  let name_len := strlen hdev.dev_name
  let (data, ptr, eir_len) :=
    if name_len > 0 then
      let (name_len, ty) :=
        if name_len > 48 then (48, EIR_NAME_SHORT) else (name_len, EIR_NAME_COMPLETE)
      let data := data.set 1 ty
      let data := data.set 0 ((name_len + 1) % 256)
      let data := write_at data 2 (bytes name_len hdev.dev_name)
      (data, name_len + 2, name_len + 2)
    else (data, 0, 0)
  let uuid16_list := List.replicate (HCI_MAX_EIR_LENGTH / 2) 0
  match create_eir_uuids hdev.uuids uuid16_list eir_len with
  | none => data
  | some (uuid16_list, _, truncated) =>
    if uuid16_list.getD 0 0 ≠ 0 then
      let data := data.set (ptr + 1) (if truncated then EIR_UUID16_SOME else EIR_UUID16_ALL)
      let data := write_at data (ptr + 2) (eir_uuid_bytes uuid16_list)
      let i := (uuid16_list.takeWhile (fun x => x != 0)).length
      data.set ptr ((i * 2 + 1) % 256)
    else data

def update_eir (K : mgmt_defs) (env : Env) (s : State) (hdev : hci_dev) :
    Int × hci_dev × State :=
  if hdev.features.getD 6 0 &&& K.LMP_EXT_INQ = 0 then (0, hdev, s)
  else if hdev.ssp_mode = 0 then (0, hdev, s)
  else if test_bit .HCI_SERVICE_CACHE hdev.flags then (0, hdev, s)
  else
    let data := create_eir hdev (List.replicate HCI_MAX_EIR_LENGTH 0)
    if data = bytes HCI_MAX_EIR_LENGTH hdev.eir then (0, hdev, s)
    else
      let hdev := { hdev with eir := data }
      let (err, s) := hci_send_cmd env s hdev (K.hci .WRITE_EIR) ([0] ++ data)
      (err, hdev, s)

def get_service_classes (hdev : hci_dev) : Nat :=
  hdev.uuids.foldl (fun val uuid => (val ||| uuid.svc_hint) % 256) 0

def update_class (K : mgmt_defs) (env : Env) (s : State) (hdev : hci_dev) : Int × State :=
  if test_bit .HCI_SERVICE_CACHE hdev.flags then (0, s)
  else
    let cod := [hdev.minor_class % 256, hdev.major_class % 256, get_service_classes hdev]
    if cod = bytes 3 hdev.dev_class then (0, s)
    else hci_send_cmd env s hdev (K.hci .WRITE_CLASS_OF_DEV) cod

/-- Size of struct mgmt_cp_add_uuid: uuid[16], svc_hint. -/
def sizeof_mgmt_cp_add_uuid : Nat := 17

/-- Size of struct mgmt_cp_remove_uuid: uuid[16]. -/
def sizeof_mgmt_cp_remove_uuid : Nat := 16

/-- Size of struct mgmt_cp_set_dev_class: major, minor. -/
def sizeof_mgmt_cp_set_dev_class : Nat := 2

/-- Size of struct mgmt_cp_set_service_cache: enable. -/
def sizeof_mgmt_cp_set_service_cache : Nat := 1

def add_uuid (K : mgmt_defs) (env : Env) (s : State) (sk index : Nat)
    (data : List Nat) (len : Nat) : Int × State :=
  if len ≠ sizeof_mgmt_cp_add_uuid then
    cmd_status K env s sk index (K.op .ADD_UUID) (K.errno .EINVAL)
  else
    match hci_dev_get s index with
    | none => cmd_status K env s sk index (K.op .ADD_UUID) (K.errno .ENODEV)
    | some hdev =>
      let (uuid, s) := alloc env s
      if !uuid then (-(K.errno .ENOMEM : Int), s)
      else
        let uuid : bt_uuid := { uuid := bytes 16 data, svc_hint := data.getD 16 0 }
        let hdev := { hdev with uuids := uuid :: hdev.uuids }
        let (err, s) := update_class K env (set_dev s hdev) hdev
        if err < 0 then (err, s)
        else
          let (err, hdev, s) := update_eir K env s hdev
          let s := set_dev s hdev
          if err < 0 then (err, s)
          else cmd_complete K env s sk index (K.op .ADD_UUID) none 0

def remove_uuid (K : mgmt_defs) (env : Env) (s : State) (sk index : Nat)
    (data : List Nat) (len : Nat) : Int × State :=
  if len ≠ sizeof_mgmt_cp_remove_uuid then
    cmd_status K env s sk index (K.op .REMOVE_UUID) (K.errno .EINVAL)
  else
    match hci_dev_get s index with
    | none => cmd_status K env s sk index (K.op .REMOVE_UUID) (K.errno .ENODEV)
    | some hdev =>
      let uuid := bytes 16 data
      if uuid = List.replicate 16 0 then
        (env.hci_uuids_clear hdev, set_dev s { hdev with uuids := [] })
      else
        let found := (hdev.uuids.filter (fun m => m.uuid = uuid)).length
        let hdev := { hdev with uuids := hdev.uuids.filter (fun m => ¬ m.uuid = uuid) }
        let s := set_dev s hdev
        if found = 0 then cmd_status K env s sk index (K.op .REMOVE_UUID) (K.errno .ENOENT)
        else
          let (err, s) := update_class K env s hdev
          if err < 0 then (err, s)
          else
            let (err, hdev, s) := update_eir K env s hdev
            let s := set_dev s hdev
            if err < 0 then (err, s)
            else cmd_complete K env s sk index (K.op .REMOVE_UUID) none 0

def set_dev_class (K : mgmt_defs) (env : Env) (s : State) (sk index : Nat)
    (data : List Nat) (len : Nat) : Int × State :=
  if len ≠ sizeof_mgmt_cp_set_dev_class then
    cmd_status K env s sk index (K.op .SET_DEV_CLASS) (K.errno .EINVAL)
  else
    match hci_dev_get s index with
    | none => cmd_status K env s sk index (K.op .SET_DEV_CLASS) (K.errno .ENODEV)
    | some hdev =>
      let hdev := { hdev with major_class := data.getD 0 0, minor_class := data.getD 1 0 }
      let (err, s) := update_class K env (set_dev s hdev) hdev
      if err = 0 then cmd_complete K env s sk index (K.op .SET_DEV_CLASS) none 0
      else (err, s)

def set_service_cache (K : mgmt_defs) (env : Env) (s : State) (sk index : Nat)
    (data : List Nat) (len : Nat) : Int × State :=
  if len ≠ sizeof_mgmt_cp_set_service_cache then
    cmd_status K env s sk index (K.op .SET_SERVICE_CACHE) (K.errno .EINVAL)
  else
    match hci_dev_get s index with
    | none => cmd_status K env s sk index (K.op .SET_SERVICE_CACHE) (K.errno .ENODEV)
    | some hdev =>
      let (err, s) :=
        if data.getD 0 0 ≠ 0 then
          ((0 : Int), set_dev s { hdev with flags := set_bit .HCI_SERVICE_CACHE hdev.flags })
        else
          let hdev := { hdev with flags := clear_bit .HCI_SERVICE_CACHE hdev.flags }
          let (err, s) := update_class K env (set_dev s hdev) hdev
          if err = 0 then
            let (err, hdev, s) := update_eir K env s hdev
            (err, set_dev s hdev)
          else (err, s)
      if err = 0 then cmd_complete K env s sk index (K.op .SET_SERVICE_CACHE) none 0
      else (err, s)

/-! ## Link keys -/

/-- Size of struct mgmt_cp_load_keys up to its flexible `keys` member:
debug_keys, key_count. -/
def sizeof_mgmt_cp_load_keys : Nat := 3

/-- Size of struct mgmt_key_info up to its flexible `data` member: bdaddr,
type, val[16], pin_len, dlen. -/
def sizeof_mgmt_key_info : Nat := 25

/-- Size of struct key_master_id: ediv, rand[8]. -/
def sizeof_key_master_id : Nat := 10

/-- Size of struct mgmt_cp_remove_key: bdaddr, disconnect. -/
def sizeof_mgmt_cp_remove_key : Nat := 7

/-- The entry loop `while (i < len)` of `load_keys` over `keys = cp->keys`; the
calls it makes, in order.  Every iteration advances `i` by at least
`sizeof_mgmt_key_info`, so `fuel = len` iterations are enough. -/
def load_keys_loop (K : mgmt_defs) (dev : Nat) (keys : List Nat) (len : Nat) :
    Nat → Nat → List Effect
  | 0, _ => []
  | fuel + 1, i =>
    if i < len then
      let key := keys.drop i
      let bdaddr := bytes 6 key
      let type := key.getD 6 0
      let val := bytes 16 (key.drop 7)
      let pin_len := key.getD 23 0
      let dlen := key.getD 24 0
      let i := i + (sizeof_mgmt_key_info + dlen)
      if type = K.HCI_LK_SMP_LTK then
        if dlen ≠ sizeof_key_master_id then load_keys_loop K dev keys len fuel i
        else
          Effect.hci_add_ltk dev bdaddr pin_len (get_le16 key 25) (bytes 8 (key.drop 27)) val
            :: load_keys_loop K dev keys len fuel i
      else
        Effect.hci_add_link_key dev bdaddr val type pin_len
          :: load_keys_loop K dev keys len fuel i
    else []

def load_keys (K : mgmt_defs) (env : Env) (s : State) (sk index : Nat)
    (data : List Nat) (len : Nat) : Int × State :=
  if len < sizeof_mgmt_cp_load_keys then (-(K.errno .EINVAL : Int), s)
  else
    let key_count := get_le16 data 1
    let expected_len := (sizeof_mgmt_cp_load_keys + key_count * sizeof_mgmt_key_info) % 65536
    if expected_len > len then (-(K.errno .EINVAL : Int), s)
    else
      match hci_dev_get s index with
      | none => cmd_status K env s sk index (K.op .LOAD_KEYS) (K.errno .ENODEV)
      | some hdev =>
        let s := emit s (.hci_link_keys_clear hdev.id)
        let hdev := { hdev with flags := set_bit .HCI_LINK_KEYS hdev.flags }
        let hdev :=
          if data.getD 0 0 ≠ 0 then { hdev with flags := set_bit .HCI_DEBUG_KEYS hdev.flags }
          else { hdev with flags := clear_bit .HCI_DEBUG_KEYS hdev.flags }
        let s := set_dev s hdev
        let len := len - sizeof_mgmt_cp_load_keys
        let tr := load_keys_loop K hdev.id (data.drop sizeof_mgmt_cp_load_keys) len len 0
        let s := { s with trace := s.trace ++ tr }
        cmd_complete K env s sk index (K.op .LOAD_KEYS) none 0

/-- Modelled from the spec: hci_conn_hash_lookup_ba is defined in hci_core.h,
which is not among the sources;
`transport.lookup_connection(controller_index, link_type, address) -> Option<ConnectionHandle>`
returns the connection of that link type and peer address. -/
def hci_conn_hash_lookup_ba (hdev : hci_dev) (type : Nat) (ba : List Nat) : Option hci_conn :=
  hdev.conn_hash.find? (fun c => c.type = type ∧ bytes 6 c.dst = bytes 6 ba)

/-- The status byte `-err` passed to cmd_status for a negative `err`. -/
def neg_errno (err : Int) : Nat := ((-err) % 256).toNat

def remove_key (K : mgmt_defs) (env : Env) (s : State) (sk index : Nat)
    (data : List Nat) (len : Nat) : Int × State :=
  if len ≠ sizeof_mgmt_cp_remove_key then
    cmd_status K env s sk index (K.op .REMOVE_KEY) (K.errno .EINVAL)
  else
    match hci_dev_get s index with
    | none => cmd_status K env s sk index (K.op .REMOVE_KEY) (K.errno .ENODEV)
    | some hdev =>
      let bdaddr := bytes 6 data
      let err := env.hci_remove_link_key hdev bdaddr
      let s := emit s (.hci_remove_link_key hdev.id bdaddr)
      if err < 0 then cmd_status K env s sk index (K.op .REMOVE_KEY) (neg_errno err)
      else if ¬ test_bit .HCI_UP hdev.flags = true ∨ ¬ data.getD 6 0 ≠ 0 then (0, s)
      else
        match hci_conn_hash_lookup_ba hdev K.ACL_LINK bdaddr with
        | some conn =>
          hci_send_cmd env s hdev (K.hci .DISCONNECT) (le16 conn.handle ++ [0x13])
        | none => (0, s)

/-! ## Connections -/

/-- Size of struct mgmt_cp_disconnect: bdaddr. -/
def sizeof_mgmt_cp_disconnect : Nat := 6

def disconnect (K : mgmt_defs) (env : Env) (s : State) (sk index : Nat)
    (data : List Nat) (len : Nat) : Int × State :=
  if len ≠ sizeof_mgmt_cp_disconnect then
    cmd_status K env s sk index (K.op .DISCONNECT) (K.errno .EINVAL)
  else
    match hci_dev_get s index with
    | none => cmd_status K env s sk index (K.op .DISCONNECT) (K.errno .ENODEV)
    | some hdev =>
      if ¬ test_bit .HCI_UP hdev.flags = true then
        cmd_status K env s sk index (K.op .DISCONNECT) (K.errno .ENETDOWN)
      else if (mgmt_pending_find s.cmd_list (K.op .DISCONNECT) index).isSome then
        cmd_status K env s sk index (K.op .DISCONNECT) (K.errno .EBUSY)
      else
        let conn :=
          match hci_conn_hash_lookup_ba hdev K.ACL_LINK (bytes 6 data) with
          | some c => some c
          | none => hci_conn_hash_lookup_ba hdev K.LE_LINK (bytes 6 data)
        match conn with
        | none => cmd_status K env s sk index (K.op .DISCONNECT) (K.errno .ENOTCONN)
        | some conn =>
          let (cmd, s) := mgmt_pending_add env s sk (K.op .DISCONNECT) index (some data) len
          match cmd with
          | none => (-(K.errno .ENOMEM : Int), s)
          | some cmd =>
            let (err, s) :=
              hci_send_cmd env s hdev (K.hci .DISCONNECT) (le16 conn.handle ++ [0x13])
            if err < 0 then (err, mgmt_pending_remove s cmd) else (err, s)

def get_connections (K : mgmt_defs) (env : Env) (s : State) (sk index : Nat) :
    Int × State :=
  match hci_dev_get s index with
  | none => cmd_status K env s sk index (K.op .GET_CONNECTIONS) (K.errno .ENODEV)
  | some hdev =>
    let count := hdev.conn_hash.length % 65536
    let rp_len := 2 + count * 6
    let (rp, s) := alloc env s
    if !rp then (-(K.errno .ENOMEM : Int), s)
    else
      let rp := le16 count ++ hdev.conn_hash.flatMap (fun c => bytes 6 c.dst)
      cmd_complete K env s sk index (K.op .GET_CONNECTIONS) (some rp) rp_len

/-! ## PIN code and user confirmation -/

/-- Size of struct mgmt_cp_pin_code_reply: bdaddr, pin_len, pin_code[16]. -/
def sizeof_mgmt_cp_pin_code_reply : Nat := 23

/-- Size of struct mgmt_cp_pin_code_neg_reply: bdaddr. -/
def sizeof_mgmt_cp_pin_code_neg_reply : Nat := 6

/-- Size of struct mgmt_cp_set_io_capability: io_capability. -/
def sizeof_mgmt_cp_set_io_capability : Nat := 1

/-- Size of struct mgmt_cp_user_confirm_reply: bdaddr. -/
def sizeof_mgmt_cp_user_confirm_reply : Nat := 6

def send_pin_code_neg_reply (K : mgmt_defs) (env : Env) (s : State) (sk index : Nat)
    (hdev : hci_dev) (cp : List Nat) : Int × State :=
  let (cmd, s) := mgmt_pending_add env s sk (K.op .PIN_CODE_NEG_REPLY) index (some cp)
    sizeof_mgmt_cp_pin_code_neg_reply
  match cmd with
  | none => (-(K.errno .ENOMEM : Int), s)
  | some cmd =>
    let (err, s) := hci_send_cmd env s hdev (K.hci .PIN_CODE_NEG_REPLY) (bytes 6 cp)
    if err < 0 then (err, mgmt_pending_remove s cmd) else (err, s)

def pin_code_reply (K : mgmt_defs) (env : Env) (s : State) (sk index : Nat)
    (data : List Nat) (len : Nat) : Int × State :=
  if len ≠ sizeof_mgmt_cp_pin_code_reply then
    cmd_status K env s sk index (K.op .PIN_CODE_REPLY) (K.errno .EINVAL)
  else
    match hci_dev_get s index with
    | none => cmd_status K env s sk index (K.op .PIN_CODE_REPLY) (K.errno .ENODEV)
    | some hdev =>
      if ¬ test_bit .HCI_UP hdev.flags = true then
        cmd_status K env s sk index (K.op .PIN_CODE_REPLY) (K.errno .ENETDOWN)
      else
        match hci_conn_hash_lookup_ba hdev K.ACL_LINK (bytes 6 data) with
        | none => cmd_status K env s sk index (K.op .PIN_CODE_REPLY) (K.errno .ENOTCONN)
        | some conn =>
          let pin_len := data.getD 6 0
          if conn.pending_sec_level = K.BT_SECURITY_HIGH ∧ pin_len ≠ 16 then
            let (err, s) := send_pin_code_neg_reply K env s sk index hdev (bytes 6 data)
            if err ≥ 0 then
              cmd_status K env s sk index (K.op .PIN_CODE_REPLY) (K.errno .EINVAL)
            else (err, s)
          else
            let (cmd, s) :=
              mgmt_pending_add env s sk (K.op .PIN_CODE_REPLY) index (some data) len
            match cmd with
            | none => (-(K.errno .ENOMEM : Int), s)
            | some cmd =>
              let reply := bytes 6 data ++ [pin_len] ++ bytes 16 (data.drop 7)
              let (err, s) := hci_send_cmd env s hdev (K.hci .PIN_CODE_REPLY) reply
              if err < 0 then (err, mgmt_pending_remove s cmd) else (err, s)

def pin_code_neg_reply (K : mgmt_defs) (env : Env) (s : State) (sk index : Nat)
    (data : List Nat) (len : Nat) : Int × State :=
  if len ≠ sizeof_mgmt_cp_pin_code_neg_reply then
    cmd_status K env s sk index (K.op .PIN_CODE_NEG_REPLY) (K.errno .EINVAL)
  else
    match hci_dev_get s index with
    | none => cmd_status K env s sk index (K.op .PIN_CODE_NEG_REPLY) (K.errno .ENODEV)
    | some hdev =>
      if ¬ test_bit .HCI_UP hdev.flags = true then
        cmd_status K env s sk index (K.op .PIN_CODE_NEG_REPLY) (K.errno .ENETDOWN)
      else send_pin_code_neg_reply K env s sk index hdev data

def set_io_capability (K : mgmt_defs) (env : Env) (s : State) (sk index : Nat)
    (data : List Nat) (len : Nat) : Int × State :=
  if len ≠ sizeof_mgmt_cp_set_io_capability then
    cmd_status K env s sk index (K.op .SET_IO_CAPABILITY) (K.errno .EINVAL)
  else
    match hci_dev_get s index with
    | none => cmd_status K env s sk index (K.op .SET_IO_CAPABILITY) (K.errno .ENODEV)
    | some hdev =>
      let s := set_dev s { hdev with io_capability := data.getD 0 0 }
      cmd_complete K env s sk index (K.op .SET_IO_CAPABILITY) none 0

def user_confirm_reply (K : mgmt_defs) (env : Env) (s : State) (sk index : Nat)
    (data : List Nat) (len : Nat) (success : Bool) : Int × State :=
  let mgmt_op := if success then K.op .USER_CONFIRM_REPLY else K.op .USER_CONFIRM_NEG_REPLY
  let hci_op := if success then K.hci .USER_CONFIRM_REPLY else K.hci .USER_CONFIRM_NEG_REPLY
  if len ≠ sizeof_mgmt_cp_user_confirm_reply then
    cmd_status K env s sk index mgmt_op (K.errno .EINVAL)
  else
    match hci_dev_get s index with
    | none => cmd_status K env s sk index mgmt_op (K.errno .ENODEV)
    | some hdev =>
      if ¬ test_bit .HCI_UP hdev.flags = true then
        cmd_status K env s sk index mgmt_op (K.errno .ENETDOWN)
      else
        let (cmd, s) := mgmt_pending_add env s sk mgmt_op index (some data) len
        match cmd with
        | none => (-(K.errno .ENOMEM : Int), s)
        | some cmd =>
          let (err, s) := hci_send_cmd env s hdev hci_op (bytes 6 data)
          if err < 0 then (err, mgmt_pending_remove s cmd) else (err, s)

/-! ## Pairing -/

/-- Size of struct mgmt_cp_pair_device: bdaddr, io_cap. -/
def sizeof_mgmt_cp_pair_device : Nat := 7

/-- Size of struct mgmt_rp_pair_device: bdaddr, status. -/
def sizeof_mgmt_rp_pair_device : Nat := 7

/-- Dereference of a `struct hci_conn *`: the connection object with that address. -/
def conn_deref (s : State) (conn : Nat) : Option hci_conn :=
  (s.hci_dev_list.flatMap (fun d => d.conn_hash)).find? (fun c => c.ptr = conn)

/-- The controller `conn->hdev` of a connection. -/
def conn_hdev (s : State) (conn : Nat) : Option hci_dev :=
  s.hci_dev_list.find? (fun d => d.conn_hash.any (fun c => c.ptr = conn))

/-- Write-back of the fields changed through a `struct hci_conn *`. -/
def set_conn (s : State) (c : hci_conn) : State :=
  { s with hci_dev_list := s.hci_dev_list.map (fun d =>
      { d with conn_hash := d.conn_hash.map (fun x => if x.ptr = c.ptr then c else x) }) }

/-- The connection object returned by hci_connect is linked in the connection
hash of `hdev`: an existing object with its address is replaced by the returned
contents, a new one is added. -/
def link_conn (s : State) (hdev : hci_dev) (c : hci_conn) : State :=
  if hdev.conn_hash.any (fun x => x.ptr = c.ptr) then set_conn s c
  else set_dev s { hdev with conn_hash := c :: hdev.conn_hash }

def find_pairing (K : mgmt_defs) (s : State) (conn : Nat) : Option pending_cmd :=
  match conn_hdev s conn with
  | none => none
  | some hdev =>
    s.cmd_list.find? (fun cmd =>
      cmd.opcode = K.op .PAIR_DEVICE ∧ cmd.index = hdev.id ∧ cmd.user_data = some conn)

def pairing_complete (K : mgmt_defs) (env : Env) (s : State) (cmd : pending_cmd)
    (status : Nat) : State :=
  let conn := cmd.user_data.bind (conn_deref s)
  let dst := match conn with
    | some c => c.dst
    | none => []
  let rp := bytes 6 dst ++ [status % 256]
  let (_, s) := cmd_complete K env s cmd.sk (cmd.index % 65536).toNat (K.op .PAIR_DEVICE)
    (some rp) sizeof_mgmt_rp_pair_device
  let s := match conn with
    | some c =>
      emit (set_conn s { c with connect_cfm_cb := false, security_cfm_cb := false,
                                disconn_cfm_cb := false }) (.hci_conn_put c.ptr)
    | none => s
  mgmt_pending_remove s cmd

/-- The callback attached to a connection by `pair_device`; `conn` is the
address of the connection the HCI core reports on. -/
def pairing_complete_cb (K : mgmt_defs) (env : Env) (s : State) (conn status : Nat) : State :=
  match find_pairing K s conn with
  | none => s
  | some cmd => pairing_complete K env s cmd status

/-- In `pair_device` the result of hci_connect is `Except.error e` for an
ERR_PTR carrying `e`, and the connection object otherwise. -/
def pair_device (K : mgmt_defs) (env : Env) (s : State) (sk index : Nat)
    (data : List Nat) (len : Nat) : Int × State :=
  if len ≠ sizeof_mgmt_cp_pair_device then
    cmd_status K env s sk index (K.op .PAIR_DEVICE) (K.errno .EINVAL)
  else
    match hci_dev_get s index with
    | none => cmd_status K env s sk index (K.op .PAIR_DEVICE) (K.errno .ENODEV)
    | some hdev =>
      let bdaddr := bytes 6 data
      let io_cap := data.getD 6 0
      let sec_level :=
        if io_cap = 0x03 then K.BT_SECURITY_MEDIUM % 256 else K.BT_SECURITY_HIGH % 256
      let auth_type :=
        if io_cap = 0x03 then K.HCI_AT_DEDICATED_BONDING % 256
        else K.HCI_AT_DEDICATED_BONDING_MITM % 256
      let s := emit s (.hci_connect hdev.id bdaddr sec_level auth_type)
      match env.hci_connect hdev bdaddr sec_level auth_type with
      | .error e => (e, s)
      | .ok conn =>
        let s := link_conn s hdev conn
        if conn.connect_cfm_cb then
          cmd_status K env (emit s (.hci_conn_put conn.ptr)) sk index (K.op .PAIR_DEVICE)
            (K.errno .EBUSY)
        else
          let (cmd, s) := mgmt_pending_add env s sk (K.op .PAIR_DEVICE) index (some data) len
          match cmd with
          | none => (-(K.errno .ENOMEM : Int), emit s (.hci_conn_put conn.ptr))
          | some cmd =>
            let conn := { conn with connect_cfm_cb := true, security_cfm_cb := true,
                                    disconn_cfm_cb := true, io_capability := io_cap }
            let s := set_conn s conn
            let cmd := { cmd with user_data := some conn.ptr }
            let s := { s with cmd_list := cmd :: s.cmd_list.tail }
            if conn.state = K.BT_CONNECTED then
              let s := emit s (.hci_conn_security conn.ptr sec_level auth_type)
              if env.hci_conn_security conn sec_level auth_type then
                (0, pairing_complete K env s cmd 0)
              else (0, s)
            else (0, s)

/-! ## Local name, out-of-band data, discovery, blacklist -/

/-- Size of struct mgmt_cp_set_local_name: name[HCI_MAX_NAME_LENGTH + 1]. -/
def sizeof_mgmt_cp_set_local_name : Nat := HCI_MAX_NAME_LENGTH + 1

/-- Size of struct mgmt_rp_read_local_oob_data: hash[16], randomizer[16]. -/
def sizeof_mgmt_rp_read_local_oob_data : Nat := 32

/-- Size of struct mgmt_cp_add_remote_oob_data: bdaddr, hash[16], randomizer[16]. -/
def sizeof_mgmt_cp_add_remote_oob_data : Nat := 38

/-- Size of struct mgmt_cp_remove_remote_oob_data: bdaddr. -/
def sizeof_mgmt_cp_remove_remote_oob_data : Nat := 6

/-- Size of struct mgmt_cp_block_device and struct mgmt_cp_unblock_device: bdaddr. -/
def sizeof_mgmt_cp_block_device : Nat := 6

def set_local_name (K : mgmt_defs) (env : Env) (s : State) (sk index : Nat)
    (data : List Nat) (len : Nat) : Int × State :=
  if len ≠ sizeof_mgmt_cp_set_local_name then
    cmd_status K env s sk index (K.op .SET_LOCAL_NAME) (K.errno .EINVAL)
  else
    match hci_dev_get s index with
    | none => cmd_status K env s sk index (K.op .SET_LOCAL_NAME) (K.errno .ENODEV)
    | some hdev =>
      let (cmd, s) := mgmt_pending_add env s sk (K.op .SET_LOCAL_NAME) index (some data) len
      match cmd with
      | none => (-(K.errno .ENOMEM : Int), s)
      | some cmd =>
        let (err, s) := hci_send_cmd env s hdev (K.hci .WRITE_LOCAL_NAME)
          (bytes HCI_MAX_NAME_LENGTH data)
        if err < 0 then (err, mgmt_pending_remove s cmd) else (err, s)

def read_local_oob_data (K : mgmt_defs) (env : Env) (s : State) (sk index : Nat) :
    Int × State :=
  match hci_dev_get s index with
  | none => cmd_status K env s sk index (K.op .READ_LOCAL_OOB_DATA) (K.errno .ENODEV)
  | some hdev =>
    if ¬ test_bit .HCI_UP hdev.flags = true then
      cmd_status K env s sk index (K.op .READ_LOCAL_OOB_DATA) (K.errno .ENETDOWN)
    else if hdev.features.getD 6 0 &&& K.LMP_SIMPLE_PAIR = 0 then
      cmd_status K env s sk index (K.op .READ_LOCAL_OOB_DATA) (K.errno .EOPNOTSUPP)
    else if (mgmt_pending_find s.cmd_list (K.op .READ_LOCAL_OOB_DATA) index).isSome then
      cmd_status K env s sk index (K.op .READ_LOCAL_OOB_DATA) (K.errno .EBUSY)
    else
      let (cmd, s) := mgmt_pending_add env s sk (K.op .READ_LOCAL_OOB_DATA) index none 0
      match cmd with
      | none => (-(K.errno .ENOMEM : Int), s)
      | some cmd =>
        let (err, s) := hci_send_cmd env s hdev (K.hci .READ_LOCAL_OOB_DATA) []
        if err < 0 then (err, mgmt_pending_remove s cmd) else (err, s)

def add_remote_oob_data (K : mgmt_defs) (env : Env) (s : State) (sk index : Nat)
    (data : List Nat) (len : Nat) : Int × State :=
  if len ≠ sizeof_mgmt_cp_add_remote_oob_data then
    cmd_status K env s sk index (K.op .ADD_REMOTE_OOB_DATA) (K.errno .EINVAL)
  else
    match hci_dev_get s index with
    | none => cmd_status K env s sk index (K.op .ADD_REMOTE_OOB_DATA) (K.errno .ENODEV)
    | some hdev =>
      let bdaddr := bytes 6 data
      let hash := bytes 16 (data.drop 6)
      let randomizer := bytes 16 (data.drop 22)
      let err := env.hci_add_remote_oob_data hdev bdaddr hash randomizer
      let s := emit s (.hci_add_remote_oob_data hdev.id bdaddr hash randomizer)
      if err < 0 then
        cmd_status K env s sk index (K.op .ADD_REMOTE_OOB_DATA) (neg_errno err)
      else cmd_complete K env s sk index (K.op .ADD_REMOTE_OOB_DATA) none 0

def remove_remote_oob_data (K : mgmt_defs) (env : Env) (s : State) (sk index : Nat)
    (data : List Nat) (len : Nat) : Int × State :=
  if len ≠ sizeof_mgmt_cp_remove_remote_oob_data then
    cmd_status K env s sk index (K.op .REMOVE_REMOTE_OOB_DATA) (K.errno .EINVAL)
  else
    match hci_dev_get s index with
    | none => cmd_status K env s sk index (K.op .REMOVE_REMOTE_OOB_DATA) (K.errno .ENODEV)
    | some hdev =>
      let bdaddr := bytes 6 data
      let err := env.hci_remove_remote_oob_data hdev bdaddr
      let s := emit s (.hci_remove_remote_oob_data hdev.id bdaddr)
      if err < 0 then
        cmd_status K env s sk index (K.op .REMOVE_REMOTE_OOB_DATA) (neg_errno err)
      else cmd_complete K env s sk index (K.op .REMOVE_REMOTE_OOB_DATA) none 0

def start_discovery (K : mgmt_defs) (env : Env) (s : State) (sk index : Nat) :
    Int × State :=
  match hci_dev_get s index with
  | none => cmd_status K env s sk index (K.op .START_DISCOVERY) (K.errno .ENODEV)
  | some hdev =>
    let (cmd, s) := mgmt_pending_add env s sk (K.op .START_DISCOVERY) index none 0
    match cmd with
    | none => (-(K.errno .ENOMEM : Int), s)
    | some cmd =>
      let cp := [0x33, 0x8b, 0x9e] ++ [0x08] ++ [0x00]
      let (err, s) := hci_send_cmd env s hdev (K.hci .INQUIRY) cp
      if err < 0 then (err, mgmt_pending_remove s cmd) else (err, s)

def stop_discovery (K : mgmt_defs) (env : Env) (s : State) (sk index : Nat) :
    Int × State :=
  match hci_dev_get s index with
  | none => cmd_status K env s sk index (K.op .STOP_DISCOVERY) (K.errno .ENODEV)
  | some hdev =>
    let (cmd, s) := mgmt_pending_add env s sk (K.op .STOP_DISCOVERY) index none 0
    match cmd with
    | none => (-(K.errno .ENOMEM : Int), s)
    | some cmd =>
      let (err, s) := hci_send_cmd env s hdev (K.hci .INQUIRY_CANCEL) []
      if err < 0 then (err, mgmt_pending_remove s cmd) else (err, s)

def block_device (K : mgmt_defs) (env : Env) (s : State) (sk index : Nat)
    (data : List Nat) (len : Nat) : Int × State :=
  if len ≠ sizeof_mgmt_cp_block_device then
    cmd_status K env s sk index (K.op .BLOCK_DEVICE) (K.errno .EINVAL)
  else
    match hci_dev_get s index with
    | none => cmd_status K env s sk index (K.op .BLOCK_DEVICE) (K.errno .ENODEV)
    | some hdev =>
      let err := env.hci_blacklist_add hdev (bytes 6 data)
      let s := emit s (.hci_blacklist_add hdev.id (bytes 6 data))
      if err < 0 then cmd_status K env s sk index (K.op .BLOCK_DEVICE) (neg_errno err)
      else cmd_complete K env s sk index (K.op .BLOCK_DEVICE) none 0

def unblock_device (K : mgmt_defs) (env : Env) (s : State) (sk index : Nat)
    (data : List Nat) (len : Nat) : Int × State :=
  if len ≠ sizeof_mgmt_cp_block_device then
    cmd_status K env s sk index (K.op .UNBLOCK_DEVICE) (K.errno .EINVAL)
  else
    match hci_dev_get s index with
    | none => cmd_status K env s sk index (K.op .UNBLOCK_DEVICE) (K.errno .ENODEV)
    | some hdev =>
      let err := env.hci_blacklist_del hdev (bytes 6 data)
      let s := emit s (.hci_blacklist_del hdev.id (bytes 6 data))
      if err < 0 then cmd_status K env s sk index (K.op .UNBLOCK_DEVICE) (neg_errno err)
      else cmd_complete K env s sk index (K.op .UNBLOCK_DEVICE) none 0

/-! ## Request dispatch -/

/-- The switch statement of `mgmt_control`. -/
def mgmt_switch (K : mgmt_defs) (env : Env) (s : State) (sk opcode index : Nat)
    (data : List Nat) (len : Nat) : Int × State :=
  if opcode = K.op .READ_VERSION then read_version K env s sk
  else if opcode = K.op .READ_INDEX_LIST then read_index_list K env s sk
  else if opcode = K.op .READ_INFO then read_controller_info K env s sk index
  else if opcode = K.op .SET_POWERED then set_powered K env s sk index data len
  else if opcode = K.op .SET_DISCOVERABLE then set_discoverable K env s sk index data len
  else if opcode = K.op .SET_CONNECTABLE then set_connectable K env s sk index data len
  else if opcode = K.op .SET_PAIRABLE then set_pairable K env s sk index data len
  else if opcode = K.op .ADD_UUID then add_uuid K env s sk index data len
  else if opcode = K.op .REMOVE_UUID then remove_uuid K env s sk index data len
  else if opcode = K.op .SET_DEV_CLASS then set_dev_class K env s sk index data len
  else if opcode = K.op .SET_SERVICE_CACHE then set_service_cache K env s sk index data len
  else if opcode = K.op .LOAD_KEYS then load_keys K env s sk index data len
  else if opcode = K.op .REMOVE_KEY then remove_key K env s sk index data len
  else if opcode = K.op .DISCONNECT then disconnect K env s sk index data len
  else if opcode = K.op .GET_CONNECTIONS then get_connections K env s sk index
  else if opcode = K.op .PIN_CODE_REPLY then pin_code_reply K env s sk index data len
  else if opcode = K.op .PIN_CODE_NEG_REPLY then pin_code_neg_reply K env s sk index data len
  else if opcode = K.op .SET_IO_CAPABILITY then set_io_capability K env s sk index data len
  else if opcode = K.op .PAIR_DEVICE then pair_device K env s sk index data len
  else if opcode = K.op .USER_CONFIRM_REPLY then
    user_confirm_reply K env s sk index data len true
  else if opcode = K.op .USER_CONFIRM_NEG_REPLY then
    user_confirm_reply K env s sk index data len false
  else if opcode = K.op .SET_LOCAL_NAME then set_local_name K env s sk index data len
  else if opcode = K.op .READ_LOCAL_OOB_DATA then read_local_oob_data K env s sk index
  else if opcode = K.op .ADD_REMOTE_OOB_DATA then add_remote_oob_data K env s sk index data len
  else if opcode = K.op .REMOVE_REMOTE_OOB_DATA then
    remove_remote_oob_data K env s sk index data len
  else if opcode = K.op .START_DISCOVERY then start_discovery K env s sk index
  else if opcode = K.op .STOP_DISCOVERY then stop_discovery K env s sk index
  else if opcode = K.op .BLOCK_DEVICE then block_device K env s sk index data len
  else if opcode = K.op .UNBLOCK_DEVICE then unblock_device K env s sk index data len
  else cmd_status K env s sk index opcode 0x01

/-- The request entry point: `msg` is the content of the message's iovec and
`msglen` its length. -/
def mgmt_control (K : mgmt_defs) (env : Env) (s : State) (sk : Nat) (msg : List Nat) :
    Int × State :=
  let msglen := msg.length
  if msglen < sizeof_mgmt_hdr then (-(K.errno .EINVAL : Int), s)
  else
    let (buf, s) := alloc env s
    if !buf then (-(K.errno .ENOMEM : Int), s)
    else if env.copy_fault then (-(K.errno .EFAULT : Int), s)
    else
      let opcode := get_le16 msg 0
      let index := get_le16 msg 2
      let len := get_le16 msg 4
      if len ≠ msglen - sizeof_mgmt_hdr then (-(K.errno .EINVAL : Int), s)
      else
        let (err, s) := mgmt_switch K env s sk opcode index (msg.drop sizeof_mgmt_hdr) len
        if err < 0 then (err, s) else ((msglen : Int), s)

/-- The handler the switch of `mgmt_control` names under each case label. -/
def handler_of (K : mgmt_defs) (env : Env) (s : State) (sk index : Nat)
    (data : List Nat) (len : Nat) : mgmt_op → Int × State
  | .READ_VERSION => read_version K env s sk
  | .READ_INDEX_LIST => read_index_list K env s sk
  | .READ_INFO => read_controller_info K env s sk index
  | .SET_POWERED => set_powered K env s sk index data len
  | .SET_DISCOVERABLE => set_discoverable K env s sk index data len
  | .SET_CONNECTABLE => set_connectable K env s sk index data len
  | .SET_PAIRABLE => set_pairable K env s sk index data len
  | .ADD_UUID => add_uuid K env s sk index data len
  | .REMOVE_UUID => remove_uuid K env s sk index data len
  | .SET_DEV_CLASS => set_dev_class K env s sk index data len
  | .SET_SERVICE_CACHE => set_service_cache K env s sk index data len
  | .LOAD_KEYS => load_keys K env s sk index data len
  | .REMOVE_KEY => remove_key K env s sk index data len
  | .DISCONNECT => disconnect K env s sk index data len
  | .GET_CONNECTIONS => get_connections K env s sk index
  | .PIN_CODE_REPLY => pin_code_reply K env s sk index data len
  | .PIN_CODE_NEG_REPLY => pin_code_neg_reply K env s sk index data len
  | .SET_IO_CAPABILITY => set_io_capability K env s sk index data len
  | .PAIR_DEVICE => pair_device K env s sk index data len
  | .USER_CONFIRM_REPLY => user_confirm_reply K env s sk index data len true
  | .USER_CONFIRM_NEG_REPLY => user_confirm_reply K env s sk index data len false
  | .SET_LOCAL_NAME => set_local_name K env s sk index data len
  | .READ_LOCAL_OOB_DATA => read_local_oob_data K env s sk index
  | .ADD_REMOTE_OOB_DATA => add_remote_oob_data K env s sk index data len
  | .REMOVE_REMOTE_OOB_DATA => remove_remote_oob_data K env s sk index data len
  | .START_DISCOVERY => start_discovery K env s sk index
  | .STOP_DISCOVERY => stop_discovery K env s sk index
  | .BLOCK_DEVICE => block_device K env s sk index data len
  | .UNBLOCK_DEVICE => unblock_device K env s sk index data len

/-- The `sizeof(*cp)` a handler compares `len` with, for the handlers that
start with `if (len != sizeof(*cp)) return cmd_status(..., EINVAL)`. -/
def fixed_param_size : mgmt_op → Option Nat
  | .SET_POWERED | .SET_DISCOVERABLE | .SET_CONNECTABLE | .SET_PAIRABLE => some sizeof_mgmt_mode
  | .ADD_UUID => some sizeof_mgmt_cp_add_uuid
  | .REMOVE_UUID => some sizeof_mgmt_cp_remove_uuid
  | .SET_DEV_CLASS => some sizeof_mgmt_cp_set_dev_class
  | .SET_SERVICE_CACHE => some sizeof_mgmt_cp_set_service_cache
  | .REMOVE_KEY => some sizeof_mgmt_cp_remove_key
  | .DISCONNECT => some sizeof_mgmt_cp_disconnect
  | .PIN_CODE_REPLY => some sizeof_mgmt_cp_pin_code_reply
  | .PIN_CODE_NEG_REPLY => some sizeof_mgmt_cp_pin_code_neg_reply
  | .SET_IO_CAPABILITY => some sizeof_mgmt_cp_set_io_capability
  | .PAIR_DEVICE => some sizeof_mgmt_cp_pair_device
  | .USER_CONFIRM_REPLY | .USER_CONFIRM_NEG_REPLY => some sizeof_mgmt_cp_user_confirm_reply
  | .SET_LOCAL_NAME => some sizeof_mgmt_cp_set_local_name
  | .ADD_REMOTE_OOB_DATA => some sizeof_mgmt_cp_add_remote_oob_data
  | .REMOVE_REMOTE_OOB_DATA => some sizeof_mgmt_cp_remove_remote_oob_data
  | .BLOCK_DEVICE | .UNBLOCK_DEVICE => some sizeof_mgmt_cp_block_device
  | .READ_VERSION | .READ_INDEX_LIST | .READ_INFO | .LOAD_KEYS | .GET_CONNECTIONS
  | .READ_LOCAL_OOB_DATA | .START_DISCOVERY | .STOP_DISCOVERY => none

/-- The tail of `mgmt_control` after the switch: a negative `err` is returned
as it is, otherwise the message length. -/
def mgmt_control_ret (msglen : Nat) (r : Int × State) : Int × State :=
  if r.1 < 0 then r else ((msglen : Int), r.2)

/-- The state `s` after `n` allocation requests and the collaborator calls
`calls`, the pending-command list and the controllers being as in `s`. -/
def State.after (s : State) (n : Nat) (calls : List Effect) : State :=
  { s with nalloc := s.nalloc + n, trace := s.trace ++ calls }

/-- The collaborator calls made between state `s` and a later state `s'`. -/
def new_trace (s s' : State) : List Effect := s'.trace.drop s.trace.length

/-- No allocation request fails. -/
def allocs_ok (env : Env) : Prop := ∀ n, env.alloc n = true

/-- Every submission to the HCI command queue fails. -/
def submission_fails (env : Env) : Prop := ∀ dev opcode param, env.hci_send_cmd dev opcode param < 0

/-- What a handler does when submissions to the HCI command queue fail: the
pending-command list is as before, and a handler that submitted a command
returns the negative result of that submission. -/
def rolls_back (env : Env) (s : State) (r : Int × State) : Prop :=
  r.2.cmd_list = s.cmd_list ∧
  ∀ dev opcode param, Effect.hci_send_cmd dev opcode param ∈ new_trace s r.2 →
    r.1 = env.hci_send_cmd dev opcode param ∧ r.1 < 0

/-! ## Callbacks of the HCI core -/

def mgmt_index_added (K : mgmt_defs) (env : Env) (s : State) (index : Nat) : Int × State :=
  mgmt_event K env s (K.ev .INDEX_ADDED) index none 0 none

def mgmt_index_removed (K : mgmt_defs) (env : Env) (s : State) (index : Nat) : Int × State :=
  mgmt_event K env s (K.ev .INDEX_REMOVED) index none 0 none

/-- The struct cmd_lookup handed to `mode_rsp`. -/
structure cmd_lookup where
  val : Nat
  sk : Option Nat
  deriving DecidableEq, Repr

def mode_rsp (K : mgmt_defs) (env : Env) (s : State) (cmd : pending_cmd)
    (mtch : cmd_lookup) : Bool × cmd_lookup × State :=
  let val := cmd.param.getD 0 0
  if val ≠ mtch.val then (false, mtch, s)
  else
    let (_, s) := send_mode_rsp K env s cmd.sk cmd.opcode (cmd.index % 65536).toNat val
    let mtch := if mtch.sk = none then { mtch with sk := some cmd.sk } else mtch
    (true, mtch, s)

def mgmt_powered (K : mgmt_defs) (env : Env) (s : State) (index powered : Nat) :
    Int × State :=
  let (mtch, s) := mgmt_pending_foreach s (K.op .SET_POWERED) index (mode_rsp K env)
    { val := powered, sk := none }
  mgmt_event K env s (K.ev .POWERED) index (some [powered]) sizeof_mgmt_mode mtch.sk

def mgmt_discoverable (K : mgmt_defs) (env : Env) (s : State) (index discoverable : Nat) :
    Int × State :=
  let (mtch, s) := mgmt_pending_foreach s (K.op .SET_DISCOVERABLE) index (mode_rsp K env)
    { val := discoverable, sk := none }
  mgmt_event K env s (K.ev .DISCOVERABLE) index (some [discoverable]) sizeof_mgmt_mode mtch.sk

def mgmt_connectable (K : mgmt_defs) (env : Env) (s : State) (index connectable : Nat) :
    Int × State :=
  let (mtch, s) := mgmt_pending_foreach s (K.op .SET_CONNECTABLE) index (mode_rsp K env)
    { val := connectable, sk := none }
  mgmt_event K env s (K.ev .CONNECTABLE) index (some [connectable]) sizeof_mgmt_mode mtch.sk

/-- The struct link_key fields read by `mgmt_new_key`. -/
structure link_key where
  bdaddr : List Nat
  type : Nat
  val : List Nat
  pin_len : Nat
  dlen : Nat
  data : List Nat
  deriving DecidableEq, Repr

def mgmt_new_key (K : mgmt_defs) (env : Env) (s : State) (index : Nat) (key : link_key)
    (persistent : Nat) : Int × State :=
  let total := 1 + sizeof_mgmt_key_info + key.dlen
  let (ev, s) := alloc env s
  if !ev then (-(K.errno .ENOMEM : Int), s)
  else
    let ev := [persistent % 256] ++ bytes 6 key.bdaddr ++ [key.type % 256] ++ bytes 16 key.val
      ++ [key.pin_len % 256] ++ [key.dlen % 256] ++ bytes key.dlen key.data
    mgmt_event K env s (K.ev .NEW_KEY) index (some ev) (total % 65536) none

def mgmt_connected (K : mgmt_defs) (env : Env) (s : State) (index : Nat)
    (bdaddr : List Nat) : Int × State :=
  mgmt_event K env s (K.ev .CONNECTED) index (some (bytes 6 bdaddr)) 6 none

def disconnect_rsp (K : mgmt_defs) (env : Env) (s : State) (cmd : pending_cmd)
    (_sk : Option Nat) : Bool × Option Nat × State :=
  let rp := bytes 6 cmd.param
  let (_, s) := cmd_complete K env s cmd.sk (cmd.index % 65536).toNat (K.op .DISCONNECT)
    (some rp) 6
  (true, some cmd.sk, s)

def mgmt_disconnected (K : mgmt_defs) (env : Env) (s : State) (index : Nat)
    (bdaddr : List Nat) : Int × State :=
  let (sk, s) := mgmt_pending_foreach s (K.op .DISCONNECT) index (disconnect_rsp K env) none
  mgmt_event K env s (K.ev .DISCONNECTED) index (some (bytes 6 bdaddr)) 6 sk

def mgmt_disconnect_failed (K : mgmt_defs) (env : Env) (s : State) (index : Nat) :
    Int × State :=
  match mgmt_pending_find s.cmd_list (K.op .DISCONNECT) index with
  | none => (-(K.errno .ENOENT : Int), s)
  | some cmd =>
    let (err, s) := cmd_status K env s cmd.sk index (K.op .DISCONNECT) (K.errno .EIO_)
    (err, mgmt_pending_remove s cmd)

def mgmt_connect_failed (K : mgmt_defs) (env : Env) (s : State) (index : Nat)
    (bdaddr : List Nat) (status : Nat) : Int × State :=
  mgmt_event K env s (K.ev .CONNECT_FAILED) index (some (bytes 6 bdaddr ++ [status % 256])) 7
    none

def mgmt_pin_code_request (K : mgmt_defs) (env : Env) (s : State) (index : Nat)
    (bdaddr : List Nat) (secure : Nat) : Int × State :=
  mgmt_event K env s (K.ev .PIN_CODE_REQUEST) index (some (bytes 6 bdaddr ++ [secure % 256])) 7
    none

def mgmt_pin_code_reply_complete (K : mgmt_defs) (env : Env) (s : State) (index : Nat)
    (bdaddr : List Nat) (status : Nat) : Int × State :=
  match mgmt_pending_find s.cmd_list (K.op .PIN_CODE_REPLY) index with
  | none => (-(K.errno .ENOENT : Int), s)
  | some cmd =>
    let rp := bytes 6 bdaddr ++ [status % 256]
    let (err, s) := cmd_complete K env s cmd.sk index (K.op .PIN_CODE_REPLY) (some rp) 7
    (err, mgmt_pending_remove s cmd)

def mgmt_pin_code_neg_reply_complete (K : mgmt_defs) (env : Env) (s : State) (index : Nat)
    (bdaddr : List Nat) (status : Nat) : Int × State :=
  match mgmt_pending_find s.cmd_list (K.op .PIN_CODE_NEG_REPLY) index with
  | none => (-(K.errno .ENOENT : Int), s)
  | some cmd =>
    let rp := bytes 6 bdaddr ++ [status % 256]
    let (err, s) := cmd_complete K env s cmd.sk index (K.op .PIN_CODE_NEG_REPLY) (some rp) 7
    (err, mgmt_pending_remove s cmd)

def mgmt_user_confirm_request (K : mgmt_defs) (env : Env) (s : State) (index : Nat)
    (bdaddr : List Nat) (value confirm_hint : Nat) : Int × State :=
  let ev := bytes 6 bdaddr ++ [confirm_hint % 256]
    ++ [value % 256, value / 256 % 256, value / 65536 % 256, value / 16777216 % 256]
  mgmt_event K env s (K.ev .USER_CONFIRM_REQUEST) index (some ev) 11 none

/-- The parameter `opcode` of `confirm_reply_complete` is a `u8`. -/
def confirm_reply_complete (K : mgmt_defs) (env : Env) (s : State) (index : Nat)
    (bdaddr : List Nat) (status opcode : Nat) : Int × State :=
  let opcode := opcode % 256
  match mgmt_pending_find s.cmd_list opcode index with
  | none => (-(K.errno .ENOENT : Int), s)
  | some cmd =>
    let rp := bytes 6 bdaddr ++ [status % 256]
    let (err, s) := cmd_complete K env s cmd.sk index opcode (some rp) 7
    (err, mgmt_pending_remove s cmd)

def mgmt_user_confirm_reply_complete (K : mgmt_defs) (env : Env) (s : State) (index : Nat)
    (bdaddr : List Nat) (status : Nat) : Int × State :=
  confirm_reply_complete K env s index bdaddr status (K.op .USER_CONFIRM_REPLY)

def mgmt_user_confirm_neg_reply_complete (K : mgmt_defs) (env : Env) (s : State)
    (index : Nat) (bdaddr : List Nat) (status : Nat) : Int × State :=
  confirm_reply_complete K env s index bdaddr status (K.op .USER_CONFIRM_NEG_REPLY)

def mgmt_auth_failed (K : mgmt_defs) (env : Env) (s : State) (index : Nat)
    (bdaddr : List Nat) (status : Nat) : Int × State :=
  mgmt_event K env s (K.ev .AUTH_FAILED) index (some (bytes 6 bdaddr ++ [status % 256])) 7 none

def mgmt_set_local_name_complete (K : mgmt_defs) (env : Env) (s : State) (index : Nat)
    (name : List Nat) (status : Nat) : Int × State :=
  let ev := bytes HCI_MAX_NAME_LENGTH name ++ [0]
  match mgmt_pending_find s.cmd_list (K.op .SET_LOCAL_NAME) index with
  | none =>
    mgmt_event K env s (K.ev .LOCAL_NAME_CHANGED) index (some ev)
      sizeof_mgmt_cp_set_local_name none
  | some cmd =>
    if status ≠ 0 then
      let (err, s) := cmd_status K env s cmd.sk index (K.op .SET_LOCAL_NAME) (K.errno .EIO_)
      (err, mgmt_pending_remove s cmd)
    else
      let s := match hci_dev_get s index with
        | some hdev =>
          let (_, hdev, s) := update_eir K env s hdev
          set_dev s hdev
        | none => s
      let (err, s) := cmd_complete K env s cmd.sk index (K.op .SET_LOCAL_NAME) (some ev)
        sizeof_mgmt_cp_set_local_name
      if err < 0 then (err, mgmt_pending_remove s cmd)
      else
        let (err, s) := mgmt_event K env s (K.ev .LOCAL_NAME_CHANGED) index (some ev)
          sizeof_mgmt_cp_set_local_name (some cmd.sk)
        (err, mgmt_pending_remove s cmd)

def mgmt_read_local_oob_data_reply_complete (K : mgmt_defs) (env : Env) (s : State)
    (index : Nat) (hash randomizer : List Nat) (status : Nat) : Int × State :=
  match mgmt_pending_find s.cmd_list (K.op .READ_LOCAL_OOB_DATA) index with
  | none => (-(K.errno .ENOENT : Int), s)
  | some cmd =>
    let (err, s) :=
      if status ≠ 0 then
        cmd_status K env s cmd.sk index (K.op .READ_LOCAL_OOB_DATA) (K.errno .EIO_)
      else
        cmd_complete K env s cmd.sk index (K.op .READ_LOCAL_OOB_DATA)
          (some (bytes 16 hash ++ bytes 16 randomizer)) sizeof_mgmt_rp_read_local_oob_data
    (err, mgmt_pending_remove s cmd)

def mgmt_device_found (K : mgmt_defs) (env : Env) (s : State) (index : Nat)
    (bdaddr dev_class : List Nat) (rssi : Nat) (eir : Option (List Nat)) : Int × State :=
  let eir_bytes := match eir with
    | some e => bytes HCI_MAX_EIR_LENGTH e
    | none => List.replicate HCI_MAX_EIR_LENGTH 0
  let ev := bytes 6 bdaddr ++ bytes 3 dev_class ++ [rssi % 256] ++ eir_bytes
  mgmt_event K env s (K.ev .DEVICE_FOUND) index (some ev) 250 none

def mgmt_remote_name (K : mgmt_defs) (env : Env) (s : State) (index : Nat)
    (bdaddr name : List Nat) : Int × State :=
  let ev := bytes 6 bdaddr ++ bytes HCI_MAX_NAME_LENGTH name ++ [0]
  mgmt_event K env s (K.ev .REMOTE_NAME) index (some ev) 255 none

def mgmt_discovering (K : mgmt_defs) (env : Env) (s : State) (index discovering : Nat) :
    Int × State :=
  mgmt_event K env s (K.ev .DISCOVERING) index (some [discovering % 256]) 1 none

/-! ## The management core as a transition system -/

/-- What can happen to the management core: a client request, one of the
callbacks invoked by the HCI core, or a change the HCI core makes to the
controller registry on its own (registration, removal, flag changes). -/
inductive Input
  | control (sk : Nat) (msg : List Nat)
  | index_added (index : Nat)
  | index_removed (index : Nat)
  | powered (index val : Nat)
  | discoverable (index val : Nat)
  | connectable (index val : Nat)
  | new_key (index : Nat) (key : link_key) (persistent : Nat)
  | connected (index : Nat) (bdaddr : List Nat)
  | disconnected (index : Nat) (bdaddr : List Nat)
  | disconnect_failed (index : Nat)
  | connect_failed (index : Nat) (bdaddr : List Nat) (status : Nat)
  | pin_code_request (index : Nat) (bdaddr : List Nat) (secure : Nat)
  | pin_code_reply_complete (index : Nat) (bdaddr : List Nat) (status : Nat)
  | pin_code_neg_reply_complete (index : Nat) (bdaddr : List Nat) (status : Nat)
  | user_confirm_request (index : Nat) (bdaddr : List Nat) (value confirm_hint : Nat)
  | user_confirm_reply_complete (index : Nat) (bdaddr : List Nat) (status : Nat)
  | user_confirm_neg_reply_complete (index : Nat) (bdaddr : List Nat) (status : Nat)
  | auth_failed (index : Nat) (bdaddr : List Nat) (status : Nat)
  | set_local_name_complete (index : Nat) (name : List Nat) (status : Nat)
  | read_local_oob_data_reply_complete (index : Nat) (hash randomizer : List Nat)
      (status : Nat)
  | device_found (index : Nat) (bdaddr dev_class : List Nat) (rssi : Nat)
      (eir : Option (List Nat))
  | remote_name (index : Nat) (bdaddr name : List Nat)
  | discovering (index val : Nat)
  | pairing_cb (conn status : Nat)
  | hci_core (devs : List hci_dev)

/-- The state after one input. -/
def step (K : mgmt_defs) (env : Env) (s : State) : Input → State
  | .control sk msg => (mgmt_control K env s sk msg).2
  | .index_added i => (mgmt_index_added K env s i).2
  | .index_removed i => (mgmt_index_removed K env s i).2
  | .powered i v => (mgmt_powered K env s i v).2
  | .discoverable i v => (mgmt_discoverable K env s i v).2
  | .connectable i v => (mgmt_connectable K env s i v).2
  | .new_key i k p => (mgmt_new_key K env s i k p).2
  | .connected i b => (mgmt_connected K env s i b).2
  | .disconnected i b => (mgmt_disconnected K env s i b).2
  | .disconnect_failed i => (mgmt_disconnect_failed K env s i).2
  | .connect_failed i b st => (mgmt_connect_failed K env s i b st).2
  | .pin_code_request i b sec => (mgmt_pin_code_request K env s i b sec).2
  | .pin_code_reply_complete i b st => (mgmt_pin_code_reply_complete K env s i b st).2
  | .pin_code_neg_reply_complete i b st => (mgmt_pin_code_neg_reply_complete K env s i b st).2
  | .user_confirm_request i b v h => (mgmt_user_confirm_request K env s i b v h).2
  | .user_confirm_reply_complete i b st =>
    (mgmt_user_confirm_reply_complete K env s i b st).2
  | .user_confirm_neg_reply_complete i b st =>
    (mgmt_user_confirm_neg_reply_complete K env s i b st).2
  | .auth_failed i b st => (mgmt_auth_failed K env s i b st).2
  | .set_local_name_complete i n st => (mgmt_set_local_name_complete K env s i n st).2
  | .read_local_oob_data_reply_complete i h r st =>
    (mgmt_read_local_oob_data_reply_complete K env s i h r st).2
  | .device_found i b c r e => (mgmt_device_found K env s i b c r e).2
  | .remote_name i b n => (mgmt_remote_name K env s i b n).2
  | .discovering i v => (mgmt_discovering K env s i v).2
  | .pairing_cb c st => pairing_complete_cb K env s c st
  | .hci_core devs => { s with hci_dev_list := devs }

/-- The state after a sequence of inputs, each with the collaborator results
in force while it is handled. -/
def run (K : mgmt_defs) (s : State) : List (Env × Input) → State
  | [] => s
  | (env, i) :: rest => run K (step K env s i) rest

/-- States reachable from a state with an empty pending-command list. -/
def Reachable (K : mgmt_defs) (s : State) : Prop :=
  ∃ s0 ins, s0.cmd_list = [] ∧ s = run K s0 ins

/-! ## A concrete numbering and concrete environments, for evaluation -/

/-- The numbering used by the Linux headers of this kernel generation. -/
def linux_defs : mgmt_defs where
  op := fun o => match o with
    | .READ_VERSION => 0x0001 | .READ_INDEX_LIST => 0x0003 | .READ_INFO => 0x0004
    | .SET_POWERED => 0x0005 | .SET_DISCOVERABLE => 0x0006 | .SET_CONNECTABLE => 0x0007
    | .SET_PAIRABLE => 0x0008 | .ADD_UUID => 0x0009 | .REMOVE_UUID => 0x000A
    | .SET_DEV_CLASS => 0x000B | .SET_SERVICE_CACHE => 0x000C | .LOAD_KEYS => 0x000D
    | .REMOVE_KEY => 0x000E | .DISCONNECT => 0x000F | .GET_CONNECTIONS => 0x0010
    | .PIN_CODE_REPLY => 0x0011 | .PIN_CODE_NEG_REPLY => 0x0012
    | .SET_IO_CAPABILITY => 0x0013 | .PAIR_DEVICE => 0x0014
    | .USER_CONFIRM_REPLY => 0x0015 | .USER_CONFIRM_NEG_REPLY => 0x0016
    | .SET_LOCAL_NAME => 0x0017 | .READ_LOCAL_OOB_DATA => 0x0018
    | .ADD_REMOTE_OOB_DATA => 0x0019 | .REMOVE_REMOTE_OOB_DATA => 0x001A
    | .START_DISCOVERY => 0x001B | .STOP_DISCOVERY => 0x001C
    | .BLOCK_DEVICE => 0x001D | .UNBLOCK_DEVICE => 0x001E
  op_inj := by intro a b h; cases a <;> cases b <;> first | rfl | exact absurd h (by decide)
  op_lt := by intro o; cases o <;> decide
  ev := fun e => match e with
    | .CMD_COMPLETE => 0x0001 | .CMD_STATUS => 0x0002 | .INDEX_ADDED => 0x0004
    | .INDEX_REMOVED => 0x0005 | .POWERED => 0x0006 | .DISCOVERABLE => 0x0007
    | .CONNECTABLE => 0x0008 | .PAIRABLE => 0x0009 | .NEW_KEY => 0x000A
    | .CONNECTED => 0x000B | .DISCONNECTED => 0x000C | .CONNECT_FAILED => 0x000D
    | .PIN_CODE_REQUEST => 0x000E | .USER_CONFIRM_REQUEST => 0x000F
    | .AUTH_FAILED => 0x0010 | .LOCAL_NAME_CHANGED => 0x0011 | .DEVICE_FOUND => 0x0012
    | .REMOTE_NAME => 0x0013 | .DISCOVERING => 0x0014
  hci := fun o => match o with
    | .WRITE_SCAN_ENABLE => 0x0c1a | .WRITE_EIR => 0x0c52 | .WRITE_CLASS_OF_DEV => 0x0c24
    | .DISCONNECT => 0x0406 | .PIN_CODE_REPLY => 0x040d | .PIN_CODE_NEG_REPLY => 0x040e
    | .USER_CONFIRM_REPLY => 0x042c | .USER_CONFIRM_NEG_REPLY => 0x042d
    | .WRITE_LOCAL_NAME => 0x0c13 | .READ_LOCAL_OOB_DATA => 0x0c57
    | .INQUIRY => 0x0401 | .INQUIRY_CANCEL => 0x0402
  errno := fun e => match e with
    | .EINVAL => 22 | .ENODEV => 19 | .ENOMEM => 12 | .EBUSY => 16 | .EALREADY => 114
    | .ENETDOWN => 100 | .ENOTCONN => 107 | .EIO_ => 5 | .ENOENT => 2
    | .EOPNOTSUPP => 95 | .EFAULT => 14
  errno_pos := by intro e; cases e <;> decide
  errno_lt := by intro e; cases e <;> decide
  errno_inj := by intro a b h; cases a <;> cases b <;> first | rfl | exact absurd h (by decide)
  ACL_LINK := 0x01
  LE_LINK := 0x80
  BT_SECURITY_MEDIUM := 2
  BT_SECURITY_HIGH := 3
  BT_CONNECTED := 1
  HCI_AT_DEDICATED_BONDING := 0x02
  HCI_AT_DEDICATED_BONDING_MITM := 0x03
  SCAN_INQUIRY := 0x01
  SCAN_PAGE := 0x02
  HCI_LK_SMP_LTK := 0x81
  LMP_EXT_INQ := 0x01
  LMP_SIMPLE_PAIR := 0x08

/-- Collaborators that never fail: every allocation succeeds, the copy from
user space succeeds, the HCI core accepts every command. -/
def env_ok : Env where
  alloc := fun _ => true
  copy_fault := false
  hci_send_cmd := fun _ _ _ => 0
  hci_connect := fun _ _ _ _ => .error (-16)
  hci_conn_security := fun _ _ _ => false
  hci_remove_link_key := fun _ _ => 0
  hci_add_remote_oob_data := fun _ _ _ _ => 0
  hci_remove_remote_oob_data := fun _ _ => 0
  hci_blacklist_add := fun _ _ => 0
  hci_blacklist_del := fun _ _ => 0
  hci_uuids_clear := fun _ => 0

/-- As `env_ok`, but the HCI core rejects every command with -ENOMEM. -/
def env_send_fail : Env := { env_ok with hci_send_cmd := fun _ _ _ => -12 }

/-- As `env_ok`, but no allocation succeeds. -/
def env_no_mem : Env := { env_ok with alloc := fun _ => false }

def flags0 : hci_flags :=
  { up := false, pscan := false, iscan := false, auth := false, setup := false,
    mgmt := false, pairable := false, service_cache := false, link_keys := false,
    debug_keys := false, rest := 0 }

/-- A powered-down controller hci0 without connections. -/
def hdev0 : hci_dev :=
  { id := 0, flags := flags0, dev_type := 0, ssp_mode := 0,
    bdaddr := [1, 2, 3, 4, 5, 6], features := [0, 0, 0, 0, 0, 0, 0, 0],
    dev_class := [0, 0, 0], manufacturer := 0, hci_ver := 0, hci_rev := 0,
    dev_name := [], uuids := [], eir := [], major_class := 0, minor_class := 0,
    io_capability := 0, conn_hash := [] }

/-- The controller hci0 powered up, with one ACL connection to 11:12:13:14:15:16. -/
def hdev0_up : hci_dev :=
  { hdev0 with
    flags := { flags0 with up := true },
    conn_hash := [{ ptr := 1, type := 1, dst := [0x16, 0x15, 0x14, 0x13, 0x12, 0x11],
                    handle := 42, state := 1, pending_sec_level := 0, io_capability := 0,
                    connect_cfm_cb := false, security_cfm_cb := false,
                    disconn_cfm_cb := false }] }

/-- The controller hci0 powered up and connectable (page scan on). -/
def hdev0_conn : hci_dev :=
  { hdev0_up with flags := { flags0 with up := true, pscan := true } }

/-- One registered, powered-up, connectable controller and nothing pending. -/
def st0_conn : State :=
  { cmd_list := [], hci_dev_list := [hdev0_conn], nalloc := 0, trace := [] }

/-- One registered, powered-down controller and nothing pending. -/
def st0 : State := { cmd_list := [], hci_dev_list := [hdev0], nalloc := 0, trace := [] }

/-- One registered, powered-up controller and nothing pending. -/
def st0_up : State := { cmd_list := [], hci_dev_list := [hdev0_up], nalloc := 0, trace := [] }

/-! ## Uniqueness of pending mode and disconnect commands -/

/-- The number of pending commands with the given opcode and controller index. -/
def pending_count (l : List pending_cmd) (opcode : Nat) (index : Int) : Nat :=
  l.countP (fun c => decide (c.opcode = opcode ∧ c.index = index))

/-- The opcodes whose handlers look for a pending command of the same opcode
and index before registering a new one. -/
def exclusive_ops : List mgmt_op :=
  [.SET_POWERED, .SET_DISCOVERABLE, .SET_CONNECTABLE, .DISCONNECT]

/-- How one input may change the pending-command list: entries are unlinked,
or one entry is linked at the head, and for the exclusive opcodes only after a
failed search for that opcode and index. -/
inductive PendStep (K : mgmt_defs) (l : List pending_cmd) : List pending_cmd → Prop
  | sub {l' : List pending_cmd} : l'.Sublist l → PendStep K l l'
  | add (cmd : pending_cmd) :
      (∀ o ∈ exclusive_ops, cmd.opcode = K.op o →
        mgmt_pending_find l cmd.opcode cmd.index = none) →
      PendStep K l (cmd :: l)

/-- At most one pending command per controller index for each exclusive opcode. -/
def unique_pending (K : mgmt_defs) (l : List pending_cmd) : Prop :=
  ∀ o ∈ exclusive_ops, ∀ i : Int, pending_count l (K.op o) i ≤ 1

/-! ## Vocabulary of the claims about callbacks -/

/-- The test of `mode_rsp` together with the filter of `mgmt_pending_foreach`:
the pending commands of `opcode` for controller `index` whose stored request
value is `val`. -/
def mode_matches (opcode index val : Nat) (c : pending_cmd) : Bool :=
  decide (c.opcode = opcode ∧ c.index = (index : Int) ∧ c.param.getD 0 0 = val)

/-- The filter of `mgmt_pending_foreach`: the pending commands of `opcode` for
controller `index`. -/
def index_matches (opcode index : Nat) (c : pending_cmd) : Bool :=
  decide (c.opcode = opcode ∧ c.index = (index : Int))

/-- Modelled from the spec: hci_send_to_sock is defined in hci_sock.c, which is
not among the sources; an Event frame is broadcast "to every subscriber socket
except the one" passed as skip_sk.  The sockets of `subscribers` that receive a
frame sent with `skip_sk`. -/
def event_receivers (subscribers : List Nat) (skip_sk : Option Nat) : List Nat :=
  subscribers.filter (fun sk => decide (some sk ≠ skip_sk))

/-- The sockets to which a frame is queued by one of the calls `calls`. -/
def reply_receivers (calls : List Effect) : List Nat :=
  calls.filterMap (fun e => match e with
    | .sock_queue_rcv_skb sk _ => some sk
    | _ => none)

/-- Controller hci0 with three SET_POWERED commands pending: clients 7 and 8
asked for power on, client 9 for power off. -/
def st0_waiting : State :=
  { cmd_list :=
      [{ opcode := linux_defs.op .SET_POWERED, index := 0, param := [1], sk := 7,
         user_data := none },
       { opcode := linux_defs.op .SET_POWERED, index := 0, param := [0], sk := 9,
         user_data := none },
       { opcode := linux_defs.op .SET_POWERED, index := 0, param := [1], sk := 8,
         user_data := none }],
    hci_dev_list := [hdev0], nalloc := 0, trace := [] }

/-! ## The entries read by load_keys -/

/-- The values taken by the read offset `i` of the loop `while (i < len)` of
`load_keys` at the start of its iterations: each entry moves it on by
`sizeof(*key) + key->dlen`. -/
def key_offsets (keys : List Nat) (len : Nat) : Nat → Nat → List Nat
  | 0, _ => []
  | fuel + 1, i =>
    if i < len then
      i :: key_offsets keys len fuel (i + (sizeof_mgmt_key_info + (keys.drop i).getD 24 0))
    else []

/-- The call made by the body of the loop of `load_keys` for the entry at
offset `i`: none for a long-term key whose dlen is not the size of a
key_master_id. -/
def key_call (K : mgmt_defs) (dev : Nat) (keys : List Nat) (i : Nat) : Option Effect :=
  let key := keys.drop i
  let bdaddr := bytes 6 key
  let type := key.getD 6 0
  let val := bytes 16 (key.drop 7)
  let pin_len := key.getD 23 0
  let dlen := key.getD 24 0
  if type = K.HCI_LK_SMP_LTK then
    if dlen ≠ sizeof_key_master_id then none
    else some (Effect.hci_add_ltk dev bdaddr pin_len (get_le16 key 25) (bytes 8 (key.drop 27)) val)
  else some (Effect.hci_add_link_key dev bdaddr val type pin_len)

/-- An ACL connection to 11:12:13:14:15:16 waiting for high security. -/
def conn0_high : hci_conn :=
  { ptr := 1, type := 1, dst := [0x16, 0x15, 0x14, 0x13, 0x12, 0x11], handle := 42,
    state := 1, pending_sec_level := 3, io_capability := 0, connect_cfm_cb := false,
    security_cfm_cb := false, disconn_cfm_cb := false }

/-- The controller hci0 powered up, with the connection `conn0_high`. -/
def hdev0_high : hci_dev := { hdev0_up with conn_hash := [conn0_high] }

/-- One registered controller with a connection waiting for high security, and
nothing pending. -/
def st0_high : State :=
  { cmd_list := [], hci_dev_list := [hdev0_high], nalloc := 0, trace := [] }

/-- The 128-bit form of the 16-bit service UUID 0x110A. -/
def uuid_110a : List Nat :=
  [0xFB, 0x34, 0x9B, 0x5F, 0x80, 0x00, 0x00, 0x80, 0x00, 0x10, 0x00, 0x00, 0x0A, 0x11, 0x00, 0x00]

/-- The controller hci0 with the UUID 0x110A registered, service hint 0x20. -/
def hdev0_uuid : hci_dev := { hdev0 with uuids := [{ uuid := uuid_110a, svc_hint := 0x20 }] }

/-- One registered controller with one UUID, and nothing pending. -/
def st0_uuid : State :=
  { cmd_list := [], hci_dev_list := [hdev0_uuid], nalloc := 0, trace := [] }

/-- The controller hci0 still in the HCI_SETUP state. -/
def hdev0_setup : hci_dev := { hdev0 with flags := { flags0 with setup := true } }

/-- A second controller, hci1, powered down. -/
def hdev1 : hci_dev := { hdev0 with id := 1 }

/-- Two registered controllers, hci0 in setup and hci1, and nothing pending. -/
def st_setup : State :=
  { cmd_list := [], hci_dev_list := [hdev0_setup, hdev1], nalloc := 0, trace := [] }

/-- The ACL connection to 11:12:13:14:15:16 with the three pairing callbacks
attached. -/
def conn0_pairing : hci_conn :=
  { ptr := 1, type := 1, dst := [0x16, 0x15, 0x14, 0x13, 0x12, 0x11], handle := 42,
    state := 1, pending_sec_level := 0, io_capability := 1, connect_cfm_cb := true,
    security_cfm_cb := true, disconn_cfm_cb := true }

/-- The PAIR_DEVICE command of client 7 waiting on `conn0_pairing`. -/
def cmd0_pairing : pending_cmd :=
  { opcode := linux_defs.op .PAIR_DEVICE, index := 0,
    param := [0x16, 0x15, 0x14, 0x13, 0x12, 0x11, 1], sk := 7, user_data := some 1 }

/-- The controller hci0 while client 7 pairs with 11:12:13:14:15:16. -/
def st0_pairing : State :=
  { cmd_list := [cmd0_pairing],
    hci_dev_list := [{ hdev0_up with conn_hash := [conn0_pairing] }], nalloc := 0, trace := [] }

/-! ## The content of the EIR block, field by field

The definitions of this section say what `create_eir` is to leave in the
buffer; the theorems compare them with `create_eir` itself. -/

/-- The loop of `create_eir` over `hdev->uuids` told on the 16-bit values alone:
`acc` are the values listed so far, in order, and `eir_len` is the space used.
`none` when a value is 0 (the function returns from inside the loop), otherwise
the values listed and `truncated`. -/
def uuid16_gather : List Nat → List Nat → Nat → Option (List Nat × Bool)
  | [], acc, _ => some (acc, false)
  | u :: rest, acc, eir_len =>
    if u = 0 then none
    else if u < 0x1100 then uuid16_gather rest acc eir_len
    else if u = PNP_INFO_SVCLASS_ID then uuid16_gather rest acc eir_len
    else if eir_len + 2 + 2 > HCI_MAX_EIR_LENGTH then some (acc, true)
    else if u ∈ acc then uuid16_gather rest acc eir_len
    else uuid16_gather rest (acc ++ [u]) (eir_len + 2)

/-- The 16-bit values of the registered UUIDs, in list order. -/
def uuid16_values (uuids : List bt_uuid) : List Nat :=
  uuids.map (fun u => get_uuid16 u.uuid)

/-- The 16-bit values that may be listed in the UUID field: at least 0x1100 and
not PNP_INFO_SVCLASS_ID. -/
def eligible_uuid16 (uuids : List bt_uuid) : List Nat :=
  (uuid16_values uuids).filter (fun v => decide (0x1100 ≤ v ∧ v ≠ PNP_INFO_SVCLASS_ID))

/-- The values of a list in order of first occurrence. -/
def first_occurrences (l : List Nat) : List Nat :=
  l.foldl (fun acc u => if u ∈ acc then acc else acc ++ [u]) []

/-- The length of the name put in the name field: at most 48 bytes. -/
def eir_name_len (hdev : hci_dev) : Nat := min (strlen hdev.dev_name) 48

/-- The name field: length byte, type byte, name; nothing for an empty name. -/
def eir_name_field (hdev : hci_dev) : List Nat :=
  if strlen hdev.dev_name = 0 then []
  else
    [eir_name_len hdev + 1,
     if strlen hdev.dev_name > 48 then EIR_NAME_SHORT else EIR_NAME_COMPLETE]
    ++ hdev.dev_name.take (eir_name_len hdev)

/-- The UUID field for the listed values `l`: length byte, type byte, the values
in little-endian; nothing when no value is listed. -/
def eir_uuid16_field (l : List Nat) (truncated : Bool) : List Nat :=
  if l = [] then []
  else
    [2 * l.length + 1, if truncated then EIR_UUID16_SOME else EIR_UUID16_ALL]
    ++ l.flatMap (fun u => [u % 256, u / 256 % 256])

/-- The fields of the EIR block of a controller: the name field, followed by
the UUID field unless the UUID loop came across a value of 0. -/
def eir_fields (hdev : hci_dev) : List Nat :=
  eir_name_field hdev ++
    match uuid16_gather (uuid16_values hdev.uuids) [] (eir_name_field hdev).length with
    | none => []
    | some (l, truncated) => eir_uuid16_field l truncated

/-- The 128-bit form of the 16-bit UUID `v`. -/
def uuid128_of (v : Nat) : List Nat :=
  bluetooth_base_uuid.take 12 ++ [v % 256, v / 256 % 256, 0, 0]

/-- The controller hci0 named "AB" with the UUIDs 0x110A, 0x110B and 0x110A
again. -/
def hdev0_three_uuids : hci_dev :=
  { hdev0 with
    dev_name := [0x41, 0x42],
    uuids := [{ uuid := uuid128_of 0x110A, svc_hint := 0 },
              { uuid := uuid128_of 0x110B, svc_hint := 0 },
              { uuid := uuid128_of 0x110A, svc_hint := 0 }] }

/-- The controller hci0 without a name, with the 119 UUIDs 0x1101 .. 0x1177
registered, followed by 0x1101 once more. -/
def hdev0_full : hci_dev :=
  { hdev0 with
    uuids := (List.range 119).map (fun i => { uuid := uuid128_of (0x1101 + i), svc_hint := 0 })
      ++ [{ uuid := uuid128_of 0x1101, svc_hint := 0 }] }

/-! # Theorems -/

section
variable (K : mgmt_defs) (env : Env) (s : State)

/-! ## The pending-command list under each operation -/

@[simp] theorem emit_cmd_list (e : Effect) : (emit s e).cmd_list = s.cmd_list := rfl
@[simp] theorem emit_hci_dev_list (e : Effect) : (emit s e).hci_dev_list = s.hci_dev_list := rfl
@[simp] theorem alloc_cmd_list : (alloc env s).2.cmd_list = s.cmd_list := rfl
@[simp] theorem set_dev_cmd_list (h : hci_dev) : (set_dev s h).cmd_list = s.cmd_list := rfl

@[simp] theorem cmd_status_cmd_list (sk i c st : Nat) :
    (cmd_status K env s sk i c st).2.cmd_list = s.cmd_list := by
  unfold cmd_status
  simp only [alloc]
  split <;> rfl

@[simp] theorem cmd_complete_cmd_list (sk i c : Nat) (rp : Option (List Nat)) (n : Nat) :
    (cmd_complete K env s sk i c rp n).2.cmd_list = s.cmd_list := by
  unfold cmd_complete
  simp only [alloc]
  split <;> rfl

@[simp] theorem mgmt_event_cmd_list (e i : Nat) (d : Option (List Nat)) (n : Nat) (sk : Option Nat) :
    (mgmt_event K env s e i d n sk).2.cmd_list = s.cmd_list := by
  unfold mgmt_event
  simp only [alloc]
  split <;> rfl

@[simp] theorem hci_send_cmd_cmd_list (h : hci_dev) (o : Nat) (p : List Nat) :
    (hci_send_cmd env s h o p).2.cmd_list = s.cmd_list := rfl

@[simp] theorem set_conn_cmd_list (c : hci_conn) : (set_conn s c).cmd_list = s.cmd_list := rfl

@[simp] theorem link_conn_cmd_list (h : hci_dev) (c : hci_conn) :
    (link_conn s h c).cmd_list = s.cmd_list := by
  unfold link_conn
  split <;> rfl

@[simp] theorem mgmt_pending_remove_cmd_list (cmd : pending_cmd) :
    (mgmt_pending_remove s cmd).cmd_list = s.cmd_list.erase cmd := rfl

@[simp] theorem update_class_cmd_list (h : hci_dev) :
    (update_class K env s h).2.cmd_list = s.cmd_list := by
  unfold update_class
  repeat' (first | simp | split)

@[simp] theorem update_eir_cmd_list (h : hci_dev) :
    (update_eir K env s h).2.2.cmd_list = s.cmd_list := by
  unfold update_eir
  repeat' (first | simp | split)

@[simp] theorem pairing_complete_cmd_list (cmd : pending_cmd) (st : Nat) :
    (pairing_complete K env s cmd st).cmd_list = s.cmd_list.erase cmd := by
  unfold pairing_complete
  repeat' (first | simp | split)

theorem PendStep.same (K : mgmt_defs) (l : List pending_cmd) : PendStep K l l :=
  PendStep.sub (List.Sublist.refl l)

theorem PendStep.of_eq (K : mgmt_defs) {l l' : List pending_cmd} (h : l' = l) :
    PendStep K l l' := h ▸ PendStep.same K l

theorem PendStep.erase (K : mgmt_defs) (l : List pending_cmd) (c : pending_cmd) :
    PendStep K l (l.erase c) :=
  PendStep.sub (List.erase_sublist c l)

@[simp] theorem mgmt_pending_add_cmd_list (sk opcode index : Nat) (d : Option (List Nat))
    (n : Nat) :
    (mgmt_pending_add env s sk opcode index d n).2.cmd_list =
      (mgmt_pending_add env s sk opcode index d n).1.toList ++ s.cmd_list := by
  unfold mgmt_pending_add alloc
  by_cases h1 : env.alloc s.nalloc = true <;> by_cases h2 : env.alloc (s.nalloc + 1) = true <;>
    simp [h1, h2]

theorem mgmt_pending_add_some (sk opcode index : Nat) (d : Option (List Nat)) (n : Nat)
    (cmd : pending_cmd) (h : (mgmt_pending_add env s sk opcode index d n).1 = some cmd) :
    cmd.opcode = opcode ∧ cmd.index = index ∧ cmd.sk = sk ∧ cmd.user_data = none := by
  unfold mgmt_pending_add alloc at h
  by_cases h1 : env.alloc s.nalloc = true <;> by_cases h2 : env.alloc (s.nalloc + 1) = true <;>
    simp [h1, h2] at h
  subst h
  simp

theorem PendStep.add_new (K : mgmt_defs) (l : List pending_cmd) (cmd : pending_cmd)
    (o : mgmt_op) (ho : cmd.opcode = K.op o) (hnot : o ∉ exclusive_ops) :
    PendStep K l (cmd :: l) := by
  refine PendStep.add cmd ?_
  intro o' ho' heq
  rw [ho] at heq
  exact absurd (K.op_inj heq ▸ ho') hnot

theorem PendStep.add_checked (K : mgmt_defs) (l : List pending_cmd) (cmd : pending_cmd)
    (i : Nat) (hi : cmd.index = i)
    (hf : (mgmt_pending_find l cmd.opcode i).isSome = false) :
    PendStep K l (cmd :: l) := by
  refine PendStep.add cmd ?_
  intro o' _ _
  rw [hi]
  simpa using hf

theorem read_version_cmd_list (sk : Nat) :
    (read_version K env s sk).2.cmd_list = s.cmd_list := by
  unfold read_version
  simp

theorem read_index_list_cmd_list (sk : Nat) :
    (read_index_list K env s sk).2.cmd_list = s.cmd_list := by
  unfold read_index_list
  repeat' (first | simp | split)

theorem read_controller_info_cmd_list (sk i : Nat) :
    (read_controller_info K env s sk i).2.cmd_list = s.cmd_list := by
  unfold read_controller_info
  repeat' (first | simp | split)

theorem get_connections_cmd_list (sk i : Nat) :
    (get_connections K env s sk i).2.cmd_list = s.cmd_list := by
  unfold get_connections
  repeat' (first | simp | split)

theorem set_pairable_cmd_list (sk i : Nat) (d : List Nat) (n : Nat) :
    (set_pairable K env s sk i d n).2.cmd_list = s.cmd_list := by
  unfold set_pairable send_mode_rsp
  repeat' (first | simp | split)

theorem add_uuid_cmd_list (sk i : Nat) (d : List Nat) (n : Nat) :
    (add_uuid K env s sk i d n).2.cmd_list = s.cmd_list := by
  unfold add_uuid
  repeat' (first | simp | split)

theorem remove_uuid_cmd_list (sk i : Nat) (d : List Nat) (n : Nat) :
    (remove_uuid K env s sk i d n).2.cmd_list = s.cmd_list := by
  unfold remove_uuid
  repeat' (first | simp | split)

theorem set_dev_class_cmd_list (sk i : Nat) (d : List Nat) (n : Nat) :
    (set_dev_class K env s sk i d n).2.cmd_list = s.cmd_list := by
  unfold set_dev_class
  repeat' (first | simp | split)

theorem set_service_cache_cmd_list (sk i : Nat) (d : List Nat) (n : Nat) :
    (set_service_cache K env s sk i d n).2.cmd_list = s.cmd_list := by
  unfold set_service_cache
  repeat' (first | simp | split)

theorem load_keys_cmd_list (sk i : Nat) (d : List Nat) (n : Nat) :
    (load_keys K env s sk i d n).2.cmd_list = s.cmd_list := by
  unfold load_keys
  repeat' (first | simp | split)

theorem remove_key_cmd_list (sk i : Nat) (d : List Nat) (n : Nat) :
    (remove_key K env s sk i d n).2.cmd_list = s.cmd_list := by
  unfold remove_key
  repeat' (first | simp | split)

theorem set_io_capability_cmd_list (sk i : Nat) (d : List Nat) (n : Nat) :
    (set_io_capability K env s sk i d n).2.cmd_list = s.cmd_list := by
  unfold set_io_capability
  repeat' (first | simp | split)

theorem add_remote_oob_data_cmd_list (sk i : Nat) (d : List Nat) (n : Nat) :
    (add_remote_oob_data K env s sk i d n).2.cmd_list = s.cmd_list := by
  unfold add_remote_oob_data
  repeat' (first | simp | split)

theorem remove_remote_oob_data_cmd_list (sk i : Nat) (d : List Nat) (n : Nat) :
    (remove_remote_oob_data K env s sk i d n).2.cmd_list = s.cmd_list := by
  unfold remove_remote_oob_data
  repeat' (first | simp | split)

theorem block_device_cmd_list (sk i : Nat) (d : List Nat) (n : Nat) :
    (block_device K env s sk i d n).2.cmd_list = s.cmd_list := by
  unfold block_device
  repeat' (first | simp | split)

theorem unblock_device_cmd_list (sk i : Nat) (d : List Nat) (n : Nat) :
    (unblock_device K env s sk i d n).2.cmd_list = s.cmd_list := by
  unfold unblock_device
  repeat' (first | simp | split)

theorem set_powered_step (sk i : Nat) (d : List Nat) (n : Nat) :
    PendStep K s.cmd_list (set_powered K env s sk i d n).2.cmd_list := by
  unfold set_powered
  repeat' (first | simp | split)
  all_goals try simp_all
  all_goals first
    | exact PendStep.same K _
    | (have hc := mgmt_pending_add_some env _ _ _ _ _ _ _ ‹_›
       exact PendStep.add_checked K _ _ i hc.2.1 (by simp_all))

theorem set_discoverable_step (sk i : Nat) (d : List Nat) (n : Nat) :
    PendStep K s.cmd_list (set_discoverable K env s sk i d n).2.cmd_list := by
  unfold set_discoverable
  repeat' (first | simp | split)
  all_goals try simp_all
  all_goals first
    | exact PendStep.same K _
    | (have hc := mgmt_pending_add_some env _ _ _ _ _ _ _ ‹_›
       exact PendStep.add_checked K _ _ i hc.2.1 (by simp_all))

theorem set_connectable_step (sk i : Nat) (d : List Nat) (n : Nat) :
    PendStep K s.cmd_list (set_connectable K env s sk i d n).2.cmd_list := by
  unfold set_connectable
  repeat' (first | simp | split)
  all_goals try simp_all
  all_goals first
    | exact PendStep.same K _
    | (have hc := mgmt_pending_add_some env _ _ _ _ _ _ _ ‹_›
       exact PendStep.add_checked K _ _ i hc.2.1 (by simp_all))

theorem disconnect_step (sk i : Nat) (d : List Nat) (n : Nat) :
    PendStep K s.cmd_list (disconnect K env s sk i d n).2.cmd_list := by
  unfold disconnect
  repeat' (first | simp | split)
  all_goals try simp_all
  all_goals first
    | exact PendStep.same K _
    | (have hc := mgmt_pending_add_some env _ _ _ _ _ _ _ ‹_›
       exact PendStep.add_checked K _ _ i hc.2.1 (by simp_all))

theorem pin_code_reply_step (sk i : Nat) (d : List Nat) (n : Nat) :
    PendStep K s.cmd_list (pin_code_reply K env s sk i d n).2.cmd_list := by
  unfold pin_code_reply send_pin_code_neg_reply
  repeat' (first | simp | split)
  all_goals try simp_all
  all_goals first
    | exact PendStep.same K _
    | exact PendStep.erase K _ _
    | (have hc := mgmt_pending_add_some env _ _ _ _ _ _ _ ‹_›
       exact PendStep.add_new K _ _ _ hc.1 (by decide))

theorem pin_code_neg_reply_step (sk i : Nat) (d : List Nat) (n : Nat) :
    PendStep K s.cmd_list (pin_code_neg_reply K env s sk i d n).2.cmd_list := by
  unfold pin_code_neg_reply send_pin_code_neg_reply
  repeat' (first | simp | split)
  all_goals try simp_all
  all_goals first
    | exact PendStep.same K _
    | exact PendStep.erase K _ _
    | (have hc := mgmt_pending_add_some env _ _ _ _ _ _ _ ‹_›
       exact PendStep.add_new K _ _ _ hc.1 (by decide))

theorem pair_device_step (sk i : Nat) (d : List Nat) (n : Nat) :
    PendStep K s.cmd_list (pair_device K env s sk i d n).2.cmd_list := by
  unfold pair_device
  repeat' (first | simp | split)
  all_goals try simp_all
  all_goals first
    | exact PendStep.same K _
    | exact PendStep.erase K _ _
    | (have hc := mgmt_pending_add_some env _ _ _ _ _ _ _ ‹_›
       exact PendStep.add_new K _ _ _ hc.1 (by decide))

theorem set_local_name_step (sk i : Nat) (d : List Nat) (n : Nat) :
    PendStep K s.cmd_list (set_local_name K env s sk i d n).2.cmd_list := by
  unfold set_local_name
  repeat' (first | simp | split)
  all_goals try simp_all
  all_goals first
    | exact PendStep.same K _
    | exact PendStep.erase K _ _
    | (have hc := mgmt_pending_add_some env _ _ _ _ _ _ _ ‹_›
       exact PendStep.add_new K _ _ _ hc.1 (by decide))

theorem user_confirm_reply_step (sk i : Nat) (d : List Nat) (n : Nat) (success : Bool) :
    PendStep K s.cmd_list (user_confirm_reply K env s sk i d n success).2.cmd_list := by
  unfold user_confirm_reply
  cases success
  all_goals
    repeat' (first | simp | split)
    all_goals try simp_all
    all_goals first
      | exact PendStep.same K _
      | exact PendStep.erase K _ _
      | (have hc := mgmt_pending_add_some env _ _ _ _ _ _ _ ‹_›
         exact PendStep.add_new K _ _ _ hc.1 (by decide))

theorem read_local_oob_data_step (sk i : Nat) :
    PendStep K s.cmd_list (read_local_oob_data K env s sk i).2.cmd_list := by
  unfold read_local_oob_data
  repeat' (first | simp | split)
  all_goals try simp_all
  all_goals first
    | exact PendStep.same K _
    | exact PendStep.erase K _ _
    | (have hc := mgmt_pending_add_some env _ _ _ _ _ _ _ ‹_›
       exact PendStep.add_new K _ _ _ hc.1 (by decide))

theorem start_discovery_step (sk i : Nat) :
    PendStep K s.cmd_list (start_discovery K env s sk i).2.cmd_list := by
  unfold start_discovery
  repeat' (first | simp | split)
  all_goals try simp_all
  all_goals first
    | exact PendStep.same K _
    | exact PendStep.erase K _ _
    | (have hc := mgmt_pending_add_some env _ _ _ _ _ _ _ ‹_›
       exact PendStep.add_new K _ _ _ hc.1 (by decide))

theorem stop_discovery_step (sk i : Nat) :
    PendStep K s.cmd_list (stop_discovery K env s sk i).2.cmd_list := by
  unfold stop_discovery
  repeat' (first | simp | split)
  all_goals try simp_all
  all_goals first
    | exact PendStep.same K _
    | exact PendStep.erase K _ _
    | (have hc := mgmt_pending_add_some env _ _ _ _ _ _ _ ‹_›
       exact PendStep.add_new K _ _ _ hc.1 (by decide))

/-- Case analysis on the switch of `mgmt_control`: what holds of the result of
every handler and of the default branch holds of the result of the switch. -/
theorem mgmt_switch_cases (sk opcode index : Nat) (data : List Nat) (len : Nat)
    (P : Int × State → Prop)
    (h1 : P (read_version K env s sk))
    (h2 : P (read_index_list K env s sk))
    (h3 : P (read_controller_info K env s sk index))
    (h4 : P (set_powered K env s sk index data len))
    (h5 : P (set_discoverable K env s sk index data len))
    (h6 : P (set_connectable K env s sk index data len))
    (h7 : P (set_pairable K env s sk index data len))
    (h8 : P (add_uuid K env s sk index data len))
    (h9 : P (remove_uuid K env s sk index data len))
    (h10 : P (set_dev_class K env s sk index data len))
    (h11 : P (set_service_cache K env s sk index data len))
    (h12 : P (load_keys K env s sk index data len))
    (h13 : P (remove_key K env s sk index data len))
    (h14 : P (disconnect K env s sk index data len))
    (h15 : P (get_connections K env s sk index))
    (h16 : P (pin_code_reply K env s sk index data len))
    (h17 : P (pin_code_neg_reply K env s sk index data len))
    (h18 : P (set_io_capability K env s sk index data len))
    (h19 : P (pair_device K env s sk index data len))
    (h20 : P (user_confirm_reply K env s sk index data len true))
    (h21 : P (user_confirm_reply K env s sk index data len false))
    (h22 : P (set_local_name K env s sk index data len))
    (h23 : P (read_local_oob_data K env s sk index))
    (h24 : P (add_remote_oob_data K env s sk index data len))
    (h25 : P (remove_remote_oob_data K env s sk index data len))
    (h26 : P (start_discovery K env s sk index))
    (h27 : P (stop_discovery K env s sk index))
    (h28 : P (block_device K env s sk index data len))
    (h29 : P (unblock_device K env s sk index data len))
    (h0 : P (cmd_status K env s sk index opcode 0x01)) :
    P (mgmt_switch K env s sk opcode index data len) := by
  unfold mgmt_switch
  by_cases c1 : opcode = K.op .READ_VERSION
  · rw [if_pos c1]; exact h1
  rw [if_neg c1]
  by_cases c2 : opcode = K.op .READ_INDEX_LIST
  · rw [if_pos c2]; exact h2
  rw [if_neg c2]
  by_cases c3 : opcode = K.op .READ_INFO
  · rw [if_pos c3]; exact h3
  rw [if_neg c3]
  by_cases c4 : opcode = K.op .SET_POWERED
  · rw [if_pos c4]; exact h4
  rw [if_neg c4]
  by_cases c5 : opcode = K.op .SET_DISCOVERABLE
  · rw [if_pos c5]; exact h5
  rw [if_neg c5]
  by_cases c6 : opcode = K.op .SET_CONNECTABLE
  · rw [if_pos c6]; exact h6
  rw [if_neg c6]
  by_cases c7 : opcode = K.op .SET_PAIRABLE
  · rw [if_pos c7]; exact h7
  rw [if_neg c7]
  by_cases c8 : opcode = K.op .ADD_UUID
  · rw [if_pos c8]; exact h8
  rw [if_neg c8]
  by_cases c9 : opcode = K.op .REMOVE_UUID
  · rw [if_pos c9]; exact h9
  rw [if_neg c9]
  by_cases c10 : opcode = K.op .SET_DEV_CLASS
  · rw [if_pos c10]; exact h10
  rw [if_neg c10]
  by_cases c11 : opcode = K.op .SET_SERVICE_CACHE
  · rw [if_pos c11]; exact h11
  rw [if_neg c11]
  by_cases c12 : opcode = K.op .LOAD_KEYS
  · rw [if_pos c12]; exact h12
  rw [if_neg c12]
  by_cases c13 : opcode = K.op .REMOVE_KEY
  · rw [if_pos c13]; exact h13
  rw [if_neg c13]
  by_cases c14 : opcode = K.op .DISCONNECT
  · rw [if_pos c14]; exact h14
  rw [if_neg c14]
  by_cases c15 : opcode = K.op .GET_CONNECTIONS
  · rw [if_pos c15]; exact h15
  rw [if_neg c15]
  by_cases c16 : opcode = K.op .PIN_CODE_REPLY
  · rw [if_pos c16]; exact h16
  rw [if_neg c16]
  by_cases c17 : opcode = K.op .PIN_CODE_NEG_REPLY
  · rw [if_pos c17]; exact h17
  rw [if_neg c17]
  by_cases c18 : opcode = K.op .SET_IO_CAPABILITY
  · rw [if_pos c18]; exact h18
  rw [if_neg c18]
  by_cases c19 : opcode = K.op .PAIR_DEVICE
  · rw [if_pos c19]; exact h19
  rw [if_neg c19]
  by_cases c20 : opcode = K.op .USER_CONFIRM_REPLY
  · rw [if_pos c20]; exact h20
  rw [if_neg c20]
  by_cases c21 : opcode = K.op .USER_CONFIRM_NEG_REPLY
  · rw [if_pos c21]; exact h21
  rw [if_neg c21]
  by_cases c22 : opcode = K.op .SET_LOCAL_NAME
  · rw [if_pos c22]; exact h22
  rw [if_neg c22]
  by_cases c23 : opcode = K.op .READ_LOCAL_OOB_DATA
  · rw [if_pos c23]; exact h23
  rw [if_neg c23]
  by_cases c24 : opcode = K.op .ADD_REMOTE_OOB_DATA
  · rw [if_pos c24]; exact h24
  rw [if_neg c24]
  by_cases c25 : opcode = K.op .REMOVE_REMOTE_OOB_DATA
  · rw [if_pos c25]; exact h25
  rw [if_neg c25]
  by_cases c26 : opcode = K.op .START_DISCOVERY
  · rw [if_pos c26]; exact h26
  rw [if_neg c26]
  by_cases c27 : opcode = K.op .STOP_DISCOVERY
  · rw [if_pos c27]; exact h27
  rw [if_neg c27]
  by_cases c28 : opcode = K.op .BLOCK_DEVICE
  · rw [if_pos c28]; exact h28
  rw [if_neg c28]
  by_cases c29 : opcode = K.op .UNBLOCK_DEVICE
  · rw [if_pos c29]; exact h29
  rw [if_neg c29]
  exact h0

theorem mgmt_switch_step (sk opcode i : Nat) (d : List Nat) (n : Nat) :
    PendStep K s.cmd_list (mgmt_switch K env s sk opcode i d n).2.cmd_list := by
  apply mgmt_switch_cases K env s sk opcode i d n
    (fun r => PendStep K s.cmd_list r.2.cmd_list)
  all_goals first
    | exact PendStep.of_eq K (by
        first
          | exact read_version_cmd_list K env s sk
          | exact read_index_list_cmd_list K env s sk
          | exact read_controller_info_cmd_list K env s sk i
          | exact get_connections_cmd_list K env s sk i
          | exact set_pairable_cmd_list K env s sk i d n
          | exact add_uuid_cmd_list K env s sk i d n
          | exact remove_uuid_cmd_list K env s sk i d n
          | exact set_dev_class_cmd_list K env s sk i d n
          | exact set_service_cache_cmd_list K env s sk i d n
          | exact load_keys_cmd_list K env s sk i d n
          | exact remove_key_cmd_list K env s sk i d n
          | exact set_io_capability_cmd_list K env s sk i d n
          | exact add_remote_oob_data_cmd_list K env s sk i d n
          | exact remove_remote_oob_data_cmd_list K env s sk i d n
          | exact block_device_cmd_list K env s sk i d n
          | exact unblock_device_cmd_list K env s sk i d n
          | exact cmd_status_cmd_list K env s sk i opcode 1)
    | exact set_powered_step K env s sk i d n
    | exact set_discoverable_step K env s sk i d n
    | exact set_connectable_step K env s sk i d n
    | exact disconnect_step K env s sk i d n
    | exact pin_code_reply_step K env s sk i d n
    | exact pin_code_neg_reply_step K env s sk i d n
    | exact pair_device_step K env s sk i d n
    | exact set_local_name_step K env s sk i d n
    | exact user_confirm_reply_step K env s sk i d n _
    | exact read_local_oob_data_step K env s sk i
    | exact start_discovery_step K env s sk i
    | exact stop_discovery_step K env s sk i

theorem mgmt_control_step (sk : Nat) (msg : List Nat) :
    PendStep K s.cmd_list (mgmt_control K env s sk msg).2.cmd_list := by
  unfold mgmt_control
  simp only [alloc]
  split_ifs
  all_goals first
    | exact PendStep.same K _
    | exact mgmt_switch_step K env { s with nalloc := s.nalloc + 1 } sk _ _ _ _

/-! ## Callbacks and the invariant of the pending-command list -/

theorem pending_foreach_loop_sublist {σ : Type} (opcode : Nat) (index : Int)
    (cb : State → pending_cmd → σ → Bool × σ × State) (l : List pending_cmd) :
    ∀ (d : σ) (s : State), (pending_foreach_loop opcode index cb l d s).1.Sublist l := by
  induction l with
  | nil => intro d s; simp [pending_foreach_loop]
  | cons c rest ih =>
    intro d s
    unfold pending_foreach_loop
    split_ifs
    · simpa using ih d s
    · simpa using ih d s
    · simp only []
      split_ifs
      · exact List.Sublist.cons _ (ih _ _)
      · simpa using ih _ _

@[simp] theorem pending_foreach_loop_fold_cmd_list {σ : Type} (opcode : Nat) (index : Int)
    (cb : State → pending_cmd → σ → Bool × σ × State)
    (hcb : ∀ s c d, (cb s c d).2.2.cmd_list = s.cmd_list) (l : List pending_cmd) :
    ∀ (d : σ) (s : State),
      (pending_foreach_loop opcode index cb l d s).2.2.cmd_list = s.cmd_list := by
  induction l with
  | nil => intro d s; simp [pending_foreach_loop]
  | cons c rest ih =>
    intro d s
    unfold pending_foreach_loop
    split_ifs
    · simpa using ih d s
    · simpa using ih d s
    · simp only []
      rw [ih, hcb]

theorem mgmt_pending_foreach_sublist {σ : Type} (opcode : Nat) (index : Int)
    (cb : State → pending_cmd → σ → Bool × σ × State) (d : σ) :
    (mgmt_pending_foreach s opcode index cb d).2.cmd_list.Sublist s.cmd_list := by
  unfold mgmt_pending_foreach
  exact pending_foreach_loop_sublist opcode index cb s.cmd_list d s

theorem mgmt_powered_step (i v : Nat) :
    PendStep K s.cmd_list (mgmt_powered K env s i v).2.cmd_list := by
  unfold mgmt_powered
  simp only [mgmt_event_cmd_list]
  exact PendStep.sub (mgmt_pending_foreach_sublist s _ _ _ _)

theorem mgmt_discoverable_step (i v : Nat) :
    PendStep K s.cmd_list (mgmt_discoverable K env s i v).2.cmd_list := by
  unfold mgmt_discoverable
  simp only [mgmt_event_cmd_list]
  exact PendStep.sub (mgmt_pending_foreach_sublist s _ _ _ _)

theorem mgmt_connectable_step (i v : Nat) :
    PendStep K s.cmd_list (mgmt_connectable K env s i v).2.cmd_list := by
  unfold mgmt_connectable
  simp only [mgmt_event_cmd_list]
  exact PendStep.sub (mgmt_pending_foreach_sublist s _ _ _ _)

theorem mgmt_disconnected_step (i : Nat) (b : List Nat) :
    PendStep K s.cmd_list (mgmt_disconnected K env s i b).2.cmd_list := by
  unfold mgmt_disconnected
  simp only [mgmt_event_cmd_list]
  exact PendStep.sub (mgmt_pending_foreach_sublist s _ _ _ _)

theorem confirm_reply_complete_step (i : Nat) (b : List Nat) (st op : Nat) :
    PendStep K s.cmd_list (confirm_reply_complete K env s i b st op).2.cmd_list := by
  unfold confirm_reply_complete
  repeat' (first | simp | split)
  all_goals first
    | exact PendStep.same K _
    | exact PendStep.erase K _ _

theorem mgmt_set_local_name_complete_step (i : Nat) (nm : List Nat) (st : Nat) :
    PendStep K s.cmd_list (mgmt_set_local_name_complete K env s i nm st).2.cmd_list := by
  unfold mgmt_set_local_name_complete
  repeat' (first | simp | split)
  all_goals first
    | exact PendStep.same K _
    | exact PendStep.erase K _ _

theorem step_PendStep (inp : Input) : PendStep K s.cmd_list (step K env s inp).cmd_list := by
  cases inp
  all_goals simp only [step]
  all_goals first
    | exact mgmt_control_step K env s _ _
    | exact mgmt_powered_step K env s _ _
    | exact mgmt_discoverable_step K env s _ _
    | exact mgmt_connectable_step K env s _ _
    | exact mgmt_disconnected_step K env s _ _
    | exact confirm_reply_complete_step K env s _ _ _ _
    | exact mgmt_set_local_name_complete_step K env s _ _ _
    | exact PendStep.same K _
    | (simp only [mgmt_index_added, mgmt_index_removed, mgmt_new_key, mgmt_connected,
         mgmt_disconnect_failed, mgmt_connect_failed, mgmt_pin_code_request,
         mgmt_pin_code_reply_complete, mgmt_pin_code_neg_reply_complete,
         mgmt_user_confirm_request, mgmt_auth_failed, mgmt_read_local_oob_data_reply_complete,
         mgmt_device_found, mgmt_remote_name, mgmt_discovering, pairing_complete_cb,
         mgmt_user_confirm_reply_complete, mgmt_user_confirm_neg_reply_complete]
       repeat' (first | simp | split)
       all_goals first
         | exact PendStep.same K _
         | exact PendStep.erase K _ _)

theorem pending_count_of_find_none (l : List pending_cmd) (opcode : Nat) (index : Int)
    (h : mgmt_pending_find l opcode index = none) :
    pending_count l opcode index = 0 := by
  induction l with
  | nil => rfl
  | cons c rest ih =>
    unfold mgmt_pending_find at h
    unfold pending_count at ih ⊢
    split_ifs at h with h1 h2
    · rw [List.countP_cons, ih h]
      simp [h1]
    · rw [List.countP_cons, ih h]
      simp [h2.2]

theorem pending_count_le_of_sublist {l l' : List pending_cmd} (h : l'.Sublist l)
    (opcode : Nat) (index : Int) :
    pending_count l' opcode index ≤ pending_count l opcode index :=
  List.Sublist.countP_le _ h

theorem PendStep.unique {l l' : List pending_cmd} (h : PendStep K l l')
    (hl : unique_pending K l) : unique_pending K l' := by
  intro o ho i
  cases h with
  | sub hs => exact Nat.le_trans (pending_count_le_of_sublist hs _ _) (hl o ho i)
  | add cmd hc =>
    by_cases hm : cmd.opcode = K.op o ∧ cmd.index = i
    · have hf := hc o ho hm.1
      rw [hm.1, hm.2] at hf
      have h0 := pending_count_of_find_none _ _ _ hf
      unfold pending_count at h0 ⊢
      rw [List.countP_cons, h0]
      simp [hm]
    · have := hl o ho i
      unfold pending_count at this ⊢
      rw [List.countP_cons]
      simpa [hm] using this

theorem run_unique (ins : List (Env × Input)) :
    ∀ s : State, unique_pending K s.cmd_list → unique_pending K (run K s ins).cmd_list := by
  induction ins with
  | nil => intro s h; exact h
  | cons a rest ih =>
    intro s h
    obtain ⟨env, inp⟩ := a
    exact ih _ (PendStep.unique K (step_PendStep K env s inp) h)

theorem mgmt_switch_handler_of (sk index : Nat) (data : List Nat) (len : Nat) (o : mgmt_op) :
    mgmt_switch K env s sk (K.op o) index data len = handler_of K env s sk index data len o := by
  cases o <;> simp [mgmt_switch, handler_of, K.op_inj.eq_iff]

theorem mgmt_switch_default (sk opcode index : Nat) (data : List Nat) (len : Nat)
    (h : ∀ o, opcode ≠ K.op o) :
    mgmt_switch K env s sk opcode index data len = cmd_status K env s sk index opcode 0x01 := by
  simp [mgmt_switch, h]

theorem cmd_status_ok (sk index cmd status : Nat) (h : env.alloc s.nalloc = true) :
    cmd_status K env s sk index cmd status
      = (0, s.after 1 [.sock_queue_rcv_skb sk (cmd_status_skb K index cmd status)]) := by
  simp [cmd_status, alloc, h, emit, State.after]

theorem cmd_complete_ok (sk index cmd : Nat) (rp : Option (List Nat)) (rp_len : Nat)
    (h : env.alloc s.nalloc = true) :
    cmd_complete K env s sk index cmd rp rp_len
      = (0, s.after 1 [.sock_queue_rcv_skb sk (cmd_complete_skb K index cmd rp rp_len)]) := by
  simp [cmd_complete, alloc, h, emit, State.after]

@[simp] theorem bytes_length (n : Nat) (src : List Nat) : (bytes n src).length = n := by
  simp [bytes]

theorem bytes_of_length (src : List Nat) : bytes src.length src = src := by
  simp [bytes]

theorem get_le16_hdr (a b c : Nat) (rest : List Nat) :
    get_le16 (mgmt_hdr a b c ++ rest) 0 = a % 65536 ∧
    get_le16 (mgmt_hdr a b c ++ rest) 2 = b % 65536 ∧
    get_le16 (mgmt_hdr a b c ++ rest) 4 = c % 65536 := by
  simp [mgmt_hdr, le16, get_le16]
  omega

theorem cmd_status_skb_errno_inj (index cmd : Nat) (a b : Errno) :
    cmd_status_skb K index cmd (K.errno a) = cmd_status_skb K index cmd (K.errno b) ↔ a = b := by
  constructor
  · intro h
    have ha := K.errno_lt a
    have hb := K.errno_lt b
    simp [cmd_status_skb, Nat.mod_eq_of_lt ha, Nat.mod_eq_of_lt hb] at h
    exact K.errno_inj h
  · intro h
    rw [h]

@[simp] theorem new_trace_after (n : Nat) (calls : List Effect) :
    new_trace s (s.after n calls) = calls := by
  simp [new_trace, State.after]

theorem new_trace_of_append (s' : State) (calls : List Effect)
    (h : s'.trace = s.trace ++ calls) : new_trace s s' = calls := by
  simp [new_trace, h]

@[simp] theorem emit_trace (e : Effect) : (emit s e).trace = s.trace ++ [e] := rfl

theorem mem_new_trace_append (s' : State) (calls : List Effect) (e : Effect)
    (h : s'.trace = s.trace ++ calls) : e ∈ new_trace s s' ↔ e ∈ calls := by
  rw [new_trace_of_append s s' calls h]

theorem set_discoverable_rolls_back (sk i : Nat) (d : List Nat) (n : Nat) 
    (hfail : submission_fails env) :
    rolls_back env s (set_discoverable K env s sk i d n) := by
  have ha : ∀ n, env.alloc n = true ∨ env.alloc n = false := fun n => by
    cases env.alloc n <;> simp
  simp only [rolls_back, set_discoverable, mgmt_pending_add, cmd_status,
    hci_send_cmd, alloc, mgmt_pending_remove, new_trace, emit]
  rcases ha s.nalloc with h0 | h0 <;> rcases ha (s.nalloc + 1) with h1 | h1 <;>
    rcases ha (s.nalloc + 1 + 1) with h2 | h2
  all_goals
    repeat' (first | simp [h0, h1, h2, hfail _ _ _] | split)
  all_goals
    intros
    subst_vars
    rfl

theorem set_connectable_rolls_back (sk i : Nat) (d : List Nat) (n : Nat) 
    (hfail : submission_fails env) :
    rolls_back env s (set_connectable K env s sk i d n) := by
  have ha : ∀ n, env.alloc n = true ∨ env.alloc n = false := fun n => by
    cases env.alloc n <;> simp
  simp only [rolls_back, set_connectable, mgmt_pending_add, cmd_status,
    hci_send_cmd, alloc, mgmt_pending_remove, new_trace, emit]
  rcases ha s.nalloc with h0 | h0 <;> rcases ha (s.nalloc + 1) with h1 | h1 <;>
    rcases ha (s.nalloc + 1 + 1) with h2 | h2
  all_goals
    repeat' (first | simp [h0, h1, h2, hfail _ _ _] | split)
  all_goals
    intros
    subst_vars
    rfl

theorem disconnect_rolls_back (sk i : Nat) (d : List Nat) (n : Nat) 
    (hfail : submission_fails env) :
    rolls_back env s (disconnect K env s sk i d n) := by
  have ha : ∀ n, env.alloc n = true ∨ env.alloc n = false := fun n => by
    cases env.alloc n <;> simp
  simp only [rolls_back, disconnect, mgmt_pending_add, cmd_status,
    hci_send_cmd, alloc, mgmt_pending_remove, new_trace, emit]
  rcases ha s.nalloc with h0 | h0 <;> rcases ha (s.nalloc + 1) with h1 | h1 <;>
    rcases ha (s.nalloc + 1 + 1) with h2 | h2
  all_goals
    repeat' (first | simp [h0, h1, h2, hfail _ _ _] | split)
  all_goals
    intros
    subst_vars
    rfl

theorem pin_code_reply_rolls_back (sk i : Nat) (d : List Nat) (n : Nat) 
    (hfail : submission_fails env) :
    rolls_back env s (pin_code_reply K env s sk i d n) := by
  have ha : ∀ n, env.alloc n = true ∨ env.alloc n = false := fun n => by
    cases env.alloc n <;> simp
  simp only [rolls_back, pin_code_reply, send_pin_code_neg_reply, mgmt_pending_add, cmd_status,
    hci_send_cmd, alloc, mgmt_pending_remove, new_trace, emit]
  rcases ha s.nalloc with h0 | h0 <;> rcases ha (s.nalloc + 1) with h1 | h1 <;>
    rcases ha (s.nalloc + 1 + 1) with h2 | h2
  all_goals
    repeat' (first | simp [h0, h1, h2, hfail _ _ _] | split)
  all_goals first
    | (intros; subst_vars; rfl)
    | (exfalso; exact absurd (hfail _ _ _) (Int.not_lt.mpr ‹_›))

theorem pin_code_neg_reply_rolls_back (sk i : Nat) (d : List Nat) (n : Nat) 
    (hfail : submission_fails env) :
    rolls_back env s (pin_code_neg_reply K env s sk i d n) := by
  have ha : ∀ n, env.alloc n = true ∨ env.alloc n = false := fun n => by
    cases env.alloc n <;> simp
  simp only [rolls_back, pin_code_neg_reply, send_pin_code_neg_reply, mgmt_pending_add, cmd_status,
    hci_send_cmd, alloc, mgmt_pending_remove, new_trace, emit]
  rcases ha s.nalloc with h0 | h0 <;> rcases ha (s.nalloc + 1) with h1 | h1 <;>
    rcases ha (s.nalloc + 1 + 1) with h2 | h2
  all_goals
    repeat' (first | simp [h0, h1, h2, hfail _ _ _] | split)
  all_goals
    intros
    subst_vars
    rfl

theorem user_confirm_reply_rolls_back (sk i : Nat) (d : List Nat) (n : Nat) (success : Bool) 
    (hfail : submission_fails env) :
    rolls_back env s (user_confirm_reply K env s sk i d n success) := by
  have ha : ∀ n, env.alloc n = true ∨ env.alloc n = false := fun n => by
    cases env.alloc n <;> simp
  simp only [rolls_back, user_confirm_reply, mgmt_pending_add, cmd_status,
    hci_send_cmd, alloc, mgmt_pending_remove, new_trace, emit]
  rcases ha s.nalloc with h0 | h0 <;> rcases ha (s.nalloc + 1) with h1 | h1 <;>
    rcases ha (s.nalloc + 1 + 1) with h2 | h2
  all_goals
    repeat' (first | simp [h0, h1, h2, hfail _ _ _] | split)
  all_goals
    intros
    subst_vars
    rfl

theorem set_local_name_rolls_back (sk i : Nat) (d : List Nat) (n : Nat) 
    (hfail : submission_fails env) :
    rolls_back env s (set_local_name K env s sk i d n) := by
  have ha : ∀ n, env.alloc n = true ∨ env.alloc n = false := fun n => by
    cases env.alloc n <;> simp
  simp only [rolls_back, set_local_name, mgmt_pending_add, cmd_status,
    hci_send_cmd, alloc, mgmt_pending_remove, new_trace, emit]
  rcases ha s.nalloc with h0 | h0 <;> rcases ha (s.nalloc + 1) with h1 | h1 <;>
    rcases ha (s.nalloc + 1 + 1) with h2 | h2
  all_goals
    repeat' (first | simp [h0, h1, h2, hfail _ _ _] | split)
  all_goals
    intros
    subst_vars
    rfl

theorem read_local_oob_data_rolls_back (sk i : Nat)  
    (hfail : submission_fails env) :
    rolls_back env s (read_local_oob_data K env s sk i ) := by
  have ha : ∀ n, env.alloc n = true ∨ env.alloc n = false := fun n => by
    cases env.alloc n <;> simp
  simp only [rolls_back, read_local_oob_data, mgmt_pending_add, cmd_status,
    hci_send_cmd, alloc, mgmt_pending_remove, new_trace, emit]
  rcases ha s.nalloc with h0 | h0 <;> rcases ha (s.nalloc + 1) with h1 | h1 <;>
    rcases ha (s.nalloc + 1 + 1) with h2 | h2
  all_goals
    repeat' (first | simp [h0, h1, h2, hfail _ _ _] | split)
  all_goals
    intros
    subst_vars
    rfl

theorem start_discovery_rolls_back (sk i : Nat)  
    (hfail : submission_fails env) :
    rolls_back env s (start_discovery K env s sk i ) := by
  have ha : ∀ n, env.alloc n = true ∨ env.alloc n = false := fun n => by
    cases env.alloc n <;> simp
  simp only [rolls_back, start_discovery, mgmt_pending_add, cmd_status,
    hci_send_cmd, alloc, mgmt_pending_remove, new_trace, emit]
  rcases ha s.nalloc with h0 | h0 <;> rcases ha (s.nalloc + 1) with h1 | h1 <;>
    rcases ha (s.nalloc + 1 + 1) with h2 | h2
  all_goals
    repeat' (first | simp [h0, h1, h2, hfail _ _ _] | split)
  all_goals
    intros
    subst_vars
    rfl

theorem stop_discovery_rolls_back (sk i : Nat)  
    (hfail : submission_fails env) :
    rolls_back env s (stop_discovery K env s sk i ) := by
  have ha : ∀ n, env.alloc n = true ∨ env.alloc n = false := fun n => by
    cases env.alloc n <;> simp
  simp only [rolls_back, stop_discovery, mgmt_pending_add, cmd_status,
    hci_send_cmd, alloc, mgmt_pending_remove, new_trace, emit]
  rcases ha s.nalloc with h0 | h0 <;> rcases ha (s.nalloc + 1) with h1 | h1 <;>
    rcases ha (s.nalloc + 1 + 1) with h2 | h2
  all_goals
    repeat' (first | simp [h0, h1, h2, hfail _ _ _] | split)
  all_goals
    intros
    subst_vars
    rfl

@[simp] theorem after_zero : s.after 0 [] = s := by
  cases s
  simp [State.after]

@[simp] theorem after_after (a b : Nat) (x y : List Effect) :
    (s.after a x).after b y = s.after (a + b) (x ++ y) := by
  simp [State.after, Nat.add_assoc]

@[simp] theorem after_cmd_list (n : Nat) (calls : List Effect) :
    (s.after n calls).cmd_list = s.cmd_list := rfl

@[simp] theorem after_hci_dev_list (n : Nat) (calls : List Effect) :
    (s.after n calls).hci_dev_list = s.hci_dev_list := rfl

@[simp] theorem after_trace (n : Nat) (calls : List Effect) :
    (s.after n calls).trace = s.trace ++ calls := rfl

@[simp] theorem after_nalloc (n : Nat) (calls : List Effect) :
    (s.after n calls).nalloc = s.nalloc + n := rfl

theorem mgmt_event_ok (event index : Nat) (data : Option (List Nat)) (data_len : Nat)
    (skip_sk : Option Nat) (h : env.alloc s.nalloc = true) :
    mgmt_event K env s event index data data_len skip_sk
      = (0, s.after 1 [.hci_send_to_sock (mgmt_event_skb event index data data_len) skip_sk]) := by
  simp [mgmt_event, alloc, h, emit, State.after]

/-- The loop of `mgmt_pending_foreach` with `mode_rsp`, when no allocation fails:
the commands that match are answered in list order and unlinked, the others
stay, and the socket recorded for the event is the owner of the first match. -/
theorem mode_rsp_loop (hal : allocs_ok env) (opcode index v : Nat) (hi : index < 65536)
    (l : List pending_cmd) :
    ∀ (sk0 : Option Nat) (s : State),
      pending_foreach_loop opcode (index : Int) (mode_rsp K env) l { val := v, sk := sk0 } s =
        (l.filter (fun c => !mode_matches opcode index v c),
         { val := v,
           sk := sk0.orElse (fun _ => ((l.filter (mode_matches opcode index v)).head?).map
             (fun (c : pending_cmd) => c.sk)) },
         s.after (l.filter (mode_matches opcode index v)).length
           ((l.filter (mode_matches opcode index v)).map (fun (c : pending_cmd) =>
             Effect.sock_queue_rcv_skb c.sk
               (cmd_complete_skb K index opcode (some [v % 256]) sizeof_mgmt_mode)))) := by
  induction l with
  | nil => intro sk0 s; cases sk0 <;> simp [pending_foreach_loop]
  | cons c rest ih =>
    intro sk0 s
    unfold pending_foreach_loop
    by_cases h1 : c.opcode = opcode
    · by_cases h2 : c.index = (index : Int)
      · by_cases h3 : c.param.getD 0 0 = v
        · have hm : mode_matches opcode index v c = true := by
            unfold mode_matches
            rw [decide_eq_true_iff]
            exact ⟨h1, h2, h3⟩
          have hidx : (c.index % 65536).toNat = index := by
            rw [h2]
            omega
          have hcb : mode_rsp K env s c { val := v, sk := sk0 } =
              (true, { val := v, sk := sk0.orElse (fun _ => some c.sk) },
                s.after 1 [Effect.sock_queue_rcv_skb c.sk
                  (cmd_complete_skb K index opcode (some [v % 256]) sizeof_mgmt_mode)]) := by
            unfold mode_rsp send_mode_rsp
            simp only [h3, ne_eq, not_true_eq_false, if_false, hidx, h1]
            rw [cmd_complete_ok K env s _ _ _ _ _ (hal _)]
            cases sk0 <;> simp
          simp only [h1, h2, ne_eq, not_true_eq_false, if_false, and_false, hcb, ih,
            List.filter_cons, hm, Bool.not_true, Bool.false_eq_true, if_true]
          cases sk0 <;> simp [Nat.add_comm]
        · have hm : mode_matches opcode index v c = false := by
            unfold mode_matches
            rw [decide_eq_false_iff_not]
            exact fun h => h3 h.2.2
          have hcb : mode_rsp K env s c { val := v, sk := sk0 } =
              (false, { val := v, sk := sk0 }, s) := by
            unfold mode_rsp
            simp only [ne_eq, h3, not_false_eq_true, if_true]
          simp only [h1, h2, ne_eq, not_true_eq_false, if_false, and_false, hcb, ih,
            List.filter_cons, hm, Bool.not_false, if_true, Bool.false_eq_true]
      · have hm : mode_matches opcode index v c = false := by
          unfold mode_matches
          rw [decide_eq_false_iff_not]
          exact fun h => h2 h.2.1
        have hc : (index : Int) ≥ 0 ∧ c.index ≠ (index : Int) := ⟨Int.natCast_nonneg _, h2⟩
        simp only [h1, ne_eq, not_true_eq_false, if_false, hc, and_self, if_true, ih,
          List.filter_cons, hm, Bool.not_false, Bool.false_eq_true, not_false_eq_true]
    · have hm : mode_matches opcode index v c = false := by
        unfold mode_matches
        rw [decide_eq_false_iff_not]
        exact fun h => h1 h.1
      simp only [h1, ne_eq, not_false_eq_true, if_true, ih, List.filter_cons, hm,
        Bool.not_false, Bool.false_eq_true, if_false]


theorem mode_foreach (hal : allocs_ok env) (opcode index v : Nat) (hi : index < 65536) :
    mgmt_pending_foreach s opcode (index : Int) (mode_rsp K env) { val := v, sk := none } =
      ({ val := v,
         sk := ((s.cmd_list.filter (mode_matches opcode index v)).head?).map (fun (c : pending_cmd) => c.sk) },
       ({ s with cmd_list := s.cmd_list.filter (fun c => !mode_matches opcode index v c) }).after
         (s.cmd_list.filter (mode_matches opcode index v)).length
         ((s.cmd_list.filter (mode_matches opcode index v)).map (fun (c : pending_cmd) =>
           Effect.sock_queue_rcv_skb c.sk
             (cmd_complete_skb K index opcode (some [v % 256]) sizeof_mgmt_mode)))) := by
  unfold mgmt_pending_foreach
  rw [mode_rsp_loop K env hal opcode index v hi]
  simp [State.after]

/-- What a mode-change callback for `opcode`/`event` leaves behind when no
allocation fails. -/
theorem mode_event_eq (hal : allocs_ok env) (opcode event index v : Nat) (hi : index < 65536) :
    (let (mtch, s1) := mgmt_pending_foreach s opcode (index : Int) (mode_rsp K env)
        { val := v, sk := none }
     mgmt_event K env s1 event index (some [v]) sizeof_mgmt_mode mtch.sk) =
      (0, ({ s with cmd_list := s.cmd_list.filter (fun c => !mode_matches opcode index v c) }).after
         ((s.cmd_list.filter (mode_matches opcode index v)).length + 1)
         ((s.cmd_list.filter (mode_matches opcode index v)).map (fun (c : pending_cmd) =>
           Effect.sock_queue_rcv_skb c.sk
             (cmd_complete_skb K index opcode (some [v % 256]) sizeof_mgmt_mode)) ++
          [Effect.hci_send_to_sock (mgmt_event_skb event index (some [v]) sizeof_mgmt_mode)
            (((s.cmd_list.filter (mode_matches opcode index v)).head?).map (fun (c : pending_cmd) => c.sk))])) := by
  rw [mode_foreach K env s hal opcode index v hi]
  simp only []
  rw [mgmt_event_ok K env _ _ _ _ _ _ (hal _)]
  simp

theorem new_trace_after_with (l : List pending_cmd) (n : Nat) (calls : List Effect) :
    new_trace s (({ s with cmd_list := l }).after n calls) = calls := by
  simp [new_trace, State.after]

/-- The loop of `mgmt_pending_foreach` with `disconnect_rsp`, when no allocation
fails: every DISCONNECT command of the controller is answered and unlinked, and
the socket recorded for the event is the owner of the last one. -/
theorem disconnect_rsp_loop (hal : allocs_ok env) (index : Nat) (hi : index < 65536)
    (l : List pending_cmd) :
    ∀ (sk0 : Option Nat) (s : State),
      pending_foreach_loop (K.op .DISCONNECT) (index : Int) (disconnect_rsp K env) l sk0 s =
        (l.filter (fun c => !index_matches (K.op .DISCONNECT) index c),
         (((l.filter (index_matches (K.op .DISCONNECT) index)).getLast?).map
             (fun (c : pending_cmd) => c.sk)).orElse (fun _ => sk0),
         s.after (l.filter (index_matches (K.op .DISCONNECT) index)).length
           ((l.filter (index_matches (K.op .DISCONNECT) index)).map (fun (c : pending_cmd) =>
             Effect.sock_queue_rcv_skb c.sk
               (cmd_complete_skb K index (K.op .DISCONNECT) (some (bytes 6 c.param)) 6)))) := by
  induction l with
  | nil => intro sk0 s; cases sk0 <;> simp [pending_foreach_loop]
  | cons c rest ih =>
    intro sk0 s
    unfold pending_foreach_loop
    by_cases h1 : c.opcode = K.op .DISCONNECT
    · by_cases h2 : c.index = (index : Int)
      · have hm : index_matches (K.op .DISCONNECT) index c = true := by
          unfold index_matches
          rw [decide_eq_true_iff]
          exact ⟨h1, h2⟩
        have hidx : (c.index % 65536).toNat = index := by
          rw [h2]
          omega
        have hcb : disconnect_rsp K env s c sk0 =
            (true, some c.sk,
              s.after 1 [Effect.sock_queue_rcv_skb c.sk
                (cmd_complete_skb K index (K.op .DISCONNECT) (some (bytes 6 c.param)) 6)]) := by
          unfold disconnect_rsp
          simp only [hidx]
          rw [cmd_complete_ok K env s _ _ _ _ _ (hal _)]
        simp only [h1, h2, ne_eq, not_true_eq_false, if_false, and_false, hcb, ih,
          List.filter_cons, hm, Bool.not_true, Bool.false_eq_true, if_true]
        rcases hr : List.filter (index_matches (K.op .DISCONNECT) index) rest with _ | ⟨d, ds⟩
        · simp [Nat.add_comm]
        · rw [List.getLast?_cons_cons]
          rcases hl : (d :: ds).getLast? with _ | e
          · simp at hl
          · simp [Nat.add_comm]
      · have hm : index_matches (K.op .DISCONNECT) index c = false := by
          unfold index_matches
          rw [decide_eq_false_iff_not]
          exact fun h => h2 h.2
        have hc : (index : Int) ≥ 0 ∧ c.index ≠ (index : Int) := ⟨Int.natCast_nonneg _, h2⟩
        simp only [h1, ne_eq, not_true_eq_false, if_false, hc, and_self, if_true, ih,
          List.filter_cons, hm, Bool.not_false, Bool.false_eq_true, not_false_eq_true]
    · have hm : index_matches (K.op .DISCONNECT) index c = false := by
        unfold index_matches
        rw [decide_eq_false_iff_not]
        exact fun h => h1 h.1
      simp only [h1, ne_eq, not_false_eq_true, if_true, ih, List.filter_cons, hm,
        Bool.not_false, Bool.false_eq_true, if_false]

theorem mgmt_disconnected_eq (hal : allocs_ok env) (index : Nat) (hi : index < 65536)
    (bdaddr : List Nat) :
    mgmt_disconnected K env s index bdaddr =
      (0, ({ s with cmd_list :=
              s.cmd_list.filter (fun c => !index_matches (K.op .DISCONNECT) index c) }).after
         ((s.cmd_list.filter (index_matches (K.op .DISCONNECT) index)).length + 1)
         ((s.cmd_list.filter (index_matches (K.op .DISCONNECT) index)).map (fun (c : pending_cmd) =>
           Effect.sock_queue_rcv_skb c.sk
             (cmd_complete_skb K index (K.op .DISCONNECT) (some (bytes 6 c.param)) 6)) ++
          [Effect.hci_send_to_sock
            (mgmt_event_skb (K.ev .DISCONNECTED) index (some (bytes 6 bdaddr)) 6)
            (((s.cmd_list.filter (index_matches (K.op .DISCONNECT) index)).getLast?).map
              (fun (c : pending_cmd) => c.sk))])) := by
  unfold mgmt_disconnected mgmt_pending_foreach
  rw [disconnect_rsp_loop K env hal index hi]
  simp only []
  rw [mgmt_event_ok K env _ _ _ _ _ _ (hal _)]
  simp [State.after, Nat.add_assoc]

theorem reply_receivers_replies (l : List pending_cmd) (f : pending_cmd → List Nat)
    (frame : List Nat) (skip : Option Nat) :
    reply_receivers (l.map (fun (c : pending_cmd) => Effect.sock_queue_rcv_skb c.sk (f c)) ++
      [Effect.hci_send_to_sock frame skip]) = l.map (fun (c : pending_cmd) => c.sk) := by
  induction l with
  | nil => simp [reply_receivers]
  | cons c rest ih =>
    simp only [reply_receivers, List.map_cons, List.cons_append, List.filterMap_cons] at ih ⊢
    rw [ih]

/-- With one owner for all the answered commands, skipping the owner of any one
of them skips all who were answered, and nobody else. -/
theorem skip_one_owner (subscribers : List Nat) (l : List pending_cmd) (skip : Option Nat)
    (hskip : skip = (l.head?).map (fun (c : pending_cmd) => c.sk) ∨
      skip = (l.getLast?).map (fun (c : pending_cmd) => c.sk))
    (hone : ∀ c ∈ l, ∀ d ∈ l, c.sk = d.sk) (sk : Nat) :
    sk ∈ event_receivers subscribers skip ↔
      sk ∈ subscribers ∧ sk ∉ l.map (fun (c : pending_cmd) => c.sk) := by
  have key : some sk ≠ skip ↔ sk ∉ l.map (fun (c : pending_cmd) => c.sk) := by
    rcases l with _ | ⟨c, rest⟩
    · rcases hskip with h | h <;> simp [h]
    · have hs : skip = some c.sk := by
        rcases hskip with h | h
        · simpa using h
        · rcases hl : (c :: rest).getLast? with _ | e
          · simp at hl
          · rw [h, hl]
            have he : e ∈ c :: rest := List.mem_of_getLast?_eq_some hl
            simp [hone e he c (List.mem_cons_self _ _)]
      rw [hs]
      constructor
      · intro h hm
        rcases List.mem_map.mp hm with ⟨d, hd, rfl⟩
        exact h (by rw [hone d hd c (List.mem_cons_self _ _)])
      · intro h e
        apply h
        simp only [Option.some.injEq] at e
        rw [e]
        exact List.mem_map.mpr ⟨c, List.mem_cons_self _ _, rfl⟩
  simp only [event_receivers, List.mem_filter, decide_eq_true_eq, key]

theorem mem_filter_none_of_find_none (l : List pending_cmd) (opcode index : Nat)
    (h : mgmt_pending_find l opcode (index : Int) = none) :
    l.filter (index_matches opcode index) = [] := by
  induction l with
  | nil => rfl
  | cons c rest ih =>
    unfold mgmt_pending_find at h
    by_cases h1 : c.opcode = opcode
    · by_cases h2 : c.index = (index : Int)
      · simp [h1, h2] at h
      · have hc : (index : Int) ≥ 0 ∧ c.index ≠ (index : Int) := ⟨Int.natCast_nonneg _, h2⟩
        simp only [h1, ne_eq, not_true_eq_false, if_false, hc, and_self, if_true] at h
        have hm : index_matches opcode index c = false := by
          unfold index_matches
          rw [decide_eq_false_iff_not]
          exact fun h => h2 h.2
        simp [List.filter_cons, hm, ih h]
    · simp only [h1, ne_eq, not_false_eq_true, if_true] at h
      have hm : index_matches opcode index c = false := by
        unfold index_matches
        rw [decide_eq_false_iff_not]
        exact fun h => h1 h.1
      simp [List.filter_cons, hm, ih h]

theorem mode_matches_le (opcode index v : Nat) (c : pending_cmd)
    (h : mode_matches opcode index v c = true) : index_matches opcode index c = true := by
  unfold mode_matches at h
  unfold index_matches
  rw [decide_eq_true_iff] at h ⊢
  exact ⟨h.1, h.2.1⟩

theorem mode_filter_none_of_find_none (l : List pending_cmd) (opcode index v : Nat)
    (h : mgmt_pending_find l opcode (index : Int) = none) :
    l.filter (mode_matches opcode index v) = [] := by
  have h0 := mem_filter_none_of_find_none l opcode index h
  rw [List.filter_eq_nil_iff] at h0 ⊢
  intro c hc hm
  exact h0 c hc (mode_matches_le opcode index v c hm)

theorem find_none_of_filter_none (l : List pending_cmd) (opcode index : Nat)
    (h : l.filter (index_matches opcode index) = []) :
    mgmt_pending_find l opcode (index : Int) = none := by
  induction l with
  | nil => rfl
  | cons c rest ih =>
    unfold mgmt_pending_find
    by_cases hm : index_matches opcode index c = true
    · simp [List.filter_cons, hm] at h
    · simp only [List.filter_cons, hm, Bool.false_eq_true, if_false] at h
      have hm2 : ¬ (c.opcode = opcode ∧ c.index = (index : Int)) := by
        unfold index_matches at hm
        simpa using hm
      by_cases h1 : c.opcode = opcode
      · have h2 : c.index ≠ (index : Int) := fun e => hm2 ⟨h1, e⟩
        have hc : (index : Int) ≥ 0 ∧ c.index ≠ (index : Int) := ⟨Int.natCast_nonneg _, h2⟩
        simp only [h1, ne_eq, not_true_eq_false, if_false, hc, and_self, if_true]
        exact ih h
      · simp only [h1, ne_eq, not_false_eq_true, if_true]
        exact ih h

/-- The calls of the loop of `load_keys` are the calls for the entries at the
offsets it visits, in that order. -/
theorem load_keys_loop_eq (dev : Nat) (keys : List Nat) (len : Nat) :
    ∀ fuel i, load_keys_loop K dev keys len fuel i =
      (key_offsets keys len fuel i).filterMap (key_call K dev keys) := by
  intro fuel
  induction fuel with
  | zero => intro i; rfl
  | succ f ih =>
    intro i
    unfold load_keys_loop key_offsets
    by_cases h : i < len
    · simp only [h, if_true, List.filterMap_cons, key_call, ih]
      split_ifs <;> rfl
    · simp [h]

/-- Enough fuel: once the fuel covers the bytes left, more fuel changes nothing. -/
theorem key_offsets_fuel (keys : List Nat) (len : Nat) :
    ∀ f i f', len ≤ i + f → len ≤ i + f' →
      key_offsets keys len f i = key_offsets keys len f' i := by
  intro f
  induction f with
  | zero =>
    intro i f' h h'
    cases f' with
    | zero => rfl
    | succ g =>
      unfold key_offsets
      have : ¬ i < len := by omega
      simp [this]
  | succ f ih =>
    intro i f' h h'
    cases f' with
    | zero =>
      unfold key_offsets
      have : ¬ i < len := by omega
      simp [this]
    | succ g =>
      unfold key_offsets
      by_cases hi : i < len
      · simp only [hi, if_true]
        rw [ih _ g (by simp only [sizeof_mgmt_key_info]; omega)
          (by simp only [sizeof_mgmt_key_info]; omega)]
      · simp [hi]

/-- Every offset visited lies inside the payload and at or after the start. -/
theorem key_offsets_bounds (keys : List Nat) (len : Nat) :
    ∀ f i, ∀ o ∈ key_offsets keys len f i, i ≤ o ∧ o < len := by
  intro f
  induction f with
  | zero => intro i o ho; simp [key_offsets] at ho
  | succ f ih =>
    intro i o ho
    unfold key_offsets at ho
    by_cases hi : i < len
    · simp only [hi, if_true, List.mem_cons] at ho
      rcases ho with rfl | ho
      · exact ⟨Nat.le_refl _, hi⟩
      · have := ih _ o ho
        exact ⟨by omega, this.2⟩
    · simp [hi] at ho

/-- Consecutive offsets: the next one is the previous one plus the size of an
entry plus the dlen found there. -/
theorem key_offsets_chain (keys : List Nat) (len : Nat) :
    ∀ f i, List.Chain' (fun a b => b = a + (sizeof_mgmt_key_info + (keys.drop a).getD 24 0))
      (key_offsets keys len f i) := by
  intro f
  induction f with
  | zero => intro i; simp [key_offsets]
  | succ f ih =>
    intro i
    unfold key_offsets
    by_cases hi : i < len
    · simp only [hi, if_true]
      rw [List.chain'_cons']
      refine ⟨?_, ih _⟩
      intro b hb
      cases f with
      | zero => simp [key_offsets] at hb
      | succ g =>
        unfold key_offsets at hb
        split at hb
        · simp only [List.head?_cons, Option.mem_def, Option.some.injEq] at hb
          exact hb.symm
        · simp at hb
    · simp [hi]

/-- The offsets visited are strictly increasing. -/
theorem key_offsets_sorted (keys : List Nat) (len : Nat) :
    ∀ f i, List.Pairwise (fun a b => a < b) (key_offsets keys len f i) := by
  intro f
  induction f with
  | zero => intro i; simp [key_offsets]
  | succ f ih =>
    intro i
    unfold key_offsets
    by_cases hi : i < len
    · simp only [hi, if_true, List.pairwise_cons]
      refine ⟨?_, ih _⟩
      intro o ho
      have := (key_offsets_bounds keys len f _ o ho).1
      simp only [sizeof_mgmt_key_info] at this
      omega
    · simp [hi]

/-- An entry whose dlen runs to or past the end of the payload is the last one
visited. -/
theorem key_offsets_last (keys : List Nat) (len : Nat) :
    ∀ f i pre o post, key_offsets keys len f i = pre ++ o :: post →
      len ≤ o + (sizeof_mgmt_key_info + (keys.drop o).getD 24 0) → post = [] := by
  intro f
  induction f with
  | zero => intro i pre o post h; simp [key_offsets] at h
  | succ f ih =>
    intro i pre o post h hend
    unfold key_offsets at h
    by_cases hi : i < len
    · simp only [hi, if_true] at h
      cases pre with
      | nil =>
        simp only [List.nil_append, List.cons.injEq] at h
        obtain ⟨rfl, h⟩ := h
        rw [← h]
        cases f with
        | zero => rfl
        | succ g =>
          unfold key_offsets
          have : ¬ (i + (sizeof_mgmt_key_info + (List.drop i keys).getD 24 0) < len) := by omega
          simp only [this, if_false]
      | cons p pre =>
        simp only [List.cons_append, List.cons.injEq] at h
        exact ih _ pre o post h.2 hend
    · simp [hi] at h

@[simp] theorem write_at_length (src : List Nat) : ∀ (buf : List Nat) (off : Nat),
    (write_at buf off src).length = buf.length := by
  induction src with
  | nil => intro buf off; rfl
  | cons b bs ih =>
    intro buf off
    unfold write_at
    rw [ih]
    simp

/-- The block built by `create_eir` has the length of the buffer handed in. -/
theorem create_eir_length (hdev : hci_dev) (data : List Nat) :
    (create_eir hdev data).length = data.length := by
  unfold create_eir
  repeat' (first | simp | split)

/-- The block built by `create_eir` does not depend on the cached copy. -/
theorem create_eir_eir (hdev : hci_dev) (e : List Nat) (data : List Nat) :
    create_eir { hdev with eir := e } data = create_eir hdev data := rfl

theorem bytes_self (n : Nat) (l : List Nat) (h : l.length = n) : bytes n l = l := by
  subst h
  simp [bytes]

/-- The four tests of `update_eir` gathered into one. -/
theorem update_eir_eq (hdev : hci_dev) :
    update_eir K env s hdev =
      (if hdev.features.getD 6 0 &&& K.LMP_EXT_INQ ≠ 0 ∧ hdev.ssp_mode ≠ 0 ∧
          test_bit .HCI_SERVICE_CACHE hdev.flags = false ∧
          create_eir hdev (List.replicate HCI_MAX_EIR_LENGTH 0)
            ≠ bytes HCI_MAX_EIR_LENGTH hdev.eir
       then (env.hci_send_cmd hdev.id (K.hci .WRITE_EIR)
              ([0] ++ create_eir hdev (List.replicate HCI_MAX_EIR_LENGTH 0)),
             { hdev with eir := create_eir hdev (List.replicate HCI_MAX_EIR_LENGTH 0) },
             emit s (.hci_send_cmd hdev.id (K.hci .WRITE_EIR)
              ([0] ++ create_eir hdev (List.replicate HCI_MAX_EIR_LENGTH 0))))
       else (0, hdev, s)) := by
  unfold update_eir
  by_cases h1 : hdev.features.getD 6 0 &&& K.LMP_EXT_INQ = 0
  · rw [if_pos h1, if_neg (fun h => h.1 h1)]
  · rw [if_neg h1]
    by_cases h2 : hdev.ssp_mode = 0
    · rw [if_pos h2, if_neg (fun h => h.2.1 h2)]
    · rw [if_neg h2]
      by_cases h3 : test_bit .HCI_SERVICE_CACHE hdev.flags = true
      · rw [if_pos h3, if_neg (fun h => by rw [h.2.2.1] at h3; exact Bool.noConfusion h3)]
      · rw [if_neg h3]
        by_cases h4 : create_eir hdev (List.replicate HCI_MAX_EIR_LENGTH 0)
            = bytes HCI_MAX_EIR_LENGTH hdev.eir
        · simp only [h4, if_true]
          rw [if_neg (fun h => h.2.2.2 rfl)]
        · simp only [h4, if_false]
          rw [if_pos ⟨h1, h2, by simpa using h3, fun h => h4 h⟩]
          rfl

@[simp] theorem alloc_hci_dev_list : (alloc env s).2.hci_dev_list = s.hci_dev_list := rfl

@[simp] theorem cmd_status_hci_dev_list (sk i c st : Nat) :
    (cmd_status K env s sk i c st).2.hci_dev_list = s.hci_dev_list := by
  unfold cmd_status
  simp only [alloc]
  split <;> rfl

@[simp] theorem cmd_complete_hci_dev_list (sk i c : Nat) (rp : Option (List Nat)) (n : Nat) :
    (cmd_complete K env s sk i c rp n).2.hci_dev_list = s.hci_dev_list := by
  unfold cmd_complete
  simp only [alloc]
  split <;> rfl

@[simp] theorem hci_send_cmd_hci_dev_list (h : hci_dev) (o : Nat) (p : List Nat) :
    (hci_send_cmd env s h o p).2.hci_dev_list = s.hci_dev_list := rfl

@[simp] theorem update_class_hci_dev_list (h : hci_dev) :
    (update_class K env s h).2.hci_dev_list = s.hci_dev_list := by
  unfold update_class
  repeat' (first | simp | split)

@[simp] theorem update_eir_hci_dev_list (h : hci_dev) :
    (update_eir K env s h).2.2.hci_dev_list = s.hci_dev_list := by
  rw [update_eir_eq]
  split <;> rfl

/-- The controller returned by `update_eir` differs from the one handed in at
most in the cached EIR block. -/
theorem update_eir_dev (h : hci_dev) :
    (update_eir K env s h).2.1 = { h with eir := (update_eir K env s h).2.1.eir } := by
  rw [update_eir_eq]
  split <;> rfl

theorem put_dev_find (l : List hci_dev) (h h0 : hci_dev) (i : Nat)
    (hf : l.find? (fun d => decide (d.id = i)) = some h0) (hid : h.id = i) :
    (put_dev l h).find? (fun d => decide (d.id = i)) = some h := by
  induction l with
  | nil => simp at hf
  | cons d ds ih =>
    unfold put_dev
    by_cases hd : d.id = i
    · have : d.id = h.id := by rw [hd, hid]
      simp [this, hid]
    · have hne : ¬ d.id = h.id := by rw [hid]; exact hd
      rw [List.find?_cons_of_neg _ (by simpa using hd)] at hf
      rw [if_neg hne, List.find?_cons_of_neg _ (by simpa using hd)]
      exact ih hf

/-- Reading back a controller written with `set_dev`. -/
theorem hci_dev_get_set_dev (h h0 : hci_dev) (i : Nat)
    (hf : hci_dev_get s i = some h0) (hid : h.id = i) :
    hci_dev_get (set_dev s h) i = some h :=
  put_dev_find s.hci_dev_list h h0 i hf hid

theorem hci_dev_get_id (h0 : hci_dev) (i : Nat) (hf : hci_dev_get s i = some h0) :
    h0.id = i := by
  have := List.find?_some hf
  simpa using this

theorem hci_dev_get_congr (s' : State) (i : Nat) (h : s'.hci_dev_list = s.hci_dev_list) :
    hci_dev_get s' i = hci_dev_get s i := by
  unfold hci_dev_get
  rw [h]

/-- The controller after add_uuid: the UUID list is the old one or the old one
with the new entry in front; only the cached EIR block may differ otherwise. -/
theorem add_uuid_dev (sk index : Nat) (data : List Nat) (hdev : hci_dev)
    (hget : hci_dev_get s index = some hdev) :
    ∃ e U, (U = hdev.uuids ∨
        U = { uuid := bytes 16 data, svc_hint := data.getD 16 0 } :: hdev.uuids) ∧
      hci_dev_get (add_uuid K env s sk index data sizeof_mgmt_cp_add_uuid).2 index =
        some { hdev with uuids := U, eir := e } := by
  have hid := hci_dev_get_id s hdev index hget
  have keep : ∀ s' : State, s'.hci_dev_list = s.hci_dev_list →
      ∃ e U, (U = hdev.uuids ∨
        U = { uuid := bytes 16 data, svc_hint := data.getD 16 0 } :: hdev.uuids) ∧
      hci_dev_get s' index = some { hdev with uuids := U, eir := e } := by
    intro s' h
    exact ⟨hdev.eir, hdev.uuids, Or.inl rfl, by rw [hci_dev_get_congr s s' index h, hget]⟩
  unfold add_uuid
  simp only [ne_eq, not_true_eq_false, if_false, hget]
  by_cases ha : env.alloc s.nalloc = true
  · simp only [alloc, ha, Bool.not_true, Bool.false_eq_true, if_false]
    generalize hh : ({ hdev with uuids :=
      { uuid := bytes 16 data, svc_hint := data.getD 16 0 } :: hdev.uuids } : hci_dev) = h1
    have hid1 : h1.id = index := by rw [← hh]; exact hid
    have hg1 : hci_dev_get (set_dev { s with nalloc := s.nalloc + 1 } h1) index = some h1 :=
      hci_dev_get_set_dev _ h1 hdev index hget hid1
    by_cases hc : (update_class K env (set_dev { s with nalloc := s.nalloc + 1 } h1) h1).1 < 0
    · simp only [hc, if_true]
      refine ⟨hdev.eir, _, Or.inr rfl, ?_⟩
      rw [hci_dev_get_congr _ _ index (update_class_hci_dev_list K env _ h1), hg1, ← hh]
    · simp only [hc, if_false]
      have hg2 : hci_dev_get (update_class K env
          (set_dev { s with nalloc := s.nalloc + 1 } h1) h1).2 index = some h1 := by
        rw [hci_dev_get_congr _ _ index (update_class_hci_dev_list K env _ h1), hg1]
      generalize (update_class K env (set_dev { s with nalloc := s.nalloc + 1 } h1) h1).2 = s2
        at hg2 ⊢
      have hd := update_eir_dev K env s2 h1
      have hg3 : hci_dev_get (update_eir K env s2 h1).2.2 index = some h1 := by
        rw [hci_dev_get_congr _ _ index (update_eir_hci_dev_list K env _ h1), hg2]
      have hid2 : (update_eir K env s2 h1).2.1.id = index := by rw [hd]; exact hid1
      have hg4 := hci_dev_get_set_dev (update_eir K env s2 h1).2.2 (update_eir K env s2 h1).2.1
        h1 index hg3 hid2
      refine ⟨(update_eir K env s2 h1).2.1.eir, _, Or.inr rfl, ?_⟩
      have hfin : hci_dev_get (set_dev (update_eir K env s2 h1).2.2 (update_eir K env s2 h1).2.1)
          index = some { hdev with
            uuids := { uuid := bytes 16 data, svc_hint := data.getD 16 0 } :: hdev.uuids,
            eir := (update_eir K env s2 h1).2.1.eir } := by
        rw [hg4, hd, ← hh]
      split
      · exact hfin
      · rw [hci_dev_get_congr _ _ index (cmd_complete_hci_dev_list K env _ _ _ _ _ _)]
        exact hfin
  · simp only [alloc, ha, Bool.not_false, if_true]
    exact keep _ rfl

/-- The controller after remove_uuid of a UUID other than the all-zero one: the
entries with that UUID are gone from the list; only the cached EIR block may
differ otherwise. -/
theorem remove_uuid_dev (sk index : Nat) (data : List Nat) (hdev : hci_dev)
    (hget : hci_dev_get s index = some hdev)
    (hany : bytes 16 data ≠ List.replicate 16 0) :
    ∃ e, hci_dev_get (remove_uuid K env s sk index data sizeof_mgmt_cp_remove_uuid).2 index =
      some { hdev with
        uuids := hdev.uuids.filter (fun m => decide (¬ m.uuid = bytes 16 data)), eir := e } := by
  have hid := hci_dev_get_id s hdev index hget
  unfold remove_uuid
  simp only [ne_eq, not_true_eq_false, if_false, hget, hany]
  generalize hh : ({ hdev with
    uuids := hdev.uuids.filter (fun m => decide (¬ m.uuid = bytes 16 data)) } : hci_dev) = h1
  have hid1 : h1.id = index := by rw [← hh]; exact hid
  have hg1 : hci_dev_get (set_dev s h1) index = some h1 :=
    hci_dev_get_set_dev _ h1 hdev index hget hid1
  split
  · refine ⟨hdev.eir, ?_⟩
    rw [hci_dev_get_congr _ _ index (cmd_status_hci_dev_list K env _ _ _ _ _), hg1, ← hh]
  · by_cases hc : (update_class K env (set_dev s h1) h1).1 < 0
    · simp only [hc, if_true]
      refine ⟨hdev.eir, ?_⟩
      rw [hci_dev_get_congr _ _ index (update_class_hci_dev_list K env _ h1), hg1, ← hh]
    · simp only [hc, if_false]
      have hg2 : hci_dev_get (update_class K env (set_dev s h1) h1).2 index = some h1 := by
        rw [hci_dev_get_congr _ _ index (update_class_hci_dev_list K env _ h1), hg1]
      generalize (update_class K env (set_dev s h1) h1).2 = s2 at hg2 ⊢
      have hd := update_eir_dev K env s2 h1
      have hg3 : hci_dev_get (update_eir K env s2 h1).2.2 index = some h1 := by
        rw [hci_dev_get_congr _ _ index (update_eir_hci_dev_list K env _ h1), hg2]
      have hid2 : (update_eir K env s2 h1).2.1.id = index := by rw [hd]; exact hid1
      have hg4 := hci_dev_get_set_dev (update_eir K env s2 h1).2.2 (update_eir K env s2 h1).2.1
        h1 index hg3 hid2
      refine ⟨(update_eir K env s2 h1).2.1.eir, ?_⟩
      have hfin : hci_dev_get (set_dev (update_eir K env s2 h1).2.2 (update_eir K env s2 h1).2.1)
          index = some { hdev with
            uuids := hdev.uuids.filter (fun m => decide (¬ m.uuid = bytes 16 data)),
            eir := (update_eir K env s2 h1).2.1.eir } := by
        rw [hg4, hd, ← hh]
      split
      · exact hfin
      · rw [hci_dev_get_congr _ _ index (cmd_complete_hci_dev_list K env _ _ _ _ _ _)]
        exact hfin

/-- The test made by `mgmt_pending_find` on one entry. -/
theorem mgmt_pending_find_eq_find (l : List pending_cmd) (opcode : Nat) (index : Int) :
    mgmt_pending_find l opcode index =
      l.find? (fun c => decide (c.opcode = opcode ∧ (index < 0 ∨ c.index = index))) := by
  induction l with
  | nil => rfl
  | cons c rest ih =>
    unfold mgmt_pending_find
    by_cases h1 : c.opcode = opcode
    · by_cases h2 : index ≥ 0 ∧ c.index ≠ index
      · have hn : ¬ (c.opcode = opcode ∧ (index < 0 ∨ c.index = index)) := by
          rintro ⟨-, h | h⟩
          · omega
          · exact h2.2 h
        simp only [ne_eq, h1, not_true_eq_false, if_false, h2, not_false_eq_true, and_self,
          if_true, ih]
        rw [List.find?_cons_of_neg _ (by simpa using hn)]
      · have hy : c.opcode = opcode ∧ (index < 0 ∨ c.index = index) := by
          refine ⟨h1, ?_⟩
          by_cases h3 : index < 0
          · exact Or.inl h3
          · exact Or.inr (by
              by_contra h4
              exact h2 ⟨by omega, h4⟩)
        simp only [ne_eq, h1, not_true_eq_false, if_false, h2]
        rw [List.find?_cons_of_pos _ (by simpa using hy)]
    · have hn : ¬ (c.opcode = opcode ∧ (index < 0 ∨ c.index = index)) := fun h => h1 h.1
      simp only [ne_eq, h1, not_false_eq_true, if_true, ih]
      rw [List.find?_cons_of_neg _ (by simpa using hn)]

theorem filter_erase_of_singleton (p : pending_cmd → Bool) (cmd : pending_cmd) :
    ∀ l : List pending_cmd, l.filter p = [cmd] → (l.erase cmd).filter p = [] := by
  intro l
  induction l with
  | nil => intro h; simp at h
  | cons x xs ih =>
    intro h
    by_cases hx : x = cmd
    · subst hx
      rw [List.erase_cons_head]
      by_cases hp : p x = true
      · rw [List.filter_cons_of_pos hp] at h
        exact (List.cons.inj h).2
      · rw [List.filter_cons_of_neg hp] at h
        have : x ∈ xs.filter p := by rw [h]; exact List.mem_singleton_self _
        exact absurd (List.mem_filter.mp this).2 hp
    · rw [List.erase_cons_tail (by simpa using hx)]
      by_cases hp : p x = true
      · rw [List.filter_cons_of_pos hp] at h
        exact absurd (List.cons.inj h).1 hx
      · rw [List.filter_cons_of_neg hp] at h
        rw [List.filter_cons_of_neg hp]
        exact ih h

/-- Reading a connection back after `set_conn`. -/
theorem conn_deref_set_conn (c c1 : hci_conn) (hd : conn_deref s c.ptr = some c)
    (hp : c1.ptr = c.ptr) : conn_deref (set_conn s c1) c.ptr = some c1 := by
  unfold conn_deref set_conn at *
  simp only [List.flatMap_map] at *
  have hmap : ∀ l : List hci_dev,
      l.flatMap (fun d => List.map (fun x => if x.ptr = c1.ptr then c1 else x) d.conn_hash) =
        (l.flatMap (fun d => d.conn_hash)).map (fun x => if x.ptr = c1.ptr then c1 else x) := by
    intro l
    induction l with
    | nil => rfl
    | cons d ds ih => simp [List.flatMap_cons, ih]
  have hfind : ∀ l : List hci_conn, l.find? (fun x => decide (x.ptr = c.ptr)) = some c →
      (l.map (fun x => if x.ptr = c1.ptr then c1 else x)).find? (fun x => decide (x.ptr = c.ptr))
        = some c1 := by
    intro l
    induction l with
    | nil => intro h; simp at h
    | cons x xs ih =>
      intro h
      by_cases hx : x.ptr = c.ptr
      · simp [List.map_cons, hx, hp]
      · rw [List.find?_cons_of_neg _ (by simpa using hx)] at h
        have hx1 : ¬ x.ptr = c1.ptr := by rw [hp]; exact hx
        simp only [List.map_cons, hx1, if_false]
        rw [List.find?_cons_of_neg _ (by simpa using hx)]
        exact ih h
  show (List.flatMap _ _).find? _ = _
  rw [hmap]
  exact hfind _ hd

/-- The duplicate scan over a scratch array holding the non-zero values `acc`
followed by at least one zero: it stops at the entry equal to `u`, or at the
first zero, which is entry `acc.length`. -/
theorem uuid16_scan_acc (u : Nat) (k : Nat) (tail : List Nat) :
    ∀ acc : List Nat, (∀ v ∈ acc, v ≠ 0) →
      (u ∈ acc →
        (acc ++ List.replicate (k + 1) 0 ++ tail).getD
          (uuid16_scan (acc ++ List.replicate (k + 1) 0 ++ tail) u) 0 = u ∧
        uuid16_scan (acc ++ List.replicate (k + 1) 0 ++ tail) u < acc.length) ∧
      (u ∉ acc → uuid16_scan (acc ++ List.replicate (k + 1) 0 ++ tail) u = acc.length) := by
  intro acc
  induction acc with
  | nil =>
    intro _
    refine ⟨fun h => absurd h (List.not_mem_nil _), fun _ => ?_⟩
    simp [uuid16_scan, List.replicate_succ]
  | cons a as ih =>
    intro hnz
    have ha : a ≠ 0 := hnz a (List.mem_cons_self _ _)
    have ih1 := ih (fun v hv => hnz v (List.mem_cons_of_mem _ hv))
    by_cases hau : a = u
    · subst hau
      refine ⟨fun _ => ?_, fun h => absurd (List.mem_cons_self _ _) h⟩
      have hs : uuid16_scan (a :: as ++ List.replicate (k + 1) 0 ++ tail) a = 0 := by
        simp [uuid16_scan]
      rw [hs]
      simp
    · have hs : uuid16_scan (a :: as ++ List.replicate (k + 1) 0 ++ tail) u =
          uuid16_scan (as ++ List.replicate (k + 1) 0 ++ tail) u + 1 := by
        simp [uuid16_scan, ha, hau]
      rw [hs]
      constructor
      · intro hm
        have hm1 : u ∈ as := by
          rcases List.mem_cons.mp hm with h | h
          · exact absurd h.symm hau
          · exact h
        have := ih1.1 hm1
        refine ⟨?_, by simp only [List.length_cons]; omega⟩
        simpa using this.1
      · intro hm
        have hm1 : u ∉ as := fun h => hm (List.mem_cons_of_mem _ h)
        rw [ih1.2 hm1]
        rfl

theorem getD_acc_zero (acc : List Nat) (k : Nat) (tail : List Nat) :
    (acc ++ List.replicate (k + 1) 0 ++ tail).getD acc.length 0 = 0 := by
  rw [List.append_assoc, List.getD_append_right _ _ _ _ (Nat.le_refl _)]
  simp [List.replicate_succ]

theorem set_acc (acc : List Nat) (k : Nat) (tail : List Nat) (u : Nat) :
    (acc ++ List.replicate (k + 1) 0 ++ tail).set acc.length u =
      (acc ++ [u]) ++ List.replicate k 0 ++ tail := by
  rw [List.append_assoc, List.set_append_right _ _ (Nat.le_refl _)]
  simp [List.replicate_succ]

/-- The loop of `create_eir` over the UUIDs, run on a scratch array that holds
the values `acc` followed by zeros up to entry 119 (and anything after it),
lists the values `uuid16_gather` tells, leaves zeros after them up to entry 119
and does not touch what follows the array. -/
theorem create_eir_uuids_gather (tail : List Nat) :
    ∀ (uuids : List bt_uuid) (acc : List Nat) (e : Nat),
      (∀ v ∈ acc, v ≠ 0) → 2 * acc.length ≤ e → acc.length ≤ 119 →
      (create_eir_uuids uuids (acc ++ List.replicate (120 - acc.length) 0 ++ tail) e).map
          (fun r => (r.1, r.2.2)) =
        (uuid16_gather (uuid16_values uuids) acc e).map
          (fun r => (r.1 ++ List.replicate (120 - r.1.length) 0 ++ tail, r.2)) := by
  intro uuids
  induction uuids with
  | nil =>
    intro acc e _ _ _
    simp [create_eir_uuids, uuid16_gather, uuid16_values]
  | cons u rest ih =>
    intro acc e hnz he hlen
    simp only [uuid16_values, List.map_cons] at ih ⊢
    unfold create_eir_uuids uuid16_gather
    by_cases h0 : get_uuid16 u.uuid = 0
    · simp only [h0, if_true, Option.map_none']
    · simp only [h0, if_false]
      by_cases h1 : get_uuid16 u.uuid < 0x1100
      · simp only [h1, if_true]
        exact ih acc e hnz he hlen
      · simp only [h1, if_false]
        by_cases h2 : get_uuid16 u.uuid = PNP_INFO_SVCLASS_ID
        · simp only [h2, if_true]
          exact ih acc e hnz he hlen
        · simp only [h2, if_false]
          by_cases h3 : e + 2 + 2 > HCI_MAX_EIR_LENGTH
          · simp only [h3, if_true, Option.map_some']
          · simp only [h3, if_false]
            have he2 : e + 4 ≤ 240 := by
              simp only [HCI_MAX_EIR_LENGTH] at h3
              omega
            have hk : 120 - acc.length = (119 - acc.length) + 1 := by omega
            rw [hk]
            have hs := uuid16_scan_acc (get_uuid16 u.uuid) (119 - acc.length) tail acc hnz
            by_cases hm : get_uuid16 u.uuid ∈ acc
            · have hg := (hs.1 hm).1
              have hne : ¬ (acc ++ List.replicate (119 - acc.length + 1) 0 ++ tail).getD
                  (uuid16_scan (acc ++ List.replicate (119 - acc.length + 1) 0 ++ tail)
                    (get_uuid16 u.uuid)) 0 = 0 := by
                rw [hg]; exact h0
              simp only [hne, if_false, hm, if_true]
              rw [← hk]
              exact ih acc e hnz he hlen
            · have hi := hs.2 hm
              rw [hi]
              simp only [getD_acc_zero, if_true, hm, if_false, set_acc]
              have hmod : (e + 2) % 65536 = e + 2 := Nat.mod_eq_of_lt (by omega)
              rw [hmod]
              have hk2 : 119 - acc.length = 120 - (acc ++ [get_uuid16 u.uuid]).length := by
                simp only [List.length_append, List.length_singleton]
                omega
              rw [hk2]
              refine ih (acc ++ [get_uuid16 u.uuid]) (e + 2) ?_ ?_ ?_
              · intro v hv
                rcases List.mem_append.mp hv with h | h
                · exact hnz v h
                · rw [List.mem_singleton.mp h]; exact h0
              · simp only [List.length_append, List.length_singleton]; omega
              · simp only [List.length_append, List.length_singleton]; omega

/-- What `uuid16_gather` lists: the values it started from, then values of the
list that are at least 0x1100 and not PNP_INFO_SVCLASS_ID, none twice, two
bytes of space for each; and `truncated` only once fewer than four bytes are
left. -/
theorem uuid16_gather_facts :
    ∀ (vals acc : List Nat) (e : Nat) (l : List Nat) (t : Bool),
      uuid16_gather vals acc e = some (l, t) →
      (∃ more, l = acc ++ more ∧
        (∀ v ∈ more, v ∈ vals ∧ 0x1100 ≤ v ∧ v ≠ PNP_INFO_SVCLASS_ID ∧ v ∉ acc) ∧
        more.Nodup) ∧
      (t = true → e + 2 * (l.length - acc.length) + 4 > HCI_MAX_EIR_LENGTH) ∧
      (t = false → ∀ v ∈ vals, 0x1100 ≤ v → v ≠ PNP_INFO_SVCLASS_ID → v ∈ l) ∧
      (l.length = acc.length ∨ e + 2 * (l.length - acc.length) + 2 ≤ HCI_MAX_EIR_LENGTH) := by
  intro vals
  induction vals with
  | nil =>
    intro acc e l t h
    simp only [uuid16_gather, Option.some.injEq, Prod.mk.injEq] at h
    obtain ⟨rfl, rfl⟩ := h
    refine ⟨⟨[], by simp, by simp, List.nodup_nil⟩, by simp, by simp, Or.inl rfl⟩
  | cons u rest ih =>
    intro acc e l t h
    unfold uuid16_gather at h
    by_cases h0 : u = 0
    · simp [h0] at h
    · simp only [h0, if_false] at h
      by_cases h1 : u < 0x1100
      · simp only [h1, if_true] at h
        obtain ⟨⟨more, hl, hm, hnd⟩, ht, hf, hb⟩ := ih acc e l t h
        refine ⟨⟨more, hl, fun v hv => ⟨List.mem_cons_of_mem _ (hm v hv).1, (hm v hv).2⟩, hnd⟩,
          ht, ?_, hb⟩
        intro htf v hv hv1 hv2
        rcases List.mem_cons.mp hv with rfl | hv'
        · omega
        · exact hf htf v hv' hv1 hv2
      · simp only [h1, if_false] at h
        by_cases h2 : u = PNP_INFO_SVCLASS_ID
        · simp only [h2, if_true] at h
          obtain ⟨⟨more, hl, hm, hnd⟩, ht, hf, hb⟩ := ih acc e l t h
          refine ⟨⟨more, hl, fun v hv => ⟨List.mem_cons_of_mem _ (hm v hv).1, (hm v hv).2⟩,
            hnd⟩, ht, ?_, hb⟩
          intro htf v hv hv1 hv2
          rcases List.mem_cons.mp hv with rfl | hv'
          · exact absurd h2 hv2
          · exact hf htf v hv' hv1 hv2
        · simp only [h2, if_false] at h
          by_cases h3 : e + 2 + 2 > HCI_MAX_EIR_LENGTH
          · simp only [h3, if_true, Option.some.injEq, Prod.mk.injEq] at h
            obtain ⟨rfl, rfl⟩ := h
            refine ⟨⟨[], by simp, by simp, List.nodup_nil⟩, ?_, by simp, Or.inl rfl⟩
            intro _
            simp only [Nat.sub_self, Nat.mul_zero, Nat.add_zero]
            omega
          · simp only [h3, if_false] at h
            by_cases hm : u ∈ acc
            · simp only [hm, if_true] at h
              obtain ⟨⟨more, hl, hmo, hnd⟩, ht, hf, hb⟩ := ih acc e l t h
              refine ⟨⟨more, hl, fun v hv => ⟨List.mem_cons_of_mem _ (hmo v hv).1, (hmo v hv).2⟩,
                hnd⟩, ht, ?_, hb⟩
              intro htf v hv hv1 hv2
              rcases List.mem_cons.mp hv with rfl | hv'
              · rw [hl]; exact List.mem_append_left _ hm
              · exact hf htf v hv' hv1 hv2
            · simp only [hm, if_false] at h
              obtain ⟨⟨more, hl, hmo, hnd⟩, ht, hf, hb⟩ := ih (acc ++ [u]) (e + 2) l t h
              have hlen : l.length = acc.length + 1 + more.length := by
                rw [hl]
                simp only [List.length_append, List.length_singleton]
              refine ⟨⟨u :: more, by rw [hl]; simp, ?_, ?_⟩, ?_, ?_, ?_⟩
              · intro v hv
                rcases List.mem_cons.mp hv with rfl | hv'
                · exact ⟨List.mem_cons_self _ _, by omega, h2, hm⟩
                · have := hmo v hv'
                  exact ⟨List.mem_cons_of_mem _ this.1, this.2.1, this.2.2.1,
                    fun hva => this.2.2.2 (List.mem_append_left _ hva)⟩
              · refine List.nodup_cons.mpr ⟨fun hu => ?_, hnd⟩
                exact (hmo u hu).2.2.2 (List.mem_append_right _ (List.mem_singleton_self _))
              · intro htt
                have := ht htt
                simp only [List.length_append, List.length_singleton, HCI_MAX_EIR_LENGTH]
                  at this ⊢
                omega
              · intro htf v hv hv1 hv2
                rcases List.mem_cons.mp hv with rfl | hv'
                · rw [hl]
                  exact List.mem_append_left _
                    (List.mem_append_right _ (List.mem_singleton_self _))
                · exact hf htf v hv' hv1 hv2
              · right
                simp only [HCI_MAX_EIR_LENGTH] at h3 ⊢
                rcases hb with hb | hb
                · simp only [List.length_append, List.length_singleton] at hb
                  omega
                · simp only [List.length_append, List.length_singleton, HCI_MAX_EIR_LENGTH] at hb
                  omega

theorem write_at_append (pre : List Nat) : ∀ (src l : List Nat) (k : Nat),
    write_at (pre ++ l) (pre.length + k) src = pre ++ write_at l k src := by
  intro src
  induction src with
  | nil => intro l k; rfl
  | cons b bs ih =>
    intro l k
    unfold write_at
    rw [List.set_append_right _ _ (Nat.le_add_right _ _), Nat.add_sub_cancel_left,
      Nat.add_assoc, ih]

theorem write_at_cons (x : Nat) (src l : List Nat) (k : Nat) :
    write_at (x :: l) (k + 1) src = x :: write_at l k src := by
  have := write_at_append [x] src l k
  simpa [Nat.add_comm] using this

theorem write_at_zero : ∀ (src mid post : List Nat), mid.length = src.length →
    write_at (mid ++ post) 0 src = src ++ post := by
  intro src
  induction src with
  | nil =>
    intro mid post h
    have : mid = [] := List.eq_nil_of_length_eq_zero h
    subst this
    rfl
  | cons b bs ih =>
    intro mid post h
    cases mid with
    | nil => simp at h
    | cons m ms =>
      unfold write_at
      simp only [List.cons_append, List.set_cons_zero]
      rw [write_at_cons, ih ms post (by simpa using h)]

/-- A buffer with room for a field of `m` data bytes at offset `p`. -/
theorem split_buf (buf : List Nat) (p m : Nat) (h : p + 2 + m ≤ buf.length) :
    ∃ x0 x1 mid, mid.length = m ∧
      buf = buf.take p ++ x0 :: x1 :: (mid ++ buf.drop (p + 2 + m)) := by
  have h1 : buf = buf.take p ++ buf.drop p := (List.take_append_drop p buf).symm
  have hl : (buf.drop p).length = buf.length - p := List.length_drop _ _
  rcases hd : buf.drop p with _ | ⟨x0, r⟩
  · rw [hd] at hl; simp at hl; omega
  · rcases r with _ | ⟨x1, r2⟩
    · rw [hd] at hl; simp at hl; omega
    · refine ⟨x0, x1, r2.take m, ?_, ?_⟩
      · rw [hd] at hl
        simp only [List.length_cons] at hl
        rw [List.length_take]
        omega
      · have h2 : buf.drop (p + 2 + m) = r2.drop m := by
          have : buf.drop (p + 2 + m) = (buf.drop p).drop (2 + m) := by
            rw [List.drop_drop]
            congr 1
            omega
          rw [this, hd]
          have : 2 + m = m + 1 + 1 := by omega
          rw [this]
          rfl
        rw [h2, List.take_append_drop]
        conv_lhs => rw [h1, hd]

/-- The three stores that make a field at offset `pre.length`, in the order of
the UUID field: type byte, data bytes, length byte. -/
theorem field_stores (pre mid post body : List Nat) (x0 x1 a b : Nat)
    (h : mid.length = body.length) :
    (write_at ((pre ++ x0 :: x1 :: (mid ++ post)).set (pre.length + 1) b) (pre.length + 2)
        body).set pre.length a =
      pre ++ a :: b :: (body ++ post) := by
  rw [List.set_append_right _ _ (Nat.le_add_right _ _), Nat.add_sub_cancel_left]
  simp only [List.set_cons_succ, List.set_cons_zero]
  rw [write_at_append, write_at_cons, write_at_cons, write_at_zero body mid post h]
  rw [List.set_append_right _ _ (Nat.le_refl _), Nat.sub_self]
  rfl

/-- The three stores of the name field, in their order: type byte, length byte,
name bytes. -/
theorem name_stores (mid post body : List Nat) (x0 x1 a b : Nat)
    (h : mid.length = body.length) :
    write_at (((x0 :: x1 :: (mid ++ post)).set 1 b).set 0 a) 2 body =
      a :: b :: (body ++ post) := by
  simp only [List.set_cons_succ, List.set_cons_zero]
  rw [write_at_cons, write_at_cons, write_at_zero body mid post h]

theorem strlen_le_length (name : List Nat) : strlen name ≤ name.length := by
  unfold strlen
  exact (List.takeWhile_sublist _).length_le

theorem bytes_eq_take (n : Nat) (src : List Nat) (h : n ≤ src.length) :
    bytes n src = src.take n := by
  unfold bytes
  rw [List.take_append_of_le_length h]

theorem eir_uuid_bytes_acc (l : List Nat) (k : Nat) (hnz : ∀ v ∈ l, v ≠ 0) :
    (l ++ List.replicate k 0 ++ ([] : List Nat)).takeWhile (fun x => x != 0) = l := by
  rw [List.append_nil]
  induction l with
  | nil =>
    cases k with
    | zero => rfl
    | succ k => simp [List.replicate_succ]
  | cons a as ih =>
    have ha : a ≠ 0 := hnz a (List.mem_cons_self _ _)
    simp only [List.cons_append]
    rw [List.takeWhile_cons_of_pos (by simpa using ha),
      ih (fun v hv => hnz v (List.mem_cons_of_mem _ hv))]

theorem eir_uuid16_field_length (l : List Nat) (t : Bool) :
    (eir_uuid16_field l t).length = if l = [] then 0 else 2 + 2 * l.length := by
  unfold eir_uuid16_field
  split
  · rfl
  · have : ∀ m : List Nat, (m.flatMap (fun u => [u % 256, u / 256 % 256])).length = 2 * m.length := by
      intro m
      induction m with
      | nil => rfl
      | cons a as ih => simp [List.flatMap_cons, ih]; omega
    simp [this]
    omega

/-- The UUID part of `create_eir`, run on a buffer that starts with the bytes
`pre` already in place: it puts the UUID field after them. -/
theorem uuid_part_eq (uuids : List bt_uuid) (pre rest : List Nat)
    (hroom : (match uuid16_gather (uuid16_values uuids) [] pre.length with
      | none => []
      | some (l, truncated) => eir_uuid16_field l truncated).length ≤ rest.length) :
    (match create_eir_uuids uuids (List.replicate (HCI_MAX_EIR_LENGTH / 2) 0) pre.length with
      | none => pre ++ rest
      | some (uuid16_list, _, truncated) =>
        if uuid16_list.getD 0 0 ≠ 0 then
          (write_at ((pre ++ rest).set (pre.length + 1)
              (if truncated then EIR_UUID16_SOME else EIR_UUID16_ALL)) (pre.length + 2)
            (eir_uuid_bytes uuid16_list)).set pre.length
            (((uuid16_list.takeWhile (fun x => x != 0)).length * 2 + 1) % 256)
        else pre ++ rest) =
      pre ++ (match uuid16_gather (uuid16_values uuids) [] pre.length with
        | none => []
        | some (l, truncated) => eir_uuid16_field l truncated) ++
      rest.drop (match uuid16_gather (uuid16_values uuids) [] pre.length with
        | none => []
        | some (l, truncated) => eir_uuid16_field l truncated).length := by
  have hR := create_eir_uuids_gather [] uuids [] pre.length (by simp) (by simp) (by simp)
  have hz : ([] : List Nat) ++ List.replicate (120 - ([] : List Nat).length) 0 ++ [] =
      List.replicate (HCI_MAX_EIR_LENGTH / 2) 0 := by
    simp only [List.nil_append, List.append_nil, List.length_nil]
    rfl
  rw [hz] at hR
  rcases hg : uuid16_gather (uuid16_values uuids) [] pre.length with _ | ⟨l, t⟩
  · rw [hg] at hR
    rcases hc : create_eir_uuids uuids (List.replicate (HCI_MAX_EIR_LENGTH / 2) 0) pre.length
      with _ | ⟨l1, e1, t1⟩
    · simp
    · rw [hc] at hR
      simp at hR
  · rw [hg] at hR hroom
    rcases hc : create_eir_uuids uuids (List.replicate (HCI_MAX_EIR_LENGTH / 2) 0) pre.length
      with _ | ⟨l1, e1, t1⟩
    · rw [hc] at hR
      simp at hR
    · rw [hc] at hR
      simp only [Option.map_some', Option.some.injEq, Prod.mk.injEq] at hR
      obtain ⟨hl1, ht1⟩ := hR
      subst hl1 ht1
      obtain ⟨⟨more, hlm, hmo, -⟩, -, -, hb⟩ := uuid16_gather_facts _ _ _ _ _ hg
      simp only [List.nil_append] at hlm
      subst hlm
      have hnz : ∀ v ∈ l, v ≠ 0 := fun v hv => by
        have := (hmo v hv).2.1
        omega
      simp only []
      by_cases hl : l = []
      · subst hl
        simp only [ne_eq, eir_uuid16_field, if_true, List.length_nil, List.drop_zero,
          List.append_nil]
        refine if_neg ?_
        decide
      · have hhead : (l ++ List.replicate (120 - l.length) 0 ++ ([] : List Nat)).getD 0 0 ≠ 0 := by
          rcases l with _ | ⟨a, as⟩
          · exact absurd rfl hl
          · simpa using hnz a (List.mem_cons_self _ _)
        simp only [hhead, ne_eq, not_false_eq_true, if_true, eir_uuid_bytes,
          eir_uuid_bytes_acc l _ hnz]
        have hlen := eir_uuid16_field_length l t1
        simp only [hl, if_false] at hlen
        rw [hlen] at hroom ⊢
        have hbody : (l.flatMap (fun u => [u % 256, u / 256 % 256])).length = 2 * l.length := by
          have := eir_uuid16_field_length l t1
          simp only [eir_uuid16_field, hl, if_false, List.length_append, List.length_cons,
            List.length_nil] at this
          omega
        obtain ⟨x0, x1, mid, hmid, hsplit⟩ := split_buf rest 0 (2 * l.length) (by omega)
        simp only [List.take_zero, List.nil_append, Nat.zero_add] at hsplit
        have hmod : (l.length * 2 + 1) % 256 = 2 * l.length + 1 := by
          have hl0 : l.length ≠ 0 := fun h => hl (List.eq_nil_of_length_eq_zero h)
          simp only [List.length_nil, Nat.sub_zero, HCI_MAX_EIR_LENGTH] at hb
          rcases hb with hb | hb
          · exact absurd hb hl0
          · rw [Nat.mod_eq_of_lt (by omega)]
            omega
        rw [hmod]
        conv_lhs => rw [hsplit]
        rw [field_stores pre mid _ _ x0 x1 _ _ (by rw [hmid, hbody])]
        simp [eir_uuid16_field, hl]

theorem eir_name_field_length (hdev : hci_dev) :
    (eir_name_field hdev).length =
      if strlen hdev.dev_name = 0 then 0 else eir_name_len hdev + 2 := by
  unfold eir_name_field
  split
  · rfl
  · have h1 : eir_name_len hdev ≤ hdev.dev_name.length := by
      unfold eir_name_len
      exact Nat.le_trans (Nat.min_le_left _ _) (strlen_le_length _)
    simp only [List.length_append, List.length_cons, List.length_nil, List.length_take,
      Nat.min_eq_left h1]
    omega

theorem eir_name_field_length_le (hdev : hci_dev) : (eir_name_field hdev).length ≤ 50 := by
  rw [eir_name_field_length]
  split
  · omega
  · have : eir_name_len hdev ≤ 48 := Nat.min_le_right _ _
    omega

/-- The fields of the EIR block fit the 240 bytes of the block. -/
theorem eir_fields_length (hdev : hci_dev) : (eir_fields hdev).length ≤ HCI_MAX_EIR_LENGTH := by
  unfold eir_fields
  have hn := eir_name_field_length_le hdev
  rcases hg : uuid16_gather (uuid16_values hdev.uuids) [] (eir_name_field hdev).length
    with _ | ⟨l, t⟩
  · simp only [List.append_nil, HCI_MAX_EIR_LENGTH]
    omega
  · obtain ⟨-, -, -, hb⟩ := uuid16_gather_facts _ _ _ _ _ hg
    simp only [List.length_append, eir_uuid16_field_length]
    simp only [List.length_nil, Nat.sub_zero, HCI_MAX_EIR_LENGTH] at hb ⊢
    split
    · omega
    · rename_i hl
      have hl0 : l.length ≠ 0 := fun h => hl (List.eq_nil_of_length_eq_zero h)
      rcases hb with hb | hb
      · exact absurd hb hl0
      · omega

/-- `create_eir` puts the fields of the EIR block at the start of the buffer
and leaves the rest of the buffer as it is. -/
theorem create_eir_eq_fields (hdev : hci_dev) (data : List Nat)
    (h : (eir_fields hdev).length ≤ data.length) :
    create_eir hdev data = eir_fields hdev ++ data.drop (eir_fields hdev).length := by
  have hnl := eir_name_field_length hdev
  have hfl : (eir_fields hdev).length = (eir_name_field hdev).length +
      (match uuid16_gather (uuid16_values hdev.uuids) [] (eir_name_field hdev).length with
        | none => []
        | some (l, truncated) => eir_uuid16_field l truncated).length := by
    unfold eir_fields
    rw [List.length_append]
  have fin : ∀ named : List Nat,
      named = eir_name_field hdev ++ data.drop (eir_name_field hdev).length →
      (match create_eir_uuids hdev.uuids (List.replicate (HCI_MAX_EIR_LENGTH / 2) 0)
          (eir_name_field hdev).length with
        | none => named
        | some (uuid16_list, _, truncated) =>
          if uuid16_list.getD 0 0 ≠ 0 then
            (write_at (named.set ((eir_name_field hdev).length + 1)
                (if truncated then EIR_UUID16_SOME else EIR_UUID16_ALL))
              ((eir_name_field hdev).length + 2)
              (eir_uuid_bytes uuid16_list)).set (eir_name_field hdev).length
              (((uuid16_list.takeWhile (fun x => x != 0)).length * 2 + 1) % 256)
          else named) =
        eir_fields hdev ++ data.drop (eir_fields hdev).length := by
    intro named hnamed
    subst hnamed
    have hroom : (match uuid16_gather (uuid16_values hdev.uuids) []
          (eir_name_field hdev).length with
        | none => []
        | some (l, truncated) => eir_uuid16_field l truncated).length ≤
        (data.drop (eir_name_field hdev).length).length := by
      rw [List.length_drop]
      omega
    rw [uuid_part_eq hdev.uuids (eir_name_field hdev) _ hroom, List.drop_drop, hfl]
    unfold eir_fields
    rw [Nat.add_comm]
  unfold create_eir
  by_cases hn : strlen hdev.dev_name = 0
  · have hnf : eir_name_field hdev = [] := by simp [eir_name_field, hn]
    have hgt : ¬ strlen hdev.dev_name > 0 := by omega
    simp only [hgt, if_false]
    have := fin data (by rw [hnf]; rfl)
    rw [hnf] at this
    exact this
  · have hgt : strlen hdev.dev_name > 0 := by omega
    have h1 : eir_name_len hdev ≤ hdev.dev_name.length := by
      unfold eir_name_len
      exact Nat.le_trans (Nat.min_le_left _ _) (strlen_le_length _)
    have hlenNF : (eir_name_field hdev).length = eir_name_len hdev + 2 := by
      rw [hnl]; simp [hn]
    have hroom : 0 + 2 + eir_name_len hdev ≤ data.length := by
      rw [hfl, hlenNF] at h
      omega
    obtain ⟨x0, x1, mid, hmid, hsplit⟩ := split_buf data 0 (eir_name_len hdev) hroom
    simp only [List.take_zero, List.nil_append, Nat.zero_add] at hsplit
    have hmid2 : mid.length = (hdev.dev_name.take (eir_name_len hdev)).length := by
      rw [hmid, List.length_take, Nat.min_eq_left h1]
    have h48 : eir_name_len hdev ≤ 48 := Nat.min_le_right _ _
    have hmod : (eir_name_len hdev + 1) % 256 = eir_name_len hdev + 1 :=
      Nat.mod_eq_of_lt (by omega)
    have hdrop : data.drop (eir_name_field hdev).length =
        data.drop (2 + eir_name_len hdev) := by
      rw [hlenNF, Nat.add_comm]
    by_cases hlong : strlen hdev.dev_name > 48
    · have hlen48 : eir_name_len hdev = 48 := by
        unfold eir_name_len
        omega
      simp only [hgt, hlong, if_true]
      have hnamed : write_at ((data.set 1 EIR_NAME_SHORT).set 0 ((48 + 1) % 256)) 2
          (bytes 48 hdev.dev_name) =
          eir_name_field hdev ++ data.drop (eir_name_field hdev).length := by
        rw [bytes_eq_take 48 _ (by omega), hdrop]
        conv_lhs => rw [hsplit]
        rw [← hlen48, hmod, name_stores mid _ _ x0 x1 _ _ hmid2]
        simp [eir_name_field, hn, hlong, hlen48]
      have := fin _ hnamed
      rw [hlenNF, hlen48] at this
      exact this
    · have hlenn : eir_name_len hdev = strlen hdev.dev_name := by
        unfold eir_name_len
        omega
      simp only [hgt, hlong, if_true, if_false]
      have hnamed : write_at ((data.set 1 EIR_NAME_COMPLETE).set 0
          ((strlen hdev.dev_name + 1) % 256)) 2
          (bytes (strlen hdev.dev_name) hdev.dev_name) =
          eir_name_field hdev ++ data.drop (eir_name_field hdev).length := by
        rw [bytes_eq_take _ _ (strlen_le_length _), hdrop]
        conv_lhs => rw [hsplit]
        rw [← hlenn, hmod, name_stores mid _ _ x0 x1 _ _ hmid2]
        simp [eir_name_field, hn, hlong]
      have := fin _ hnamed
      rw [hlenNF, hlenn] at this
      exact this

/-- Without a value of 0 the loop runs to its end or to the truncation. -/
theorem uuid16_gather_some :
    ∀ (vals acc : List Nat) (e : Nat), (∀ v ∈ vals, v ≠ 0) →
      ∃ l t, uuid16_gather vals acc e = some (l, t) := by
  intro vals
  induction vals with
  | nil => intro acc e _; exact ⟨acc, false, rfl⟩
  | cons u rest ih =>
    intro acc e h
    have h0 : u ≠ 0 := h u (List.mem_cons_self _ _)
    have hr : ∀ v ∈ rest, v ≠ 0 := fun v hv => h v (List.mem_cons_of_mem _ hv)
    unfold uuid16_gather
    simp only [h0, if_false]
    split_ifs
    · exact ih acc e hr
    · exact ih acc e hr
    · exact ⟨acc, true, rfl⟩
    · exact ih acc e hr
    · exact ih _ _ hr

theorem first_occurrences_fold_extends :
    ∀ (xs acc : List Nat),
      List.IsPrefix acc (xs.foldl (fun a u => if u ∈ a then a else a ++ [u]) acc) := by
  intro xs
  induction xs with
  | nil => intro acc; exact List.prefix_refl _
  | cons x rest ih =>
    intro acc
    simp only [List.foldl_cons]
    split
    · exact ih acc
    · exact List.IsPrefix.trans (List.prefix_append _ _) (ih _)

/-- The values listed are the first occurrences of the eligible values, cut
short when the loop stopped for lack of room. -/
theorem uuid16_gather_in_order :
    ∀ (vals acc : List Nat) (e : Nat) (l : List Nat) (t : Bool),
      uuid16_gather vals acc e = some (l, t) →
      List.IsPrefix l
        ((vals.filter (fun v => decide (0x1100 ≤ v ∧ v ≠ PNP_INFO_SVCLASS_ID))).foldl
          (fun a u => if u ∈ a then a else a ++ [u]) acc) ∧
      (t = false → l =
        (vals.filter (fun v => decide (0x1100 ≤ v ∧ v ≠ PNP_INFO_SVCLASS_ID))).foldl
          (fun a u => if u ∈ a then a else a ++ [u]) acc) := by
  intro vals
  induction vals with
  | nil =>
    intro acc e l t h
    simp only [uuid16_gather, Option.some.injEq, Prod.mk.injEq] at h
    obtain ⟨rfl, rfl⟩ := h
    exact ⟨List.prefix_refl _, fun _ => rfl⟩
  | cons u rest ih =>
    intro acc e l t h
    unfold uuid16_gather at h
    by_cases h0 : u = 0
    · simp [h0] at h
    · simp only [h0, if_false] at h
      by_cases h1 : u < 0x1100
      · simp only [h1, if_true] at h
        have hf : ¬ (0x1100 ≤ u ∧ u ≠ PNP_INFO_SVCLASS_ID) := fun hh => by omega
        rw [List.filter_cons_of_neg (by simpa using hf)]
        exact ih acc e l t h
      · simp only [h1, if_false] at h
        by_cases h2 : u = PNP_INFO_SVCLASS_ID
        · simp only [h2, if_true] at h
          have hf : ¬ (0x1100 ≤ u ∧ u ≠ PNP_INFO_SVCLASS_ID) := fun hh => hh.2 h2
          rw [List.filter_cons_of_neg (by simpa using hf)]
          exact ih acc e l t h
        · simp only [h2, if_false] at h
          have hf : 0x1100 ≤ u ∧ u ≠ PNP_INFO_SVCLASS_ID := ⟨by omega, h2⟩
          rw [List.filter_cons_of_pos (by simpa using hf), List.foldl_cons]
          by_cases h3 : e + 2 + 2 > HCI_MAX_EIR_LENGTH
          · simp only [h3, if_true, Option.some.injEq, Prod.mk.injEq] at h
            obtain ⟨rfl, rfl⟩ := h
            refine ⟨?_, fun hh => Bool.noConfusion hh⟩
            split
            · exact first_occurrences_fold_extends _ _
            · exact List.IsPrefix.trans (List.prefix_append _ _)
                (first_occurrences_fold_extends _ _)
          · simp only [h3, if_false] at h
            by_cases hm : u ∈ acc
            · simp only [hm, if_true] at h ⊢
              exact ih acc e l t h
            · simp only [hm, if_false] at h ⊢
              exact ih _ _ l t h

/-- When every registered UUID reduces to a 16-bit value, `create_eir` leaves
the name field, then the UUID field of the values listed by the loop. -/
theorem create_eir_listed (hdev : hci_dev) (data : List Nat)
    (hall : ∀ u ∈ hdev.uuids, get_uuid16 u.uuid ≠ 0)
    (h : HCI_MAX_EIR_LENGTH ≤ data.length) :
    ∃ l t, uuid16_gather (uuid16_values hdev.uuids) [] (eir_name_field hdev).length
        = some (l, t) ∧
      create_eir hdev data = eir_name_field hdev ++ eir_uuid16_field l t ++
        data.drop ((eir_name_field hdev).length + (eir_uuid16_field l t).length) := by
  have hv : ∀ v ∈ uuid16_values hdev.uuids, v ≠ 0 := by
    intro v hv
    obtain ⟨u, hu, rfl⟩ := List.mem_map.mp hv
    exact hall u hu
  obtain ⟨l, t, hg⟩ := uuid16_gather_some (uuid16_values hdev.uuids) []
    (eir_name_field hdev).length hv
  refine ⟨l, t, hg, ?_⟩
  have := create_eir_eq_fields hdev data (Nat.le_trans (eir_fields_length hdev) h)
  rw [this]
  unfold eir_fields
  rw [hg]
  simp only [List.length_append]

theorem first_occurrences_fold_length (xs acc : List Nat) :
    acc.length ≤ (xs.foldl (fun a u => if u ∈ a then a else a ++ [u]) acc).length :=
  (first_occurrences_fold_extends xs acc).length_le

/-- When the loop sets `truncated`: exactly when it comes to an eligible value,
listed already or not, at a moment when the space used by then leaves fewer
than four bytes. -/
theorem uuid16_gather_truncated_iff :
    ∀ (vals acc : List Nat) (e : Nat) (l : List Nat) (t : Bool),
      uuid16_gather vals acc e = some (l, t) →
      (t = true ↔ ∃ pre u post, vals = pre ++ u :: post ∧ 0x1100 ≤ u ∧
        u ≠ PNP_INFO_SVCLASS_ID ∧
        e + 2 * (((pre.filter (fun v => decide (0x1100 ≤ v ∧ v ≠ PNP_INFO_SVCLASS_ID))).foldl
          (fun a u => if u ∈ a then a else a ++ [u]) acc).length - acc.length) + 4
          > HCI_MAX_EIR_LENGTH) := by
  intro vals
  induction vals with
  | nil =>
    intro acc e l t h
    simp only [uuid16_gather, Option.some.injEq, Prod.mk.injEq] at h
    obtain ⟨-, rfl⟩ := h
    constructor
    · intro hh; exact Bool.noConfusion hh
    · rintro ⟨pre, u, post, hsp, -⟩
      exact absurd hsp (by simp)
  | cons x rest ih =>
    intro acc e l t h
    unfold uuid16_gather at h
    by_cases h0 : x = 0
    · simp [h0] at h
    · simp only [h0, if_false] at h
      -- a split of `x :: rest` is `x` itself or a split of `rest`
      have skip : ∀ (acc' : List Nat) (e' : Nat),
          ((x :: List.nil).filter (fun v => decide (0x1100 ≤ v ∧ v ≠ PNP_INFO_SVCLASS_ID))).foldl
            (fun a u => if u ∈ a then a else a ++ [u]) acc = acc' →
          e + 2 * (acc'.length - acc.length) = e' →
          acc.length ≤ acc'.length →
          ¬ (0x1100 ≤ x ∧ x ≠ PNP_INFO_SVCLASS_ID ∧ e + 4 > HCI_MAX_EIR_LENGTH) →
          uuid16_gather rest acc' e' = some (l, t) →
          (t = true ↔ ∃ pre u post, x :: rest = pre ++ u :: post ∧ 0x1100 ≤ u ∧
            u ≠ PNP_INFO_SVCLASS_ID ∧
            e + 2 * (((pre.filter (fun v => decide (0x1100 ≤ v ∧ v ≠ PNP_INFO_SVCLASS_ID))).foldl
              (fun a u => if u ∈ a then a else a ++ [u]) acc).length - acc.length) + 4
              > HCI_MAX_EIR_LENGTH) := by
        intro acc' e' hacc he hle hnot hg
        have hfold : ∀ pre : List Nat,
            ((x :: pre).filter (fun v => decide (0x1100 ≤ v ∧ v ≠ PNP_INFO_SVCLASS_ID))).foldl
              (fun a u => if u ∈ a then a else a ++ [u]) acc =
            (pre.filter (fun v => decide (0x1100 ≤ v ∧ v ≠ PNP_INFO_SVCLASS_ID))).foldl
              (fun a u => if u ∈ a then a else a ++ [u]) acc' := by
          intro pre
          rw [← hacc]
          by_cases hx : 0x1100 ≤ x ∧ x ≠ PNP_INFO_SVCLASS_ID
          · rw [List.filter_cons_of_pos (by simpa using hx),
              List.filter_cons_of_pos (by simpa using hx)]
            simp only [List.filter_nil, List.foldl_cons, List.foldl_nil]
          · rw [List.filter_cons_of_neg (by simpa using hx),
              List.filter_cons_of_neg (by simpa using hx)]
            simp only [List.filter_nil, List.foldl_nil]
        rw [ih acc' e' l t hg]
        constructor
        · rintro ⟨pre, u, post, hsp, hu1, hu2, hroom⟩
          refine ⟨x :: pre, u, post, by rw [hsp]; rfl, hu1, hu2, ?_⟩
          rw [hfold pre]
          have := first_occurrences_fold_length
            (pre.filter (fun v => decide (0x1100 ≤ v ∧ v ≠ PNP_INFO_SVCLASS_ID))) acc'
          omega
        · rintro ⟨pre, u, post, hsp, hu1, hu2, hroom⟩
          cases pre with
          | nil =>
            simp only [List.nil_append, List.cons.injEq] at hsp
            obtain ⟨rfl, -⟩ := hsp
            exfalso
            apply hnot
            refine ⟨hu1, hu2, ?_⟩
            simpa using hroom
          | cons p pre =>
            simp only [List.cons_append, List.cons.injEq] at hsp
            obtain ⟨rfl, hsp⟩ := hsp
            refine ⟨pre, u, post, hsp, hu1, hu2, ?_⟩
            rw [hfold pre] at hroom
            have := first_occurrences_fold_length
              (pre.filter (fun v => decide (0x1100 ≤ v ∧ v ≠ PNP_INFO_SVCLASS_ID))) acc'
            omega
      by_cases h1 : x < 0x1100
      · simp only [h1, if_true] at h
        have hx : ¬ (0x1100 ≤ x ∧ x ≠ PNP_INFO_SVCLASS_ID) := fun hh => by omega
        refine skip acc e ?_ (by simp) (Nat.le_refl _) (fun hh => hx ⟨hh.1, hh.2.1⟩) h
        rw [List.filter_cons_of_neg (by simpa using hx)]
        rfl
      · simp only [h1, if_false] at h
        by_cases h2 : x = PNP_INFO_SVCLASS_ID
        · simp only [h2, if_true] at h
          have hx : ¬ (0x1100 ≤ x ∧ x ≠ PNP_INFO_SVCLASS_ID) := fun hh => hh.2 h2
          refine skip acc e ?_ (by simp) (Nat.le_refl _) (fun hh => hx ⟨hh.1, hh.2.1⟩) ?_
          · rw [List.filter_cons_of_neg (by simpa using hx)]
            rfl
          · exact h
        · simp only [h2, if_false] at h
          have hx : 0x1100 ≤ x ∧ x ≠ PNP_INFO_SVCLASS_ID := ⟨by omega, h2⟩
          by_cases h3 : e + 2 + 2 > HCI_MAX_EIR_LENGTH
          · simp only [h3, if_true, Option.some.injEq, Prod.mk.injEq] at h
            obtain ⟨-, rfl⟩ := h
            refine ⟨fun _ => ⟨[], x, rest, rfl, hx.1, hx.2, ?_⟩, fun _ => rfl⟩
            simp only [List.filter_nil, List.foldl_nil, Nat.sub_self, Nat.mul_zero,
              Nat.add_zero]
            omega
          · simp only [h3, if_false] at h
            have hnot : ¬ (0x1100 ≤ x ∧ x ≠ PNP_INFO_SVCLASS_ID ∧ e + 4 > HCI_MAX_EIR_LENGTH) :=
              fun hh => h3 (by omega)
            by_cases hm : x ∈ acc
            · simp only [hm, if_true] at h
              refine skip acc e ?_ (by simp) (Nat.le_refl _) hnot h
              rw [List.filter_cons_of_pos (by simpa using hx)]
              simp [hm]
            · simp only [hm, if_false] at h
              refine skip (acc ++ [x]) (e + 2) ?_ ?_ ?_ hnot h
              · rw [List.filter_cons_of_pos (by simpa using hx)]
                simp [hm]
              · simp only [List.length_append, List.length_singleton]
                omega
              · simp

/-- Every reachable state has at most one pending command for each exclusive
opcode and controller index. -/
theorem reachable_unique (hr : Reachable K s) : unique_pending K s.cmd_list := by
  obtain ⟨s0, ins, h0, rfl⟩ := hr
  refine run_unique K ins s0 ?_
  intro o _ i
  simp [h0, pending_count]

theorem mode_filter_sublist (l : List pending_cmd) (opcode index v : Nat) :
    (l.filter (mode_matches opcode index v)).Sublist (l.filter (index_matches opcode index)) := by
  induction l with
  | nil => exact List.Sublist.refl _
  | cons c rest ih =>
    by_cases hm : mode_matches opcode index v c = true
    · rw [List.filter_cons_of_pos hm,
        List.filter_cons_of_pos (mode_matches_le opcode index v c hm)]
      exact ih.cons₂ _
    · rw [List.filter_cons_of_neg hm]
      by_cases hi : index_matches opcode index c = true
      · rw [List.filter_cons_of_pos hi]
        exact ih.cons _
      · rw [List.filter_cons_of_neg hi]
        exact ih

/-- With at most one pending command for an opcode and index, the commands an
event answers for them have one owner. -/
theorem one_owner_of_unique (l : List pending_cmd) (o : mgmt_op) (ho : o ∈ exclusive_ops)
    (index : Nat) (hu : unique_pending K l) (m : List pending_cmd)
    (hm : m.Sublist (l.filter (index_matches (K.op o) index))) :
    ∀ c ∈ m, ∀ d ∈ m, c.sk = d.sk := by
  have h1 := hu o ho (index : Int)
  unfold pending_count at h1
  rw [List.countP_eq_length_filter] at h1
  have h2 : m.length ≤ 1 := Nat.le_trans hm.length_le h1
  intro c hc d hd
  rcases m with _ | ⟨a, _ | ⟨b, r⟩⟩
  · exact absurd hc (List.not_mem_nil _)
  · rw [List.mem_singleton.mp hc, List.mem_singleton.mp hd]
  · simp at h2


/-- A mode-change or disconnect callback, when no allocation fails and the
pending commands it answers all belong to one client: the calls made are the
Complete frames for the answered commands followed by one Event broadcast, and
a subscriber receives the Event exactly when it was sent no Complete frame. -/
theorem event_skips_one_owner (index v : Nat)
    (bdaddr : List Nat) (subscribers : List Nat) (hal : allocs_ok env) (hi : index < 65536) :
    ∀ p ∈ [(mgmt_powered K env s index v,
              s.cmd_list.filter (mode_matches (K.op .SET_POWERED) index v)),
           (mgmt_discoverable K env s index v,
              s.cmd_list.filter (mode_matches (K.op .SET_DISCOVERABLE) index v)),
           (mgmt_connectable K env s index v,
              s.cmd_list.filter (mode_matches (K.op .SET_CONNECTABLE) index v)),
           (mgmt_disconnected K env s index bdaddr,
              s.cmd_list.filter (index_matches (K.op .DISCONNECT) index))],
      (∀ c ∈ p.2, ∀ d ∈ p.2, c.sk = d.sk) →
      ∃ frame skip,
        (new_trace s p.1.2).getLast? = some (Effect.hci_send_to_sock frame skip) ∧
        (new_trace s p.1.2).countP (fun e => match e with
          | .hci_send_to_sock _ _ => true
          | _ => false) = 1 ∧
        reply_receivers (new_trace s p.1.2) = p.2.map (fun (c : pending_cmd) => c.sk) ∧
        (∀ sk, sk ∈ event_receivers subscribers skip ↔
          sk ∈ subscribers ∧ sk ∉ reply_receivers (new_trace s p.1.2)) ∧
        (p.2 = [] → event_receivers subscribers skip = subscribers) := by
  have cnt : ∀ (l : List pending_cmd) (f : pending_cmd → List Nat) (frame : List Nat)
      (skip : Option Nat),
      (l.map (fun (c : pending_cmd) => Effect.sock_queue_rcv_skb c.sk (f c)) ++
        [Effect.hci_send_to_sock frame skip]).countP (fun e => match e with
          | .hci_send_to_sock _ _ => true
          | _ => false) = 1 := by
    intro l f frame skip
    induction l with
    | nil => rfl
    | cons c rest ih => simp [List.countP_cons]
  have fin : ∀ (l : List pending_cmd) (f : pending_cmd → List Nat) (frame : List Nat)
      (skip : Option Nat) (s1 : State),
      (skip = (l.head?).map (fun (c : pending_cmd) => c.sk) ∨
        skip = (l.getLast?).map (fun (c : pending_cmd) => c.sk)) →
      new_trace s s1 = l.map (fun (c : pending_cmd) => Effect.sock_queue_rcv_skb c.sk (f c)) ++
        [Effect.hci_send_to_sock frame skip] →
      (∀ c ∈ l, ∀ d ∈ l, c.sk = d.sk) →
      ∃ frame skip,
        (new_trace s s1).getLast? = some (Effect.hci_send_to_sock frame skip) ∧
        (new_trace s s1).countP (fun e => match e with
          | .hci_send_to_sock _ _ => true
          | _ => false) = 1 ∧
        reply_receivers (new_trace s s1) = l.map (fun (c : pending_cmd) => c.sk) ∧
        (∀ sk, sk ∈ event_receivers subscribers skip ↔
          sk ∈ subscribers ∧ sk ∉ reply_receivers (new_trace s s1)) ∧
        (l = [] → event_receivers subscribers skip = subscribers) := by
    intro l f frame skip s1 hskip htr hone
    refine ⟨frame, skip, ?_, ?_, ?_, ?_, ?_⟩
    · rw [htr]; simp
    · rw [htr]; exact cnt l f frame skip
    · rw [htr]; exact reply_receivers_replies l f frame skip
    · intro sk
      rw [htr, reply_receivers_replies l f frame skip]
      exact skip_one_owner subscribers l skip hskip hone sk
    · intro hl
      subst hl
      rcases hskip with h | h <;> simp [h, event_receivers]
  intro p hp
  simp only [List.mem_cons, List.mem_singleton, List.not_mem_nil, or_false] at hp
  rcases hp with rfl | rfl | rfl | rfl
  · have e : mgmt_powered K env s index v = _ :=
      mode_event_eq K env s hal (K.op .SET_POWERED) (K.ev .POWERED) index v hi
    simp only [e]
    exact fin _ _ _ _ _ (Or.inl rfl) (new_trace_after_with s _ _ _)
  · have e : mgmt_discoverable K env s index v = _ :=
      mode_event_eq K env s hal (K.op .SET_DISCOVERABLE) (K.ev .DISCOVERABLE) index v hi
    simp only [e]
    exact fin _ _ _ _ _ (Or.inl rfl) (new_trace_after_with s _ _ _)
  · have e : mgmt_connectable K env s index v = _ :=
      mode_event_eq K env s hal (K.op .SET_CONNECTABLE) (K.ev .CONNECTABLE) index v hi
    simp only [e]
    exact fin _ _ _ _ _ (Or.inl rfl) (new_trace_after_with s _ _ _)
  · simp only [mgmt_disconnected_eq K env s hal index hi bdaddr]
    exact fin _ _ _ _ _ (Or.inr rfl) (new_trace_after_with s _ _ _)

end

/-! # The claims -/

/-- C1: `mgmt_control` rejects a message shorter than the 6-byte header, or whose
header length field differs from the message length minus 6, with -EINVAL and
without touching the pending-command list, the controllers or any collaborator;
a message that passes both checks is handled by the one handler the switch names
for its opcode (the default branch for an unknown opcode), whose result is what
`mgmt_control` returns.  Reading the header needs the message buffer, so the
second and third part are for a buffer that was allocated and copied. -/
theorem mgmt_control_dispatch (K : mgmt_defs) (env : Env) (s : State) (sk : Nat)
    (msg : List Nat) :
    (msg.length < sizeof_mgmt_hdr →
      mgmt_control K env s sk msg = (-(K.errno .EINVAL : Int), s)) ∧
    (sizeof_mgmt_hdr ≤ msg.length → get_le16 msg 4 ≠ msg.length - sizeof_mgmt_hdr →
      (mgmt_control K env s sk msg).1 < 0 ∧
      (mgmt_control K env s sk msg).2 = s.after 1 [] ∧
      (env.alloc s.nalloc = true → env.copy_fault = false →
        (mgmt_control K env s sk msg).1 = -(K.errno .EINVAL : Int))) ∧
    (sizeof_mgmt_hdr ≤ msg.length → get_le16 msg 4 = msg.length - sizeof_mgmt_hdr →
      env.alloc s.nalloc = true → env.copy_fault = false →
      (∀ o, get_le16 msg 0 = K.op o →
        mgmt_control K env s sk msg =
          mgmt_control_ret msg.length
            (handler_of K env (s.after 1 []) sk (get_le16 msg 2) (msg.drop sizeof_mgmt_hdr)
              (get_le16 msg 4) o)) ∧
      ((∀ o, get_le16 msg 0 ≠ K.op o) →
        mgmt_control K env s sk msg =
          mgmt_control_ret msg.length
            (cmd_status K env (s.after 1 []) sk (get_le16 msg 2) (get_le16 msg 0) 0x01))) := by
  refine ⟨?_, ?_, ?_⟩
  · intro h
    simp [mgmt_control, h]
  · intro h1 h2
    have h1' : ¬ msg.length < sizeof_mgmt_hdr := Nat.not_lt.mpr h1
    have e1 := K.errno_pos .EINVAL
    have e2 := K.errno_pos .ENOMEM
    have e3 := K.errno_pos .EFAULT
    refine ⟨?_, ?_, ?_⟩
    · simp only [mgmt_control, alloc, h1', if_false]
      split_ifs <;> simp <;> omega
    · simp only [mgmt_control, alloc, h1', if_false, State.after]
      split_ifs <;> simp
    · intro ha hc
      simp [mgmt_control, alloc, h1', ha, hc, h2]
  · intro h1 h2 ha hc
    have h1' : ¬ msg.length < sizeof_mgmt_hdr := Nat.not_lt.mpr h1
    refine ⟨?_, ?_⟩
    · intro o ho
      simp only [mgmt_control, alloc, h1', ha, hc, h2, if_false, ho, mgmt_switch_handler_of,
        mgmt_control_ret, State.after]
      simp
    · intro ho
      simp only [mgmt_control, alloc, h1', ha, hc, h2, if_false,
        mgmt_switch_default K env _ sk _ _ _ _ ho, mgmt_control_ret, State.after]
      simp

/-- C1, witness: a 3-byte message, and a 7-byte SET_POWERED message whose header
announces 9 payload bytes. -/
theorem mgmt_control_dispatch_witness :
    mgmt_control linux_defs env_ok st0 7 [5, 0, 0] = (-(linux_defs.errno .EINVAL : Int), st0) ∧
    (mgmt_control linux_defs env_ok st0 7 [5, 0, 0, 0, 9, 0, 1]).1
      = -(linux_defs.errno .EINVAL : Int) :=
  ⟨(mgmt_control_dispatch linux_defs env_ok st0 7 [5, 0, 0]).1 (by decide),
   ((mgmt_control_dispatch linux_defs env_ok st0 7 [5, 0, 0, 0, 9, 0, 1]).2.1
      (by decide) (by decide)).2.2 rfl rfl⟩

/-- C2 (as amended): a request whose payload size differs from the fixed
parameter size of its opcode (every opcode whose handler starts with the
`len != sizeof(*cp)` test; load_keys, whose parameter has variable length, is
not among them) is answered with one Status frame carrying EINVAL for that
opcode, and the pending-command list is unchanged; a request whose header length
field disagrees with the payload size gets -EINVAL as return value of
`mgmt_control`, no frame is queued, and the pending-command list is unchanged. -/
theorem size_mismatch_rejected (K : mgmt_defs) (env : Env) (s : State) (sk : Nat)
    (msg : List Nat) (hlen : sizeof_mgmt_hdr ≤ msg.length)
    (hbuf : env.alloc s.nalloc = true) (hcopy : env.copy_fault = false) :
    (get_le16 msg 4 = msg.length - sizeof_mgmt_hdr → env.alloc (s.nalloc + 1) = true →
      ∀ o size, get_le16 msg 0 = K.op o → fixed_param_size o = some size →
        get_le16 msg 4 ≠ size →
        mgmt_control K env s sk msg =
          ((msg.length : Int),
            s.after 2 [.sock_queue_rcv_skb sk
              (cmd_status_skb K (get_le16 msg 2) (K.op o) (K.errno .EINVAL))])) ∧
    (get_le16 msg 4 ≠ msg.length - sizeof_mgmt_hdr →
      mgmt_control K env s sk msg = (-(K.errno .EINVAL : Int), s.after 1 [])) := by
  have h1' : ¬ msg.length < sizeof_mgmt_hdr := Nat.not_lt.mpr hlen
  refine ⟨?_, ?_⟩
  · intro hfr ha o size ho hsz hne
    rw [hfr] at hne
    simp only [mgmt_control, alloc, h1', hbuf, hcopy, hfr, if_false, ho,
      mgmt_switch_handler_of]
    cases o <;> simp [fixed_param_size] at hsz <;> subst hsz <;>
      simp [handler_of, set_powered, set_discoverable, set_connectable, set_pairable,
        add_uuid, remove_uuid, set_dev_class, set_service_cache, remove_key, disconnect,
        pin_code_reply, pin_code_neg_reply, set_io_capability, pair_device,
        user_confirm_reply, set_local_name, add_remote_oob_data, remove_remote_oob_data,
        block_device, unblock_device, hne, cmd_status, alloc, ha, emit, State.after]
  · intro hne
    simp [mgmt_control, alloc, h1', hbuf, hcopy, hne, State.after]

/-- C2, witness: a SET_POWERED request with a two-byte payload, and one whose
header announces 9 payload bytes. -/
theorem size_mismatch_rejected_witness :
    mgmt_control linux_defs env_ok st0 7 [5, 0, 0, 0, 2, 0, 1, 1] =
      (((8 : Nat) : Int), st0.after 2 [.sock_queue_rcv_skb 7
          (cmd_status_skb linux_defs 0 (linux_defs.op .SET_POWERED)
            (linux_defs.errno .EINVAL))]) ∧
    mgmt_control linux_defs env_ok st0 7 [5, 0, 0, 0, 9, 0, 1] =
      (-(linux_defs.errno .EINVAL : Int), st0.after 1 []) :=
  ⟨(size_mismatch_rejected linux_defs env_ok st0 7 [5, 0, 0, 0, 2, 0, 1, 1] (by decide) rfl rfl).1
      (by decide) rfl .SET_POWERED 1 (by decide) rfl (by decide),
   (size_mismatch_rejected linux_defs env_ok st0 7 [5, 0, 0, 0, 9, 0, 1] (by decide) rfl rfl).2
      (by decide)⟩

/-- C2, counterexample: a request rejected because its header length field (9)
disagrees with its payload size (1), and a LOAD_KEYS request rejected because
its payload (1 byte) is shorter than the fixed header, are both rejected without
any Status frame: nothing at all is queued to the client. -/
theorem rejected_without_status_frame :
    (mgmt_control linux_defs env_ok st0 7 [5, 0, 0, 0, 9, 0, 1]).1 = -22 ∧
    (mgmt_control linux_defs env_ok st0 7 [5, 0, 0, 0, 9, 0, 1]).2.trace = [] ∧
    (mgmt_control linux_defs env_ok st0 7 [0x0d, 0, 0, 0, 1, 0, 0]).1 = -22 ∧
    (mgmt_control linux_defs env_ok st0 7 [0x0d, 0, 0, 0, 1, 0, 0]).2.trace = [] := by
  decide

/-- C3: a well-framed message whose opcode is none of the case labels of the
switch is answered with exactly one Status frame, which carries the request's
opcode, its controller index and status 0x01; the pending-command list and the
controllers are unchanged and `mgmt_control` returns the message length. -/
theorem unknown_opcode_status (K : mgmt_defs) (env : Env) (s : State) (sk : Nat)
    (msg : List Nat) (hlen : sizeof_mgmt_hdr ≤ msg.length)
    (hfr : get_le16 msg 4 = msg.length - sizeof_mgmt_hdr)
    (hop : ∀ o, get_le16 msg 0 ≠ K.op o)
    (halloc : allocs_ok env) (hcopy : env.copy_fault = false) :
    mgmt_control K env s sk msg =
      ((msg.length : Int),
        s.after 2 [.sock_queue_rcv_skb sk
          (cmd_status_skb K (get_le16 msg 2) (get_le16 msg 0) 0x01)]) ∧
    cmd_status_skb K (get_le16 msg 2) (get_le16 msg 0) 0x01 =
      le16 (K.ev .CMD_STATUS) ++ le16 (get_le16 msg 2) ++ le16 3 ++
        le16 (get_le16 msg 0) ++ [0x01] := by
  have h1' : ¬ msg.length < sizeof_mgmt_hdr := Nat.not_lt.mpr hlen
  refine ⟨?_, rfl⟩
  simp [mgmt_control, alloc, h1', halloc _, hcopy, hfr,
    mgmt_switch_default K env _ sk _ _ _ _ hop, cmd_status, emit, State.after]

/-- C3, witness: opcode 0x00ff for controller index 2. -/
theorem unknown_opcode_status_witness :
    mgmt_control linux_defs env_ok st0 7 [0xff, 0, 2, 0, 0, 0] =
      (((6 : Nat) : Int), st0.after 2 [.sock_queue_rcv_skb 7 [2, 0, 2, 0, 3, 0, 0xff, 0, 1]]) :=
  (unknown_opcode_status linux_defs env_ok st0 7 [0xff, 0, 2, 0, 0, 0] (by decide) (by decide)
    (by intro o; cases o <;> decide) (fun _ => rfl) rfl).1

/-- C4: every frame built by `cmd_status`, by `cmd_complete` (result length at
most 65533) and by `mgmt_event` (data pointer present, or data_len 0) is at least
6 bytes long and its little-endian length field at offset 4 equals the number of
bytes that follow the header, so it passes the length check of `mgmt_control`;
its first six bytes are the little-endian opcode, controller index and length;
for `cmd_complete` the length field is 2 + rp_len and the payload is the
little-endian original opcode followed by the result bytes unchanged. -/
theorem reply_frames_well_framed (K : mgmt_defs) (index cmd status : Nat)
    (rp : Option (List Nat)) (rp_len event : Nat) (data : Option (List Nat)) (data_len : Nat)
    (hrp : rp_len ≤ 65533) (hdl : data_len < 65536) (hdata : data ≠ none ∨ data_len = 0) :
    (∀ f ∈ [cmd_status_skb K index cmd status, cmd_complete_skb K index cmd rp rp_len,
            mgmt_event_skb event index data data_len],
      ¬ f.length < sizeof_mgmt_hdr ∧ ¬ get_le16 f 4 ≠ f.length - sizeof_mgmt_hdr) ∧
    (cmd_status_skb K index cmd status).take 6
      = le16 (K.ev .CMD_STATUS) ++ le16 index ++ le16 3 ∧
    (cmd_complete_skb K index cmd rp rp_len).take 6
      = le16 (K.ev .CMD_COMPLETE) ++ le16 index ++ le16 (2 + rp_len) ∧
    get_le16 (cmd_complete_skb K index cmd rp rp_len) 4 = 2 + rp_len ∧
    (∀ r, rp = some r → r.length = rp_len →
      (cmd_complete_skb K index cmd rp rp_len).drop 6 = le16 cmd ++ r) ∧
    (mgmt_event_skb event index data data_len).take 6
      = le16 event ++ le16 index ++ le16 data_len := by
  refine ⟨?_, ?_, ?_, ?_, ?_, ?_⟩
  · intro f hf
    simp only [List.mem_cons, List.mem_singleton, List.not_mem_nil, or_false] at hf
    rcases hf with rfl | rfl | rfl
    · simp [cmd_status_skb, mgmt_hdr, le16, get_le16, sizeof_mgmt_hdr, sizeof_mgmt_ev_cmd_status]
    · cases rp <;>
        simp [cmd_complete_skb, mgmt_hdr, le16, get_le16, sizeof_mgmt_hdr,
          sizeof_mgmt_ev_cmd_complete] <;> omega
    · cases data with
      | none =>
        have h0 : data_len = 0 := by simpa using hdata
        subst h0
        simp [mgmt_event_skb, mgmt_hdr, le16, get_le16, sizeof_mgmt_hdr]
      | some d =>
        simp [mgmt_event_skb, mgmt_hdr, le16, get_le16, sizeof_mgmt_hdr]
        omega
  · simp [cmd_status_skb, mgmt_hdr, le16, sizeof_mgmt_ev_cmd_status]
  · simp [cmd_complete_skb, mgmt_hdr, le16, sizeof_mgmt_ev_cmd_complete]
  · simp [cmd_complete_skb, mgmt_hdr, le16, get_le16, sizeof_mgmt_ev_cmd_complete]
    omega
  · intro r hr hl
    subst hr
    subst hl
    simp [cmd_complete_skb, mgmt_hdr, le16, bytes]
  · simp [mgmt_event_skb, mgmt_hdr, le16]

/-- C4, witness: the frames for a one-byte result and a one-byte event. -/
theorem reply_frames_well_framed_witness :
    (cmd_complete_skb linux_defs 0 5 (some [1]) 1).drop 6 = le16 5 ++ [1] :=
  (reply_frames_well_framed linux_defs 0 5 22 (some [1]) 1 6 (some [1]) 1
    (by decide) (by decide) (Or.inl (by decide))).2.2.2.2.1 [1] rfl rfl

/-- C5: for an existing controller and a one-byte set_powered request with value
v, the handler queues the Status(EALREADY) frame exactly when (v != 0) equals the
controller's UP flag; it then queues nothing else, registers no pending command
and queues no power work, whatever the pending-command list holds (the test
comes before the search behind EBUSY and before registration). -/
theorem set_powered_already (K : mgmt_defs) (env : Env) (s : State) (sk index v : Nat)
    (hdev : hci_dev) (hget : hci_dev_get s index = some hdev) (halloc : allocs_ok env) :
    (Effect.sock_queue_rcv_skb sk
        (cmd_status_skb K index (K.op .SET_POWERED) (K.errno .EALREADY))
      ∈ new_trace s (set_powered K env s sk index [v] 1).2
      ↔ decide (v ≠ 0) = test_bit .HCI_UP hdev.flags) ∧
    (decide (v ≠ 0) = test_bit .HCI_UP hdev.flags →
      set_powered K env s sk index [v] 1 =
        (0, s.after 1 [.sock_queue_rcv_skb sk
          (cmd_status_skb K index (K.op .SET_POWERED) (K.errno .EALREADY))])) := by
  have hpos : ∀ h : decide (v ≠ 0) = test_bit .HCI_UP hdev.flags,
      set_powered K env s sk index [v] 1 =
        (0, s.after 1 [.sock_queue_rcv_skb sk
          (cmd_status_skb K index (K.op .SET_POWERED) (K.errno .EALREADY))]) := by
    intro h
    have hc : (v ≠ 0 ∧ test_bit .HCI_UP hdev.flags = true) ∨
        (¬ v ≠ 0 ∧ ¬ test_bit .HCI_UP hdev.flags = true) := by
      by_cases hv : v = 0 <;> simp [hv] at h ⊢ <;> simp [← h]
    simp only [set_powered, sizeof_mgmt_mode, ne_eq, not_true_eq_false, if_false, hget,
      List.getD_cons_zero]
    rw [if_pos hc]
    exact cmd_status_ok K env s sk index _ _ (halloc _)
  refine ⟨⟨?_, ?_⟩, hpos⟩
  · intro hmem
    by_contra hne
    have hc : ¬ ((v ≠ 0 ∧ test_bit .HCI_UP hdev.flags = true) ∨
        (¬ v ≠ 0 ∧ ¬ test_bit .HCI_UP hdev.flags = true)) := by
      by_cases hv : v = 0 <;> simp [hv] at hne ⊢ <;> simp [hne]
    simp only [set_powered, sizeof_mgmt_mode, ne_eq, not_true_eq_false, if_false, hget,
      List.getD_cons_zero] at hmem
    rw [if_neg hc] at hmem
    split_ifs at hmem with hb
    · rw [cmd_status_ok K env s sk index _ _ (halloc _)] at hmem
      simp [cmd_status_skb_errno_inj] at hmem
    · simp [mgmt_pending_add, alloc, halloc _, emit, new_trace] at hmem
  · intro h
    rw [hpos h]
    simp

/-- C5, witness: set_powered(0) on the powered-down controller 0. -/
theorem set_powered_already_witness :
    set_powered linux_defs env_ok st0 7 0 [0] 1 =
      (0, st0.after 1 [.sock_queue_rcv_skb 7
        (cmd_status_skb linux_defs 0 (linux_defs.op .SET_POWERED)
          (linux_defs.errno .EALREADY))]) :=
  (set_powered_already linux_defs env_ok st0 7 0 0 hdev0 rfl (fun _ => rfl)).2 (by decide)

/-- C6 (as amended): for a powered-up controller with no pending discoverable or
connectable command, set_discoverable answers Status(EALREADY) and registers
nothing whenever the request byte equals the ISCAN flag (as 0 or 1) and the
PSCAN flag is set, and set_connectable answers Status(EALREADY) and registers
nothing whenever the request byte equals the PSCAN flag (as 0 or 1). -/
theorem scan_mode_already (K : mgmt_defs) (env : Env) (s : State) (sk index v : Nat)
    (hdev : hci_dev) (hget : hci_dev_get s index = some hdev)
    (hup : test_bit .HCI_UP hdev.flags = true)
    (hdisc : mgmt_pending_find s.cmd_list (K.op .SET_DISCOVERABLE) index = none)
    (hconn : mgmt_pending_find s.cmd_list (K.op .SET_CONNECTABLE) index = none)
    (halloc : allocs_ok env) :
    (v = (test_bit .HCI_ISCAN hdev.flags).toNat → test_bit .HCI_PSCAN hdev.flags = true →
      set_discoverable K env s sk index [v] 1 =
        (0, s.after 1 [.sock_queue_rcv_skb sk
          (cmd_status_skb K index (K.op .SET_DISCOVERABLE) (K.errno .EALREADY))])) ∧
    (v = (test_bit .HCI_PSCAN hdev.flags).toNat →
      set_connectable K env s sk index [v] 1 =
        (0, s.after 1 [.sock_queue_rcv_skb sk
          (cmd_status_skb K index (K.op .SET_CONNECTABLE) (K.errno .EALREADY))])) := by
  refine ⟨?_, ?_⟩
  · intro hv hp
    simp only [set_discoverable, sizeof_mgmt_mode, ne_eq, not_true_eq_false, if_false, hget,
      List.getD_cons_zero, hup, hdisc, hconn, Option.isSome_none, Bool.false_eq_true,
      or_self]
    rw [if_pos ⟨hv, hp⟩]
    exact cmd_status_ok K env s sk index _ _ (halloc _)
  · intro hv
    simp only [set_connectable, sizeof_mgmt_mode, ne_eq, not_true_eq_false, if_false, hget,
      List.getD_cons_zero, hup, hdisc, hconn, Option.isSome_none, Bool.false_eq_true,
      or_self]
    rw [if_pos hv]
    exact cmd_status_ok K env s sk index _ _ (halloc _)

/-- C6, witness: set_connectable(1) on a powered-up, connectable controller. -/
theorem scan_mode_already_witness :
    set_connectable linux_defs env_ok st0_conn 7 0 [1] 1 =
      (0, st0_conn.after 1 [.sock_queue_rcv_skb 7
        (cmd_status_skb linux_defs 0 (linux_defs.op .SET_CONNECTABLE)
          (linux_defs.errno .EALREADY))]) :=
  (scan_mode_already linux_defs env_ok st0_conn 7 0 1 hdev0_conn rfl rfl rfl rfl
    (fun _ => rfl)).2 rfl

/-- C6, counterexample: on a powered-up controller that is neither connectable
nor discoverable, set_discoverable(0) asks for the state the ISCAN flag already
has, yet it is registered as pending and a scan-enable command is submitted, and
no Status frame is queued; on a powered-up connectable controller,
set_connectable(2) asks for a non-zero value while PSCAN is set, yet it is
registered and submitted as well. -/
theorem scan_mode_not_already :
    set_discoverable linux_defs env_ok st0_up 7 0 [0] 1 =
      (0, { st0_up with
            cmd_list := [{ opcode := 6, index := 0, param := [0], sk := 7, user_data := none }],
            nalloc := 2,
            trace := [.hci_send_cmd 0 0x0c1a [2]] }) ∧
    set_connectable linux_defs env_ok st0_conn 7 0 [2] 1 =
      (0, { st0_conn with
            cmd_list := [{ opcode := 7, index := 0, param := [2], sk := 7, user_data := none }],
            nalloc := 2,
            trace := [.hci_send_cmd 0 0x0c1a [2]] }) := by
  decide

/-- C7: for set_discoverable, set_connectable, disconnect, pin_code_reply,
pin_code_neg_reply, user_confirm_reply (positive and negative) and
read_local_oob_data: when the payload size is the one the handler expects, the
controller exists and its UP flag is clear, the handler queues exactly one
Status(ENETDOWN) frame for its opcode, submits nothing to the HCI core and leaves
the pending-command list and the controllers unchanged. -/
theorem down_controller_enetdown (K : mgmt_defs) (env : Env) (s : State) (sk index : Nat)
    (data : List Nat) (len : Nat) (hdev : hci_dev) (o : mgmt_op)
    (ho : o ∈ [mgmt_op.SET_DISCOVERABLE, .SET_CONNECTABLE, .DISCONNECT, .PIN_CODE_REPLY,
      .PIN_CODE_NEG_REPLY, .USER_CONFIRM_REPLY, .USER_CONFIRM_NEG_REPLY,
      .READ_LOCAL_OOB_DATA])
    (hlen : ∀ size, fixed_param_size o = some size → len = size)
    (hget : hci_dev_get s index = some hdev)
    (hdown : test_bit .HCI_UP hdev.flags = false)
    (halloc : env.alloc s.nalloc = true) :
    handler_of K env s sk index data len o =
      (0, s.after 1 [.sock_queue_rcv_skb sk
        (cmd_status_skb K index (K.op o) (K.errno .ENETDOWN))]) := by
  simp only [List.mem_cons, List.mem_singleton, List.not_mem_nil, or_false] at ho
  rcases ho with rfl | rfl | rfl | rfl | rfl | rfl | rfl | rfl
  all_goals
    first
      | (have hl := hlen _ rfl
         subst hl
         simp [handler_of, set_discoverable, set_connectable, disconnect, pin_code_reply,
           pin_code_neg_reply, user_confirm_reply, hget, hdown,
           cmd_status_ok K env s sk index _ _ halloc])
      | simp [handler_of, read_local_oob_data, hget, hdown,
          cmd_status_ok K env s sk index _ _ halloc]

/-- C7, witness: disconnect on the powered-down controller 0. -/
theorem down_controller_enetdown_witness :
    disconnect linux_defs env_ok st0 7 0 [1, 2, 3, 4, 5, 6] 6 =
      (0, st0.after 1 [.sock_queue_rcv_skb 7
        (cmd_status_skb linux_defs 0 (linux_defs.op .DISCONNECT)
          (linux_defs.errno .ENETDOWN))]) :=
  down_controller_enetdown linux_defs env_ok st0 7 0 [1, 2, 3, 4, 5, 6] 6 hdev0 .DISCONNECT
    (by decide) (by intro size h; cases h; rfl) rfl rfl rfl

/-- C8 (as amended): in every state reachable from an empty pending-command list
by client requests and HCI-core callbacks, there is at most one pending command
for each controller index and each of the opcodes SET_POWERED, SET_DISCOVERABLE,
SET_CONNECTABLE and DISCONNECT. -/
theorem exclusive_pending_unique (K : mgmt_defs) (s : State) (h : Reachable K s)
    (o : mgmt_op) (ho : o ∈ exclusive_ops) (index : Int) :
    pending_count s.cmd_list (K.op o) index ≤ 1 := by
  obtain ⟨s0, ins, h0, rfl⟩ := h
  refine run_unique K ins s0 ?_ o ho index
  intro o' _ i
  simp [h0, pending_count]

/-- C8, witness: after a set_powered request on a powered-down controller. -/
theorem exclusive_pending_unique_witness :
    pending_count (run linux_defs st0 [(env_ok, .control 7 [5, 0, 0, 0, 1, 0, 1])]).cmd_list
      (linux_defs.op .SET_POWERED) 0 ≤ 1 :=
  exclusive_pending_unique linux_defs _ ⟨st0, _, rfl, rfl⟩ .SET_POWERED (by decide) 0

/-- C8, counterexample: two START_DISCOVERY requests for controller 0 are both
registered as pending. -/
theorem start_discovery_twice_both_pending :
    Reachable linux_defs
      (run linux_defs st0 [(env_ok, .control 7 [0x1b, 0, 0, 0, 0, 0]),
                           (env_ok, .control 8 [0x1b, 0, 0, 0, 0, 0])]) ∧
    pending_count
      (run linux_defs st0 [(env_ok, .control 7 [0x1b, 0, 0, 0, 0, 0]),
                           (env_ok, .control 8 [0x1b, 0, 0, 0, 0, 0])]).cmd_list
      (linux_defs.op .START_DISCOVERY) 0 = 2 :=
  ⟨⟨st0, _, rfl, rfl⟩, by decide⟩

/-- C9: for a powered-down controller with no pending SET_POWERED command, two
set_powered(idx, 1) requests handled one after the other: the first registers
exactly one pending SET_POWERED command (and queues the power-on work), the
second is answered with Status(EBUSY) and registers nothing, so afterwards
exactly one SET_POWERED command is pending for the controller. -/
theorem set_powered_twice (K : mgmt_defs) (env1 env2 : Env) (s : State)
    (sk1 sk2 index : Nat) (hdev : hci_dev) (hget : hci_dev_get s index = some hdev)
    (hdown : test_bit .HCI_UP hdev.flags = false)
    (hnone : mgmt_pending_find s.cmd_list (K.op .SET_POWERED) index = none)
    (h1 : allocs_ok env1) (h2 : allocs_ok env2) :
    set_powered K env1 s sk1 index [1] 1 =
      (0, { s.after 2 [.queue_work hdev.id true] with
            cmd_list := { opcode := K.op .SET_POWERED, index := index, param := [1],
                          sk := sk1, user_data := none } :: s.cmd_list }) ∧
    set_powered K env2 (set_powered K env1 s sk1 index [1] 1).2 sk2 index [1] 1 =
      (0, (set_powered K env1 s sk1 index [1] 1).2.after 1
        [.sock_queue_rcv_skb sk2
          (cmd_status_skb K index (K.op .SET_POWERED) (K.errno .EBUSY))]) ∧
    pending_count
      (set_powered K env2 (set_powered K env1 s sk1 index [1] 1).2 sk2 index [1] 1).2.cmd_list
      (K.op .SET_POWERED) index = 1 := by
  have e1 : set_powered K env1 s sk1 index [1] 1 =
      (0, { s.after 2 [.queue_work hdev.id true] with
            cmd_list := { opcode := K.op .SET_POWERED, index := index, param := [1],
                          sk := sk1, user_data := none } :: s.cmd_list }) := by
    simp [set_powered, sizeof_mgmt_mode, hget, hdown, hnone, mgmt_pending_add, alloc, h1 _,
      emit, State.after, bytes]
  have e2 : set_powered K env2 (set_powered K env1 s sk1 index [1] 1).2 sk2 index [1] 1 =
      (0, (set_powered K env1 s sk1 index [1] 1).2.after 1
        [.sock_queue_rcv_skb sk2
          (cmd_status_skb K index (K.op .SET_POWERED) (K.errno .EBUSY))]) := by
    rw [e1]
    have hget' : hci_dev_get ({ s.after 2 [.queue_work hdev.id true] with
            cmd_list := { opcode := K.op .SET_POWERED, index := index, param := [1],
                          sk := sk1, user_data := none } :: s.cmd_list }) index = some hdev :=
      hget
    simp only [set_powered, sizeof_mgmt_mode, ne_eq, not_true_eq_false, if_false, hget',
      List.getD_cons_zero, hdown]
    simp [mgmt_pending_find, cmd_status, alloc, h2 _, emit, State.after]
  refine ⟨e1, e2, ?_⟩
  rw [e2, e1]
  have h0 := pending_count_of_find_none _ _ _ hnone
  show pending_count ({ opcode := K.op .SET_POWERED, index := index, param := [1],
                          sk := sk1, user_data := none } :: s.cmd_list) _ _ = 1
  unfold pending_count at h0 ⊢
  rw [List.countP_cons, h0]
  simp

/-- C9, witness: two set_powered(0, 1) requests on the powered-down controller 0. -/
theorem set_powered_twice_witness :
    pending_count
      (set_powered linux_defs env_ok (set_powered linux_defs env_ok st0 7 0 [1] 1).2 8 0 [1] 1).2.cmd_list
      (linux_defs.op .SET_POWERED) 0 = 1 :=
  (set_powered_twice linux_defs env_ok env_ok st0 7 8 0 hdev0 rfl rfl rfl (fun _ => rfl)
    (fun _ => rfl)).2.2

/-- C10: for set_discoverable, set_connectable, disconnect, pin_code_reply,
pin_code_neg_reply, user_confirm_reply (positive and negative), set_local_name,
read_local_oob_data, start_discovery and stop_discovery: when submissions to the
HCI command queue fail, the pending-command list after the handler is the list
before the request, and whenever the handler did submit a command its return
value is the negative error of that submission. -/
theorem submission_failure_rolled_back (K : mgmt_defs) (env : Env) (s : State)
    (sk index : Nat) (data : List Nat) (len : Nat) (o : mgmt_op)
    (ho : o ∈ [mgmt_op.SET_DISCOVERABLE, .SET_CONNECTABLE, .DISCONNECT, .PIN_CODE_REPLY,
      .PIN_CODE_NEG_REPLY, .USER_CONFIRM_REPLY, .USER_CONFIRM_NEG_REPLY, .SET_LOCAL_NAME,
      .READ_LOCAL_OOB_DATA, .START_DISCOVERY, .STOP_DISCOVERY])
    (hfail : submission_fails env) :
    (handler_of K env s sk index data len o).2.cmd_list = s.cmd_list ∧
    ∀ dev opcode param,
      Effect.hci_send_cmd dev opcode param
          ∈ new_trace s (handler_of K env s sk index data len o).2 →
        (handler_of K env s sk index data len o).1 = env.hci_send_cmd dev opcode param ∧
        (handler_of K env s sk index data len o).1 < 0 := by
  simp only [List.mem_cons, List.mem_singleton, List.not_mem_nil, or_false] at ho
  rcases ho with rfl | rfl | rfl | rfl | rfl | rfl | rfl | rfl | rfl | rfl | rfl
  · exact set_discoverable_rolls_back K env s sk index data len hfail
  · exact set_connectable_rolls_back K env s sk index data len hfail
  · exact disconnect_rolls_back K env s sk index data len hfail
  · exact pin_code_reply_rolls_back K env s sk index data len hfail
  · exact pin_code_neg_reply_rolls_back K env s sk index data len hfail
  · exact user_confirm_reply_rolls_back K env s sk index data len true hfail
  · exact user_confirm_reply_rolls_back K env s sk index data len false hfail
  · exact set_local_name_rolls_back K env s sk index data len hfail
  · exact read_local_oob_data_rolls_back K env s sk index hfail
  · exact start_discovery_rolls_back K env s sk index hfail
  · exact stop_discovery_rolls_back K env s sk index hfail

/-- C10, witness: set_discoverable(1) on a powered-up controller while the HCI
core rejects every command: the request is not left pending and the handler
returns the error of the submission. -/
theorem submission_failure_rolled_back_witness :
    (set_discoverable linux_defs env_send_fail st0_up 7 0 [1] 1).2.cmd_list = st0_up.cmd_list ∧
    (set_discoverable linux_defs env_send_fail st0_up 7 0 [1] 1).1 = -12 :=
  ⟨(submission_failure_rolled_back linux_defs env_send_fail st0_up 7 0 [1] 1 .SET_DISCOVERABLE
      (by decide) (fun _ _ _ => (by decide : (-12 : Int) < 0))).1,
   ((submission_failure_rolled_back linux_defs env_send_fail st0_up 7 0 [1] 1 .SET_DISCOVERABLE
      (by decide) (fun _ _ _ => (by decide : (-12 : Int) < 0))).2 0 0x0c1a [3] (by decide)).1⟩

/-- C11: when no allocation fails, mgmt_powered(idx, v), mgmt_discoverable(idx, v)
and mgmt_connectable(idx, v) remove from the pending list exactly the commands
of their opcode for idx whose stored value is v, keeping all the others in
their order, and send, in list order, a Complete frame with value v to the
owner of each removed command, followed by the one Event frame. -/
theorem mode_event_fan_out (K : mgmt_defs) (env : Env) (s : State) (index v : Nat)
    (hal : allocs_ok env) (hi : index < 65536) :
    ∀ p ∈ [(mgmt_powered K env s index v, mgmt_op.SET_POWERED, mgmt_ev.POWERED),
           (mgmt_discoverable K env s index v, mgmt_op.SET_DISCOVERABLE, mgmt_ev.DISCOVERABLE),
           (mgmt_connectable K env s index v, mgmt_op.SET_CONNECTABLE, mgmt_ev.CONNECTABLE)],
      p.1.2.cmd_list = s.cmd_list.filter (fun c => !mode_matches (K.op p.2.1) index v c) ∧
      new_trace s p.1.2 =
        (s.cmd_list.filter (mode_matches (K.op p.2.1) index v)).map (fun (c : pending_cmd) =>
          Effect.sock_queue_rcv_skb c.sk
            (cmd_complete_skb K index (K.op p.2.1) (some [v % 256]) 1)) ++
        [Effect.hci_send_to_sock (mgmt_event_skb (K.ev p.2.2) index (some [v]) 1)
          (((s.cmd_list.filter (mode_matches (K.op p.2.1) index v)).head?).map
            (fun (c : pending_cmd) => c.sk))] ∧
      p.1.2.hci_dev_list = s.hci_dev_list := by
  intro p hp
  simp only [List.mem_cons, List.mem_singleton, List.not_mem_nil, or_false] at hp
  rcases hp with rfl | rfl | rfl
  · have e : mgmt_powered K env s index v = _ :=
      mode_event_eq K env s hal (K.op .SET_POWERED) (K.ev .POWERED) index v hi
    simp only [e]
    exact ⟨rfl, new_trace_after_with s _ _ _, rfl⟩
  · have e : mgmt_discoverable K env s index v = _ :=
      mode_event_eq K env s hal (K.op .SET_DISCOVERABLE) (K.ev .DISCOVERABLE) index v hi
    simp only [e]
    exact ⟨rfl, new_trace_after_with s _ _ _, rfl⟩
  · have e : mgmt_connectable K env s index v = _ :=
      mode_event_eq K env s hal (K.op .SET_CONNECTABLE) (K.ev .CONNECTABLE) index v hi
    simp only [e]
    exact ⟨rfl, new_trace_after_with s _ _ _, rfl⟩

/-- C11, witness: mgmt_powered(0, 1) while clients 7 and 8 wait for power on and
client 9 for power off: the command of client 9 alone stays pending. -/
theorem mode_event_fan_out_witness :
    (mgmt_powered linux_defs env_ok st0_waiting 0 1).2.cmd_list =
      [{ opcode := 5, index := 0, param := [0], sk := 9, user_data := none }] ∧
    reply_receivers (new_trace st0_waiting (mgmt_powered linux_defs env_ok st0_waiting 0 1).2)
      = [7, 8] := by
  have h := mode_event_fan_out linux_defs env_ok st0_waiting 0 1 (fun _ => rfl) (by decide)
    (mgmt_powered linux_defs env_ok st0_waiting 0 1, mgmt_op.SET_POWERED, mgmt_ev.POWERED)
    (by simp)
  refine ⟨h.1.trans (by decide), ?_⟩
  rw [h.2.1]
  decide

/-- C12: in every state reachable from an empty pending-command list by client
requests and HCI-core callbacks, when no allocation fails, the calls made by
mgmt_powered, mgmt_discoverable, mgmt_connectable and mgmt_disconnected are the
Complete frames for the pending commands the event answers followed by exactly
one Event broadcast; a subscriber receives the Event exactly when it was sent no
Complete frame by this event, so no client receives both; and when no pending
command is answered no subscriber is skipped. -/
theorem event_skips_resolved_clients (K : mgmt_defs) (env : Env) (s : State) (index v : Nat)
    (bdaddr : List Nat) (subscribers : List Nat) (hr : Reachable K s)
    (hal : allocs_ok env) (hi : index < 65536) :
    ∀ p ∈ [(mgmt_powered K env s index v,
              s.cmd_list.filter (mode_matches (K.op .SET_POWERED) index v)),
           (mgmt_discoverable K env s index v,
              s.cmd_list.filter (mode_matches (K.op .SET_DISCOVERABLE) index v)),
           (mgmt_connectable K env s index v,
              s.cmd_list.filter (mode_matches (K.op .SET_CONNECTABLE) index v)),
           (mgmt_disconnected K env s index bdaddr,
              s.cmd_list.filter (index_matches (K.op .DISCONNECT) index))],
      ∃ frame skip,
        (new_trace s p.1.2).getLast? = some (Effect.hci_send_to_sock frame skip) ∧
        (new_trace s p.1.2).countP (fun e => match e with
          | .hci_send_to_sock _ _ => true
          | _ => false) = 1 ∧
        reply_receivers (new_trace s p.1.2) = p.2.map (fun (c : pending_cmd) => c.sk) ∧
        (∀ sk, sk ∈ event_receivers subscribers skip ↔
          sk ∈ subscribers ∧ sk ∉ reply_receivers (new_trace s p.1.2)) ∧
        (p.2 = [] → event_receivers subscribers skip = subscribers) := by
  have hu := reachable_unique K s hr
  intro p hp
  refine event_skips_one_owner K env s index v bdaddr subscribers hal hi p hp ?_
  simp only [List.mem_cons, List.mem_singleton, List.not_mem_nil, or_false] at hp
  rcases hp with rfl | rfl | rfl | rfl
  · exact one_owner_of_unique K s.cmd_list .SET_POWERED (by decide) index hu _
      (mode_filter_sublist s.cmd_list (K.op .SET_POWERED) index v)
  · exact one_owner_of_unique K s.cmd_list .SET_DISCOVERABLE (by decide) index hu _
      (mode_filter_sublist s.cmd_list (K.op .SET_DISCOVERABLE) index v)
  · exact one_owner_of_unique K s.cmd_list .SET_CONNECTABLE (by decide) index hu _
      (mode_filter_sublist s.cmd_list (K.op .SET_CONNECTABLE) index v)
  · exact one_owner_of_unique K s.cmd_list .DISCONNECT (by decide) index hu _
      (List.Sublist.refl _)

/-- C12, witness: client 7 has asked to power hci0 on; when mgmt_powered(0, 1)
reports it, of the subscribers 7, 8 and 9 the Event reaches 8 and 9. -/
theorem event_skips_resolved_clients_witness :
    ∃ frame skip,
      (new_trace (run linux_defs st0 [(env_ok, .control 7 [5, 0, 0, 0, 1, 0, 1])])
        (mgmt_powered linux_defs env_ok
          (run linux_defs st0 [(env_ok, .control 7 [5, 0, 0, 0, 1, 0, 1])]) 0 1).2).getLast? =
        some (Effect.hci_send_to_sock frame skip) ∧
      event_receivers [7, 8, 9] skip = [8, 9] := by
  obtain ⟨frame, skip, h1, -, -, -, -⟩ :=
    event_skips_resolved_clients linux_defs env_ok
      (run linux_defs st0 [(env_ok, .control 7 [5, 0, 0, 0, 1, 0, 1])]) 0 1 [] [7, 8, 9]
      ⟨st0, _, rfl, rfl⟩ (fun _ => rfl) (by decide)
      (mgmt_powered linux_defs env_ok
        (run linux_defs st0 [(env_ok, .control 7 [5, 0, 0, 0, 1, 0, 1])]) 0 1,
        (run linux_defs st0 [(env_ok, .control 7 [5, 0, 0, 0, 1, 0, 1])]).cmd_list.filter
          (mode_matches (linux_defs.op .SET_POWERED) 0 1))
      (by simp)
  refine ⟨frame, skip, h1, ?_⟩
  have h2 : (new_trace (run linux_defs st0 [(env_ok, .control 7 [5, 0, 0, 0, 1, 0, 1])])
      (mgmt_powered linux_defs env_ok
        (run linux_defs st0 [(env_ok, .control 7 [5, 0, 0, 0, 1, 0, 1])]) 0 1).2).getLast?
      = some (Effect.hci_send_to_sock (mgmt_event_skb 6 0 (some [1]) 1) (some 7)) := by
    decide
  rw [h2] at h1
  simp only [Option.some.injEq, Effect.hci_send_to_sock.injEq] at h1
  rw [← h1.2]
  decide

/-- C13: on a powered-up, connectable, non-discoverable controller with no
SET_DISCOVERABLE or SET_CONNECTABLE command pending, when no allocation fails
and the scan-enable command is accepted: set_discoverable(idx, 1) leaves the
request pending, and mgmt_discoverable(idx, 1) then queues exactly one Complete
frame for SET_DISCOVERABLE with value 1 to the requester and broadcasts exactly
one DISCOVERABLE Event with value 1 that skips the requester and reaches every
other subscriber; afterwards the pending list is the one before the request and
mgmt_pending_find(SET_DISCOVERABLE, idx) finds nothing. -/
theorem set_discoverable_then_event (K : mgmt_defs) (env1 env2 : Env) (s : State)
    (sk index : Nat) (hdev : hci_dev) (subscribers : List Nat)
    (hget : hci_dev_get s index = some hdev)
    (hup : test_bit .HCI_UP hdev.flags = true)
    (hpscan : test_bit .HCI_PSCAN hdev.flags = true)
    (hiscan : test_bit .HCI_ISCAN hdev.flags = false)
    (hd : mgmt_pending_find s.cmd_list (K.op .SET_DISCOVERABLE) index = none)
    (hc : mgmt_pending_find s.cmd_list (K.op .SET_CONNECTABLE) index = none)
    (h1 : allocs_ok env1) (h2 : allocs_ok env2)
    (hsend : ∀ dev opcode param, 0 ≤ env1.hci_send_cmd dev opcode param)
    (hi : index < 65536) :
    mgmt_pending_find (set_discoverable K env1 s sk index [1] 1).2.cmd_list
        (K.op .SET_DISCOVERABLE) index
      = some { opcode := K.op .SET_DISCOVERABLE, index := index, param := [1], sk := sk,
               user_data := none } ∧
    reply_receivers (new_trace s (set_discoverable K env1 s sk index [1] 1).2) = [] ∧
    new_trace (set_discoverable K env1 s sk index [1] 1).2
        (mgmt_discoverable K env2 (set_discoverable K env1 s sk index [1] 1).2 index 1).2
      = [Effect.sock_queue_rcv_skb sk
           (cmd_complete_skb K index (K.op .SET_DISCOVERABLE) (some [1]) 1),
         Effect.hci_send_to_sock (mgmt_event_skb (K.ev .DISCOVERABLE) index (some [1]) 1)
           (some sk)] ∧
    sk ∉ event_receivers subscribers (some sk) ∧
    (∀ x ∈ subscribers, x ≠ sk → x ∈ event_receivers subscribers (some sk)) ∧
    (mgmt_discoverable K env2 (set_discoverable K env1 s sk index [1] 1).2 index 1).2.cmd_list
      = s.cmd_list ∧
    mgmt_pending_find
      (mgmt_discoverable K env2 (set_discoverable K env1 s sk index [1] 1).2 index 1).2.cmd_list
      (K.op .SET_DISCOVERABLE) index = none := by
  have e1 : set_discoverable K env1 s sk index [1] 1 =
      (env1.hci_send_cmd hdev.id (K.hci .WRITE_SCAN_ENABLE)
          [(K.SCAN_PAGE % 256 ||| K.SCAN_INQUIRY) % 256],
        { s.after 2 [.hci_send_cmd hdev.id (K.hci .WRITE_SCAN_ENABLE)
            [(K.SCAN_PAGE % 256 ||| K.SCAN_INQUIRY) % 256]] with
          cmd_list := { opcode := K.op .SET_DISCOVERABLE, index := index, param := [1],
                        sk := sk, user_data := none } :: s.cmd_list }) := by
    simp [set_discoverable, sizeof_mgmt_mode, hget, hup, hpscan, hiscan, hd, hc,
      mgmt_pending_add, alloc, h1 _, emit, State.after, bytes, hci_send_cmd,
      Int.not_lt.mpr (hsend _ _ _)]
  have hf := mode_filter_none_of_find_none s.cmd_list (K.op .SET_DISCOVERABLE) index 1 hd
  have hm : mode_matches (K.op .SET_DISCOVERABLE) index 1
      { opcode := K.op .SET_DISCOVERABLE, index := index, param := [1], sk := sk,
        user_data := none } = true := by
    unfold mode_matches
    rw [decide_eq_true_iff]
    exact ⟨rfl, rfl, rfl⟩
  have hnot : s.cmd_list.filter (fun c => !mode_matches (K.op .SET_DISCOVERABLE) index 1 c)
      = s.cmd_list := by
    rw [List.filter_eq_self]
    intro c hc
    rw [List.filter_eq_nil_iff] at hf
    simpa using hf c hc
  have e2 := mode_event_eq K env2 (set_discoverable K env1 s sk index [1] 1).2 h2
    (K.op .SET_DISCOVERABLE) (K.ev .DISCOVERABLE) index 1 hi
  have e2' : mgmt_discoverable K env2 (set_discoverable K env1 s sk index [1] 1).2 index 1 = _ :=
    e2
  rw [e2']
  rw [e1]
  simp only [List.filter_cons, hm, if_true, hf, Bool.not_true, Bool.false_eq_true, if_false,
    hnot]
  refine ⟨?_, ?_, ?_, ?_, ?_, ?_, ?_⟩
  · simp [mgmt_pending_find]
  · simp [new_trace, State.after, reply_receivers]
  · simp [new_trace, State.after, sizeof_mgmt_mode]
  · simp [event_receivers]
  · intro x hx hne
    simp [event_receivers, hx, hne]
  · rfl
  · exact hd

/-- C13, witness: client 7 asks hci0 (up and connectable) to become discoverable
and the controller reports the change. -/
theorem set_discoverable_then_event_witness :
    new_trace (set_discoverable linux_defs env_ok st0_conn 7 0 [1] 1).2
        (mgmt_discoverable linux_defs env_ok
          (set_discoverable linux_defs env_ok st0_conn 7 0 [1] 1).2 0 1).2
      = [Effect.sock_queue_rcv_skb 7 (cmd_complete_skb linux_defs 0 6 (some [1]) 1),
         Effect.hci_send_to_sock (mgmt_event_skb 7 0 (some [1]) 1) (some 7)] ∧
    event_receivers [7, 8, 9] (some 7) = [8, 9] :=
  ⟨(set_discoverable_then_event linux_defs env_ok env_ok st0_conn 7 0 hdev0_conn [7, 8, 9]
      rfl rfl rfl rfl rfl rfl (fun _ => rfl) (fun _ => rfl)
      (fun _ _ _ => (by decide : (0 : Int) ≤ 0)) (by decide)).2.2.1, by decide⟩

/-- C14, counterexample: with the set_powered(1) command of client 7 pending for
hci0, mgmt_index_removed(0) only broadcasts the INDEX_REMOVED event: client 7 is
sent no reply and its command is still found pending for index 0. -/
theorem index_removed_keeps_pending :
    (set_powered linux_defs env_ok st0 7 0 [1] 1).2.cmd_list =
      [{ opcode := 5, index := 0, param := [1], sk := 7, user_data := none }] ∧
    (mgmt_index_removed linux_defs env_ok (set_powered linux_defs env_ok st0 7 0 [1] 1).2 0).2.cmd_list
      = [{ opcode := 5, index := 0, param := [1], sk := 7, user_data := none }] ∧
    new_trace (set_powered linux_defs env_ok st0 7 0 [1] 1).2
      (mgmt_index_removed linux_defs env_ok (set_powered linux_defs env_ok st0 7 0 [1] 1).2 0).2
      = [Effect.hci_send_to_sock (mgmt_event_skb 5 0 none 0) none] := by
  decide

/-- C14 (amended): when its allocation succeeds, mgmt_index_removed(idx) makes
one call, the broadcast of the INDEX_REMOVED event for idx to all subscribers,
and leaves the pending-command list as it was: no owner of a pending command is
sent a reply and the commands addressed to idx stay pending. -/
theorem index_removed_broadcast_only (K : mgmt_defs) (env : Env) (s : State) (index : Nat)
    (h : env.alloc s.nalloc = true) :
    mgmt_index_removed K env s index =
      (0, s.after 1 [.hci_send_to_sock (mgmt_event_skb (K.ev .INDEX_REMOVED) index none 0) none]) ∧
    (mgmt_index_removed K env s index).2.cmd_list = s.cmd_list ∧
    reply_receivers (new_trace s (mgmt_index_removed K env s index).2) = [] := by
  have e : mgmt_index_removed K env s index =
      (0, s.after 1 [.hci_send_to_sock (mgmt_event_skb (K.ev .INDEX_REMOVED) index none 0) none]) :=
    mgmt_event_ok K env s _ _ _ _ _ h
  refine ⟨e, ?_, ?_⟩
  · rw [e]
    rfl
  · rw [e]
    simp [reply_receivers]

/-- C14 (amended), witness: mgmt_index_removed(0) with nothing pending. -/
theorem index_removed_broadcast_only_witness :
    mgmt_index_removed linux_defs env_ok st0 0 =
      (0, st0.after 1 [.hci_send_to_sock (mgmt_event_skb 5 0 none 0) none]) :=
  (index_removed_broadcast_only linux_defs env_ok st0 0 rfl).1

/-- C15, the code at the failing inputs: remove_key for a stored key with
disconnect = 0, and remove_uuid with the all-zero UUID, both return 0 on the
registered controller hci0 having queued no frame at all to the requesting
client 7 (the only call of remove_key is hci_remove_link_key; remove_uuid makes
no call). -/
theorem remove_key_and_remove_uuid_any_send_no_frame :
    remove_key linux_defs env_ok st0_up 7 0 [0x16, 0x15, 0x14, 0x13, 0x12, 0x11, 0] 7 =
      (0, st0_up.after 0 [.hci_remove_link_key 0 [0x16, 0x15, 0x14, 0x13, 0x12, 0x11]]) ∧
    reply_receivers (new_trace st0_up
      (remove_key linux_defs env_ok st0_up 7 0 [0x16, 0x15, 0x14, 0x13, 0x12, 0x11, 0] 7).2) = [] ∧
    remove_uuid linux_defs env_ok st0_up 7 0 (List.replicate 16 0) 16 = (0, st0_up) ∧
    reply_receivers (new_trace st0_up
      (remove_uuid linux_defs env_ok st0_up 7 0 (List.replicate 16 0) 16).2) = [] := by
  decide

/-- C16, the code at the failing input: a LOAD_KEYS payload of 28 bytes that
declares key_count = 2622 (3 + 2622 * 25 = 65553, which is 17 modulo 65536) is
not rejected: the stored keys are cleared, the one entry present is installed
and a Complete frame is sent. -/
theorem load_keys_count_wraps :
    get_le16 ([0, 0x3E, 0x0A] ++ [1, 2, 3, 4, 5, 6, 0] ++ List.replicate 16 0xAA ++ [4, 0]) 1
      = 2622 ∧
    sizeof_mgmt_cp_load_keys + 2622 * sizeof_mgmt_key_info > 28 ∧
    load_keys linux_defs env_ok st0_up 7 0
        ([0, 0x3E, 0x0A] ++ [1, 2, 3, 4, 5, 6, 0] ++ List.replicate 16 0xAA ++ [4, 0]) 28 =
      (0, { st0_up.after 1
              [.hci_link_keys_clear 0,
               .hci_add_link_key 0 [1, 2, 3, 4, 5, 6] (List.replicate 16 0xAA) 0 4,
               .sock_queue_rcv_skb 7 (cmd_complete_skb linux_defs 0 0x000D none 0)] with
            hci_dev_list :=
              [{ hdev0_up with
                 flags := clear_bit .HCI_DEBUG_KEYS (set_bit .HCI_LINK_KEYS hdev0_up.flags) }] }) := by
  decide

/-- C17: for a load_keys payload that passes the length checks, on a registered
controller and with the reply allocated: the calls made are
hci_link_keys_clear first, then the calls for the entries at the offsets the
loop visits, in that order, then the Complete frame; the offsets visited are
strictly increasing, each the previous one plus the entry size plus the dlen
found there, and all inside the payload; an entry whose dlen reaches the end of
the payload is the last one visited (the calls made before it stay in the
trace); and the loop is finished within `len` iterations: more iterations
change nothing. -/
theorem load_keys_entries_in_order (K : mgmt_defs) (env : Env) (s : State)
    (sk index : Nat) (data : List Nat) (len : Nat) (hdev : hci_dev)
    (hlen : sizeof_mgmt_cp_load_keys ≤ len)
    (hexp : (sizeof_mgmt_cp_load_keys + get_le16 data 1 * sizeof_mgmt_key_info) % 65536 ≤ len)
    (hget : hci_dev_get s index = some hdev)
    (hal : env.alloc s.nalloc = true) :
    new_trace s (load_keys K env s sk index data len).2 =
      Effect.hci_link_keys_clear hdev.id ::
        ((key_offsets (data.drop sizeof_mgmt_cp_load_keys) (len - sizeof_mgmt_cp_load_keys)
            (len - sizeof_mgmt_cp_load_keys) 0).filterMap
          (key_call K hdev.id (data.drop sizeof_mgmt_cp_load_keys)) ++
        [Effect.sock_queue_rcv_skb sk (cmd_complete_skb K index (K.op .LOAD_KEYS) none 0)]) ∧
    List.Pairwise (fun a b => a < b)
      (key_offsets (data.drop sizeof_mgmt_cp_load_keys) (len - sizeof_mgmt_cp_load_keys)
        (len - sizeof_mgmt_cp_load_keys) 0) ∧
    List.Chain' (fun a b => b = a + (sizeof_mgmt_key_info +
        ((data.drop sizeof_mgmt_cp_load_keys).drop a).getD 24 0))
      (key_offsets (data.drop sizeof_mgmt_cp_load_keys) (len - sizeof_mgmt_cp_load_keys)
        (len - sizeof_mgmt_cp_load_keys) 0) ∧
    (∀ o ∈ key_offsets (data.drop sizeof_mgmt_cp_load_keys) (len - sizeof_mgmt_cp_load_keys)
        (len - sizeof_mgmt_cp_load_keys) 0, o < len - sizeof_mgmt_cp_load_keys) ∧
    (∀ pre o post,
      key_offsets (data.drop sizeof_mgmt_cp_load_keys) (len - sizeof_mgmt_cp_load_keys)
        (len - sizeof_mgmt_cp_load_keys) 0 = pre ++ o :: post →
      len - sizeof_mgmt_cp_load_keys ≤ o + (sizeof_mgmt_key_info +
        ((data.drop sizeof_mgmt_cp_load_keys).drop o).getD 24 0) →
      post = []) ∧
    (∀ fuel, len - sizeof_mgmt_cp_load_keys ≤ fuel →
      load_keys_loop K hdev.id (data.drop sizeof_mgmt_cp_load_keys)
          (len - sizeof_mgmt_cp_load_keys) fuel 0 =
        load_keys_loop K hdev.id (data.drop sizeof_mgmt_cp_load_keys)
          (len - sizeof_mgmt_cp_load_keys) (len - sizeof_mgmt_cp_load_keys) 0) := by
  refine ⟨?_, key_offsets_sorted _ _ _ _, key_offsets_chain _ _ _ _,
    fun o ho => (key_offsets_bounds _ _ _ _ o ho).2, key_offsets_last _ _ _ _, ?_⟩
  · have h1 : ¬ len < sizeof_mgmt_cp_load_keys := Nat.not_lt.mpr hlen
    have h2 : ¬ (sizeof_mgmt_cp_load_keys + get_le16 data 1 * sizeof_mgmt_key_info) % 65536 > len :=
      Nat.not_lt.mpr hexp
    unfold load_keys
    simp only [h1, h2, if_false, hget]
    rw [load_keys_loop_eq]
    split_ifs <;>
      simp [cmd_complete, alloc, hal, emit, set_dev, new_trace]
  · intro fuel hf
    rw [load_keys_loop_eq, load_keys_loop_eq,
      key_offsets_fuel _ _ fuel 0 (len - sizeof_mgmt_cp_load_keys) (by omega) (by omega)]

/-- C17, witness: a payload of two entries, the first a link key whose dlen of 40
runs past the end: it is installed and the second entry is never read. -/
theorem load_keys_entries_in_order_witness :
    new_trace st0_up (load_keys linux_defs env_ok st0_up 7 0
        ([0, 2, 0] ++ ([1, 2, 3, 4, 5, 6, 0] ++ List.replicate 16 0xAA ++ [4, 40]) ++
          ([6, 5, 4, 3, 2, 1, 0] ++ List.replicate 16 0xBB ++ [4, 0])) 53).2 =
      [Effect.hci_link_keys_clear 0,
       Effect.hci_add_link_key 0 [1, 2, 3, 4, 5, 6] (List.replicate 16 0xAA) 0 4,
       Effect.sock_queue_rcv_skb 7 (cmd_complete_skb linux_defs 0 0x000D none 0)] :=
  (load_keys_entries_in_order linux_defs env_ok st0_up 7 0
    ([0, 2, 0] ++ ([1, 2, 3, 4, 5, 6, 0] ++ List.replicate 16 0xAA ++ [4, 40]) ++
      ([6, 5, 4, 3, 2, 1, 0] ++ List.replicate 16 0xBB ++ [4, 0])) 53 hdev0_up
    (by decide) (by decide) rfl rfl).1.trans (by decide)

/-- C18, counterexample: on a controller that already has the UUID 0x110A
registered with service hint 0x20, add_uuid of the same UUID followed by
remove_uuid leaves no UUID at all: the service-class byte goes from 0x20 to 0
and the derived EIR block loses its UUID field. -/
theorem add_remove_registered_uuid_drops_it :
    hci_dev_get st0_uuid 0 = some hdev0_uuid ∧
    hci_dev_get (remove_uuid linux_defs env_ok
        (add_uuid linux_defs env_ok st0_uuid 7 0 (uuid_110a ++ [0x20]) 17).2 7 0 uuid_110a 16).2 0
      = some hdev0 ∧
    get_service_classes hdev0_uuid = 0x20 ∧ get_service_classes hdev0 = 0 ∧
    (create_eir hdev0_uuid (List.replicate HCI_MAX_EIR_LENGTH 0)).take 4 = [3, 3, 0x0A, 0x11] ∧
    (create_eir hdev0 (List.replicate HCI_MAX_EIR_LENGTH 0)).take 4 = [0, 0, 0, 0] := by
  decide

/-- C18 (amended): when the UUID u is not yet registered on the controller and
is not the all-zero UUID, add_uuid(u, h) followed by remove_uuid(u) leaves the
controller with the UUID list it had before, so that the block derived by
create_eir and the class bytes (minor class, major class, OR of the service
hints) are those from before the add. -/
theorem add_remove_uuid_round_trip (K : mgmt_defs) (env1 env2 : Env) (s : State)
    (sk1 sk2 index : Nat) (data : List Nat) (hdev : hci_dev)
    (hget : hci_dev_get s index = some hdev)
    (hfresh : ∀ m ∈ hdev.uuids, m.uuid ≠ bytes 16 data)
    (hany : bytes 16 data ≠ List.replicate 16 0) :
    ∃ hdev2,
      hci_dev_get (remove_uuid K env2
          (add_uuid K env1 s sk1 index data sizeof_mgmt_cp_add_uuid).2 sk2 index (bytes 16 data)
          sizeof_mgmt_cp_remove_uuid).2 index = some hdev2 ∧
      hdev2.uuids = hdev.uuids ∧
      create_eir hdev2 (List.replicate HCI_MAX_EIR_LENGTH 0) =
        create_eir hdev (List.replicate HCI_MAX_EIR_LENGTH 0) ∧
      [hdev2.minor_class % 256, hdev2.major_class % 256, get_service_classes hdev2] =
        [hdev.minor_class % 256, hdev.major_class % 256, get_service_classes hdev] := by
  have hb : bytes 16 (bytes 16 data) = bytes 16 data := bytes_self 16 _ (bytes_length 16 data)
  obtain ⟨e1, U, hU, h1⟩ := add_uuid_dev K env1 s sk1 index data hdev hget
  obtain ⟨e2, h2⟩ := remove_uuid_dev K env2 _ sk2 index (bytes 16 data) _ h1 (by rw [hb]; exact hany)
  have hf : hdev.uuids.filter (fun m => decide (¬ m.uuid = bytes 16 data)) = hdev.uuids := by
    rw [List.filter_eq_self]
    intro m hm
    simpa using hfresh m hm
  have hfU : U.filter (fun m => decide (¬ m.uuid = bytes 16 data)) = hdev.uuids := by
    rcases hU with rfl | rfl
    · exact hf
    · rw [List.filter_cons]
      simp only [not_true_eq_false, decide_False, Bool.false_eq_true, if_false]
      exact hf
  rw [hb] at h2
  simp only [hfU] at h2
  exact ⟨_, h2, rfl, rfl, rfl⟩

/-- C18 (amended), witness: adding and removing the UUID 0x110A on a controller
without UUIDs leaves it without UUIDs. -/
theorem add_remove_uuid_round_trip_witness :
    ∃ hdev2,
      hci_dev_get (remove_uuid linux_defs env_ok
          (add_uuid linux_defs env_ok st0 7 0 (uuid_110a ++ [0x20]) 17).2 7 0
          (bytes 16 (uuid_110a ++ [0x20])) 16).2 0 = some hdev2 ∧
      hdev2.uuids = [] :=
  let ⟨h, h1, h2, _⟩ := add_remove_uuid_round_trip linux_defs env_ok env_ok st0 7 7 0
    (uuid_110a ++ [0x20]) hdev0 rfl (by decide) (by decide)
  ⟨h, h1, h2⟩

/-- C19: on a powered-up controller with an ACL connection to the address of the
request whose pending security level is high, for a pin_code_reply of the right
size whose pin_len is not 16, when no allocation fails and the HCI command is
accepted: the calls made are the submission of HCI PIN_CODE_NEG_REPLY for the
address followed by the Status(EINVAL) frame for PIN_CODE_REPLY to the client,
the return value is 0, and the one command added to the pending list has
opcode PIN_CODE_NEG_REPLY, so the commands pending with opcode PIN_CODE_REPLY
are those pending before. -/
theorem pin_code_reply_short_pin (K : mgmt_defs) (env : Env) (s : State) (sk index : Nat)
    (data : List Nat) (hdev : hci_dev) (conn : hci_conn)
    (hget : hci_dev_get s index = some hdev)
    (hup : test_bit .HCI_UP hdev.flags = true)
    (hconn : hci_conn_hash_lookup_ba hdev K.ACL_LINK (bytes 6 data) = some conn)
    (hsec : conn.pending_sec_level = K.BT_SECURITY_HIGH)
    (hpin : data.getD 6 0 ≠ 16)
    (hal : allocs_ok env)
    (hsend : 0 ≤ env.hci_send_cmd hdev.id (K.hci .PIN_CODE_NEG_REPLY) (bytes 6 data)) :
    pin_code_reply K env s sk index data sizeof_mgmt_cp_pin_code_reply =
      (0, { s.after 3
              [.hci_send_cmd hdev.id (K.hci .PIN_CODE_NEG_REPLY) (bytes 6 data),
               .sock_queue_rcv_skb sk
                 (cmd_status_skb K index (K.op .PIN_CODE_REPLY) (K.errno .EINVAL))] with
            cmd_list := { opcode := K.op .PIN_CODE_NEG_REPLY, index := index,
                          param := bytes 6 data, sk := sk, user_data := none }
                        :: s.cmd_list }) ∧
    K.op .PIN_CODE_NEG_REPLY ≠ K.op .PIN_CODE_REPLY ∧
    (pin_code_reply K env s sk index data sizeof_mgmt_cp_pin_code_reply).2.cmd_list.filter
        (fun c => decide (c.opcode = K.op .PIN_CODE_REPLY)) =
      s.cmd_list.filter (fun c => decide (c.opcode = K.op .PIN_CODE_REPLY)) := by
  have hb : bytes 6 (bytes 6 data) = bytes 6 data := bytes_self 6 _ (bytes_length 6 data)
  have hne : K.op .PIN_CODE_NEG_REPLY ≠ K.op .PIN_CODE_REPLY :=
    fun h => absurd (K.op_inj h) (by decide)
  have e : pin_code_reply K env s sk index data sizeof_mgmt_cp_pin_code_reply =
      (0, { s.after 3
              [.hci_send_cmd hdev.id (K.hci .PIN_CODE_NEG_REPLY) (bytes 6 data),
               .sock_queue_rcv_skb sk
                 (cmd_status_skb K index (K.op .PIN_CODE_REPLY) (K.errno .EINVAL))] with
            cmd_list := { opcode := K.op .PIN_CODE_NEG_REPLY, index := index,
                          param := bytes 6 data, sk := sk, user_data := none }
                        :: s.cmd_list }) := by
    simp only [pin_code_reply, ne_eq, not_true_eq_false, if_false, hget, hup, hconn, hsec,
      hpin, not_false_eq_true, and_self, if_true, send_pin_code_neg_reply, mgmt_pending_add,
      alloc, hal _, Bool.not_true, Bool.false_eq_true, sizeof_mgmt_cp_pin_code_neg_reply, hb,
      hci_send_cmd, Int.not_lt.mpr hsend, ge_iff_le, hsend, cmd_status, emit, State.after]
    simp [Nat.add_assoc]
  refine ⟨e, hne, ?_⟩
  rw [e]
  simp [List.filter_cons, hne]

/-- C19, witness: a pin_code_reply with a 4-digit PIN for the connection of hci0
that waits for high security. -/
theorem pin_code_reply_short_pin_witness :
    pin_code_reply linux_defs env_ok st0_high 7 0
        ([0x16, 0x15, 0x14, 0x13, 0x12, 0x11, 4, 0x31, 0x32, 0x33, 0x34] ++ List.replicate 12 0) 23 =
      (0, { st0_high.after 3
              [.hci_send_cmd 0 0x040e [0x16, 0x15, 0x14, 0x13, 0x12, 0x11],
               .sock_queue_rcv_skb 7 (cmd_status_skb linux_defs 0 0x0011 22)] with
            cmd_list := [{ opcode := 0x0012, index := 0,
                           param := [0x16, 0x15, 0x14, 0x13, 0x12, 0x11], sk := 7,
                           user_data := none }] }) :=
  (pin_code_reply_short_pin linux_defs env_ok st0_high 7 0
    ([0x16, 0x15, 0x14, 0x13, 0x12, 0x11, 4, 0x31, 0x32, 0x33, 0x34] ++ List.replicate 12 0)
    hdev0_high conn0_high rfl rfl (by decide) rfl (by decide) (fun _ => rfl)
    (by decide)).1

/-- C20: update_eir submits a WRITE_EIR command, and nothing else, exactly when
the controller supports extended inquiry, simple pairing is on, the
service-cache flag is clear and the block derived by create_eir differs from
the cached copy; it then stores the derived block as the cached copy and
changes nothing else of the controller; in every other case it makes no call
and leaves the controller as it was; and a second update_eir on the controller
it returns makes no call. -/
theorem update_eir_submits_iff_changed (K : mgmt_defs) (env env2 : Env) (s s2 : State)
    (hdev : hci_dev) :
    new_trace s (update_eir K env s hdev).2.2 =
      (if hdev.features.getD 6 0 &&& K.LMP_EXT_INQ ≠ 0 ∧ hdev.ssp_mode ≠ 0 ∧
          test_bit .HCI_SERVICE_CACHE hdev.flags = false ∧
          create_eir hdev (List.replicate HCI_MAX_EIR_LENGTH 0)
            ≠ bytes HCI_MAX_EIR_LENGTH hdev.eir
       then [Effect.hci_send_cmd hdev.id (K.hci .WRITE_EIR)
              ([0] ++ create_eir hdev (List.replicate HCI_MAX_EIR_LENGTH 0))]
       else []) ∧
    (update_eir K env s hdev).2.1 =
      (if hdev.features.getD 6 0 &&& K.LMP_EXT_INQ ≠ 0 ∧ hdev.ssp_mode ≠ 0 ∧
          test_bit .HCI_SERVICE_CACHE hdev.flags = false ∧
          create_eir hdev (List.replicate HCI_MAX_EIR_LENGTH 0)
            ≠ bytes HCI_MAX_EIR_LENGTH hdev.eir
       then { hdev with eir := create_eir hdev (List.replicate HCI_MAX_EIR_LENGTH 0) }
       else hdev) ∧
    new_trace s2 (update_eir K env2 s2 (update_eir K env s hdev).2.1).2.2 = [] := by
  have hlen := create_eir_length hdev (List.replicate HCI_MAX_EIR_LENGTH 0)
  simp only [List.length_replicate] at hlen
  have hb := bytes_self HCI_MAX_EIR_LENGTH _ hlen
  have hnil : ∀ t : State, new_trace t t = [] := fun t => by simp [new_trace]
  by_cases hc : hdev.features.getD 6 0 &&& K.LMP_EXT_INQ ≠ 0 ∧ hdev.ssp_mode ≠ 0 ∧
      test_bit .HCI_SERVICE_CACHE hdev.flags = false ∧
      create_eir hdev (List.replicate HCI_MAX_EIR_LENGTH 0) ≠ bytes HCI_MAX_EIR_LENGTH hdev.eir
  · rw [update_eir_eq K env s hdev, if_pos hc, if_pos hc, if_pos hc]
    refine ⟨by simp [new_trace, emit], rfl, ?_⟩
    rw [update_eir_eq, if_neg]
    · exact hnil s2
    · intro h
      exact h.2.2.2 (by rw [create_eir_eir, hb])
  · rw [update_eir_eq K env s hdev, if_neg hc, if_neg hc, if_neg hc]
    refine ⟨hnil s, rfl, ?_⟩
    rw [update_eir_eq, if_neg hc]
    exact hnil s2

/-- C22: in a buffer of at least 240 bytes, for a name of length n > 0 the
output of create_eir starts with the length byte min(n, 48) + 1, the type byte
0x09 when n <= 48 and 0x08 when n > 48, and the first min(n, 48) bytes of the
name; for an empty name what create_eir writes at the start of the buffer is
nothing or a field whose type byte is one of the UUID markers 0x02 and 0x03. -/
theorem name_field_written (hdev : hci_dev) (data : List Nat)
    (h : HCI_MAX_EIR_LENGTH ≤ data.length) :
    (strlen hdev.dev_name ≠ 0 →
      (create_eir hdev data).take (min (strlen hdev.dev_name) 48 + 2) =
        [min (strlen hdev.dev_name) 48 + 1,
         if strlen hdev.dev_name > 48 then 0x08 else 0x09] ++
        hdev.dev_name.take (min (strlen hdev.dev_name) 48)) ∧
    (strlen hdev.dev_name = 0 →
      ∃ field, create_eir hdev data = field ++ data.drop field.length ∧
        (field = [] ∨ field.getD 1 0 = 0x02 ∨ field.getD 1 0 = 0x03)) := by
  have e := create_eir_eq_fields hdev data (Nat.le_trans (eir_fields_length hdev) h)
  constructor
  · intro hn
    rw [e]
    have hlen := eir_name_field_length hdev
    simp only [hn, if_false, eir_name_len] at hlen
    have hnf : eir_name_field hdev =
        [min (strlen hdev.dev_name) 48 + 1,
         if strlen hdev.dev_name > 48 then 0x08 else 0x09] ++
        hdev.dev_name.take (min (strlen hdev.dev_name) 48) := by
      simp only [eir_name_field, hn, if_false, eir_name_len, EIR_NAME_SHORT, EIR_NAME_COMPLETE]
    unfold eir_fields
    rw [List.append_assoc, List.take_append_of_le_length (by rw [hlen]), ← hlen, List.take_length,
      hnf]
  · intro h0
    have hnf : eir_name_field hdev = [] := by simp [eir_name_field, h0]
    refine ⟨eir_fields hdev, e, ?_⟩
    unfold eir_fields
    rw [hnf]
    simp only [List.nil_append, List.length_nil]
    rcases uuid16_gather (uuid16_values hdev.uuids) [] 0 with _ | ⟨l, t⟩
    · exact Or.inl rfl
    · simp only [eir_uuid16_field]
      by_cases hl : l = []
      · simp [hl]
      · right
        simp only [hl, if_false]
        cases t
        · right; rfl
        · left; rfl

set_option maxRecDepth 8000 in
/-- C22, witness: the name field of the controller named "AB". -/
theorem name_field_written_witness :
    (create_eir hdev0_three_uuids (List.replicate HCI_MAX_EIR_LENGTH 0)).take 4 =
      [3, 0x09, 0x41, 0x42] :=
  (name_field_written hdev0_three_uuids (List.replicate HCI_MAX_EIR_LENGTH 0)
    (by decide)).1 (by decide)

/-- C23: in a buffer of at least 240 bytes, when every registered UUID reduces
to a 16-bit value, create_eir leaves after the name field the UUID field of a
list of values that holds no value twice, only values of the UUID list that are
at least 0x1100 and not 0x1200, in the order of their first occurrence in the
list (a prefix of the first occurrences of the eligible values); the field is
the length byte 2 * (number of values) + 1, which fits a byte, the type byte
and the values in little-endian, and there is no field when no value is
listed. -/
theorem uuid_field_written (hdev : hci_dev) (data : List Nat)
    (hall : ∀ u ∈ hdev.uuids, get_uuid16 u.uuid ≠ 0)
    (h : HCI_MAX_EIR_LENGTH ≤ data.length) :
    ∃ (l : List Nat) (type : Nat),
      l.Nodup ∧
      (∀ v ∈ l, v ∈ uuid16_values hdev.uuids ∧ 0x1100 ≤ v ∧ v ≠ 0x1200) ∧
      List.IsPrefix l (first_occurrences (eligible_uuid16 hdev.uuids)) ∧
      2 * l.length + 1 < 256 ∧
      (l = [] → create_eir hdev data =
        eir_name_field hdev ++ data.drop (eir_name_field hdev).length) ∧
      (l ≠ [] → create_eir hdev data =
        eir_name_field hdev ++
        ([2 * l.length + 1, type] ++ l.flatMap (fun u => [u % 256, u / 256 % 256])) ++
        data.drop ((eir_name_field hdev).length + (2 + 2 * l.length))) := by
  obtain ⟨l, t, hg, e⟩ := create_eir_listed hdev data hall h
  obtain ⟨⟨more, hlm, hmo, hnd⟩, -, -, hb⟩ := uuid16_gather_facts _ _ _ _ _ hg
  simp only [List.nil_append] at hlm
  subst hlm
  have hp := (uuid16_gather_in_order _ _ _ _ _ hg).1
  refine ⟨l, if t then EIR_UUID16_SOME else EIR_UUID16_ALL, hnd, ?_, hp, ?_, ?_, ?_⟩
  · intro v hv
    have := hmo v hv
    exact ⟨this.1, this.2.1, this.2.2.1⟩
  · simp only [List.length_nil, Nat.sub_zero, HCI_MAX_EIR_LENGTH] at hb
    omega
  · intro hl
    rw [e]
    simp [eir_uuid16_field, hl]
  · intro hl
    rw [e]
    have hlen := eir_uuid16_field_length l t
    simp only [hl, if_false] at hlen
    rw [hlen]
    simp only [eir_uuid16_field, hl, if_false]

set_option maxRecDepth 8000 in
/-- C23, witness: the controller named "AB" with the UUIDs 0x110A, 0x110B and
0x110A again gets the field 05 03 0A 11 0B 11 after its name field. -/
theorem uuid_field_written_witness :
    (create_eir hdev0_three_uuids (List.replicate HCI_MAX_EIR_LENGTH 0)).take 11 =
      [3, 0x09, 0x41, 0x42, 5, 0x03, 0x0A, 0x11, 0x0B, 0x11, 0] ∧
    ∃ l : List Nat, l.Nodup ∧
      List.IsPrefix l (first_occurrences (eligible_uuid16 hdev0_three_uuids.uuids)) :=
  ⟨by decide,
   let ⟨l, _, h1, _, h3, _⟩ := uuid_field_written hdev0_three_uuids
     (List.replicate HCI_MAX_EIR_LENGTH 0) (by decide) (by decide)
   ⟨l, h1, h3⟩⟩

set_option maxRecDepth 100000 in
/-- C24, counterexample: with no name and the 119 UUIDs 0x1101 .. 0x1177
registered, followed by 0x1101 once more, every eligible UUID of the list is in
the field written by create_eir (all 119 values, filling the 240 bytes), yet
the type byte is 0x02: the repeated UUID arrives when no room is left. -/
theorem full_field_with_repeat_marked_some :
    eligible_uuid16 hdev0_full.uuids =
      (List.range 119).map (fun i => 0x1101 + i) ++ [0x1101] ∧
    create_eir hdev0_full (List.replicate HCI_MAX_EIR_LENGTH 0) =
      [239, EIR_UUID16_SOME] ++
        ((List.range 119).map (fun i => 0x1101 + i)).flatMap
          (fun u => [u % 256, u / 256 % 256]) := by
  constructor
  · decide
  · decide

/-- C24 (amended): in a buffer of at least 240 bytes, when every registered UUID
reduces to a 16-bit value, the UUID field written by create_eir (if any value is
listed) carries the type byte 0x02 when `truncated` is set and 0x03 otherwise.
`truncated` is set exactly when the list holds an eligible UUID, already listed
or not, such that the name field and the first occurrences of the eligible
UUIDs before it leave fewer than four bytes of the 240; the field is then
there.  If an eligible UUID of the list is missing from the field, `truncated`
is set; when it is not set every eligible UUID of the list is in the field. -/
theorem uuid_field_type_byte (hdev : hci_dev) (data : List Nat)
    (hall : ∀ u ∈ hdev.uuids, get_uuid16 u.uuid ≠ 0)
    (h : HCI_MAX_EIR_LENGTH ≤ data.length) :
    ∃ (l : List Nat) (truncated : Bool),
      (l = [] → create_eir hdev data =
        eir_name_field hdev ++ data.drop (eir_name_field hdev).length) ∧
      (l ≠ [] → create_eir hdev data =
        eir_name_field hdev ++
        ([2 * l.length + 1, if truncated then 0x02 else 0x03] ++
          l.flatMap (fun u => [u % 256, u / 256 % 256])) ++
        data.drop ((eir_name_field hdev).length + (2 + 2 * l.length))) ∧
      (truncated = true ↔ ∃ pre u post, hdev.uuids = pre ++ u :: post ∧
        0x1100 ≤ get_uuid16 u.uuid ∧ get_uuid16 u.uuid ≠ 0x1200 ∧
        (eir_name_field hdev).length + 2 * (first_occurrences (eligible_uuid16 pre)).length + 4
          > 240) ∧
      (truncated = true → l ≠ []) ∧
      ((∃ v ∈ eligible_uuid16 hdev.uuids, v ∉ l) → truncated = true) ∧
      (truncated = false → ∀ v ∈ eligible_uuid16 hdev.uuids, v ∈ l) := by
  obtain ⟨l, t, hg, e⟩ := create_eir_listed hdev data hall h
  obtain ⟨-, ht, hf, -⟩ := uuid16_gather_facts _ _ _ _ _ hg
  have hiff := uuid16_gather_truncated_iff _ _ _ _ _ hg
  simp only [List.length_nil, Nat.sub_zero, HCI_MAX_EIR_LENGTH] at ht hiff
  have hn := eir_name_field_length_le hdev
  have hall2 : t = false → ∀ v ∈ eligible_uuid16 hdev.uuids, v ∈ l := by
    intro htf v hv
    unfold eligible_uuid16 at hv
    have := List.mem_filter.mp hv
    simp only [decide_eq_true_eq] at this
    exact hf htf v this.1 this.2.1 this.2.2
  refine ⟨l, t, ?_, ?_, ?_, ?_, ?_, hall2⟩
  · intro hl
    rw [e]
    simp [eir_uuid16_field, hl]
  · intro hl
    rw [e]
    have hlen := eir_uuid16_field_length l t
    simp only [hl, if_false] at hlen
    rw [hlen]
    simp only [eir_uuid16_field, hl, if_false, EIR_UUID16_SOME, EIR_UUID16_ALL]
  · rw [hiff]
    constructor
    · rintro ⟨pre, u, post, hsp, hu1, hu2, hroom⟩
      unfold uuid16_values at hsp
      obtain ⟨l1, l2, hl12, hm1, hm2⟩ := List.map_eq_append_iff.mp hsp
      obtain ⟨a, l3, hl3, ha, -⟩ := List.map_eq_cons_iff.mp hm2
      refine ⟨l1, a, l3, by rw [hl12, hl3], by rw [ha]; exact hu1, by rw [ha]; exact hu2, ?_⟩
      simp only [first_occurrences, eligible_uuid16, uuid16_values, hm1]
      exact hroom
    · rintro ⟨pre, u, post, hsp, hu1, hu2, hroom⟩
      refine ⟨uuid16_values pre, get_uuid16 u.uuid, uuid16_values post, ?_, hu1, hu2, ?_⟩
      · simp only [uuid16_values, hsp, List.map_append, List.map_cons]
      · simp only [first_occurrences, eligible_uuid16] at hroom
        exact hroom
  · intro htt hl
    have := ht htt
    rw [hl] at this
    simp only [List.length_nil] at this
    omega
  · rintro ⟨v, hv, hvl⟩
    cases t
    · exact absurd (hall2 rfl v hv) hvl
    · rfl

set_option maxRecDepth 8000 in
/-- C24 (amended), witness: the field of the controller with the UUIDs 0x110A,
0x110B, 0x110A has the type byte 0x03, and `truncated` is not set for it. -/
theorem uuid_field_type_byte_witness :
    (create_eir hdev0_three_uuids (List.replicate HCI_MAX_EIR_LENGTH 0)).getD 5 0 = 0x03 ∧
    ∃ (l : List Nat) (truncated : Bool),
      (truncated = true → l ≠ []) ∧
      (truncated = false → ∀ v ∈ eligible_uuid16 hdev0_three_uuids.uuids, v ∈ l) :=
  ⟨by decide,
   let ⟨l, t, _, _, _, h4, _, h6⟩ := uuid_field_type_byte hdev0_three_uuids
     (List.replicate HCI_MAX_EIR_LENGTH 0) (by decide) (by decide)
   ⟨l, t, h4, h6⟩⟩

/-- C25: mgmt_pending_find returns the first entry, in list order, whose opcode
is the given one and whose controller index is the given index, any entry of
that opcode when the index is negative, and nothing when there is none; the
index 0xFFFF thus matches only entries stored with 0xFFFF and a real index never
matches them.  mgmt_pending_add puts a new entry in front, so the first entry
is the most recently added one.  The function only reads the list. -/
theorem mgmt_pending_find_first_match (env : Env) (s : State) (l : List pending_cmd)
    (opcode : Nat) (index : Int) (sk o i : Nat) (data : Option (List Nat)) (len : Nat) :
    ((mgmt_pending_find l opcode index).isSome ↔
      ∃ c ∈ l, c.opcode = opcode ∧ (index < 0 ∨ c.index = index)) ∧
    (∀ c, mgmt_pending_find l opcode index = some c →
      c.opcode = opcode ∧ (index < 0 ∨ c.index = index) ∧
      ∃ pre post, l = pre ++ c :: post ∧
        ∀ d ∈ pre, ¬ (d.opcode = opcode ∧ (index < 0 ∨ d.index = index))) ∧
    (∀ c, c.opcode = opcode → c.index = (MGMT_INDEX_NONE : Int) →
      (0 ≤ index → index ≠ (MGMT_INDEX_NONE : Int) →
        mgmt_pending_find (c :: l) opcode index = mgmt_pending_find l opcode index) ∧
      mgmt_pending_find (c :: l) opcode (MGMT_INDEX_NONE : Int) = some c) ∧
    (∀ c, c.opcode = opcode → c.index ≠ (MGMT_INDEX_NONE : Int) →
      mgmt_pending_find (c :: l) opcode (MGMT_INDEX_NONE : Int) =
        mgmt_pending_find l opcode (MGMT_INDEX_NONE : Int)) ∧
    (∀ c, (mgmt_pending_add env s sk o i data len).1 = some c →
      (mgmt_pending_add env s sk o i data len).2.cmd_list = c :: s.cmd_list) := by
  refine ⟨?_, ?_, ?_, ?_, ?_⟩
  · rw [mgmt_pending_find_eq_find, List.find?_isSome]
    simp
  · intro c hc
    rw [mgmt_pending_find_eq_find] at hc
    have h1 := List.find?_some hc
    simp only [decide_eq_true_eq] at h1
    refine ⟨h1.1, h1.2, ?_⟩
    obtain ⟨-, pre, post, hl, hpre⟩ := List.find?_eq_some.mp hc
    refine ⟨pre, post, hl, fun d hd hp => ?_⟩
    have h := hpre d hd
    rw [decide_eq_true hp] at h
    exact Bool.noConfusion h
  · intro c ho hi
    constructor
    · intro h0 hne
      rw [mgmt_pending_find_eq_find, mgmt_pending_find_eq_find]
      apply List.find?_cons_of_neg
      simp only [decide_eq_true_eq, not_and, not_or, not_lt]
      intro _
      exact ⟨h0, fun h => hne (by rw [← h, hi])⟩
    · rw [mgmt_pending_find_eq_find]
      apply List.find?_cons_of_pos
      simp [ho, hi]
  · intro c ho hi
    rw [mgmt_pending_find_eq_find, mgmt_pending_find_eq_find]
    apply List.find?_cons_of_neg
    simp only [decide_eq_true_eq, not_and, not_or, not_lt]
    intro _
    exact ⟨by simp [MGMT_INDEX_NONE], hi⟩
  · intro c hc
    have h := mgmt_pending_add_cmd_list env s sk o i data len
    rw [hc] at h
    simpa using h

/-- C26: for a pending PAIR_DEVICE command that is the one command registered
for its connection, and with the reply allocated: pairing_complete queues one
Complete frame for PAIR_DEVICE carrying the peer address of the connection and
the status to the owner, releases the connection, leaves the three callbacks of
the connection cleared and unlinks the command, which is then in the pending
list no more; find_pairing finds nothing for the connection afterwards, and a
later pairing_complete_cb for it changes nothing and sends nothing. -/
theorem pairing_complete_once (K : mgmt_defs) (env env2 : Env) (s : State)
    (cmd : pending_cmd) (c : hci_conn) (status status2 : Nat)
    (hud : cmd.user_data = some c.ptr)
    (hderef : conn_deref s c.ptr = some c)
    (honly : s.cmd_list.filter
      (fun x => decide (x.opcode = K.op .PAIR_DEVICE ∧ x.user_data = some c.ptr)) = [cmd])
    (hal : env.alloc s.nalloc = true) :
    new_trace s (pairing_complete K env s cmd status) =
      [Effect.sock_queue_rcv_skb cmd.sk
         (cmd_complete_skb K (cmd.index % 65536).toNat (K.op .PAIR_DEVICE)
           (some (bytes 6 c.dst ++ [status % 256])) sizeof_mgmt_rp_pair_device),
       Effect.hci_conn_put c.ptr] ∧
    conn_deref (pairing_complete K env s cmd status) c.ptr =
      some { c with connect_cfm_cb := false, security_cfm_cb := false,
                    disconn_cfm_cb := false } ∧
    (pairing_complete K env s cmd status).cmd_list = s.cmd_list.erase cmd ∧
    cmd ∉ (pairing_complete K env s cmd status).cmd_list ∧
    find_pairing K (pairing_complete K env s cmd status) c.ptr = none ∧
    pairing_complete_cb K env2 (pairing_complete K env s cmd status) c.ptr status2 =
      pairing_complete K env s cmd status := by
  have hcmd : cmd ∈ s.cmd_list.filter
      (fun x => decide (x.opcode = K.op .PAIR_DEVICE ∧ x.user_data = some c.ptr)) := by
    rw [honly]; exact List.mem_singleton_self _
  have hnone := filter_erase_of_singleton _ cmd s.cmd_list honly
  have e : pairing_complete K env s cmd status =
      mgmt_pending_remove
        (emit (set_conn
          (s.after 1 [Effect.sock_queue_rcv_skb cmd.sk
            (cmd_complete_skb K (cmd.index % 65536).toNat (K.op .PAIR_DEVICE)
              (some (bytes 6 c.dst ++ [status % 256])) sizeof_mgmt_rp_pair_device)])
          { c with connect_cfm_cb := false, security_cfm_cb := false,
                   disconn_cfm_cb := false })
          (.hci_conn_put c.ptr)) cmd := by
    unfold pairing_complete
    have hb : cmd.user_data.bind (conn_deref s) = some c := by rw [hud]; exact hderef
    simp only [hb]
    rw [cmd_complete_ok K env s _ _ _ _ _ hal]
  have hlist : (pairing_complete K env s cmd status).cmd_list = s.cmd_list.erase cmd := by
    rw [e]; rfl
  have hnot : cmd ∉ s.cmd_list.erase cmd := by
    intro hm
    have : cmd ∈ (s.cmd_list.erase cmd).filter
        (fun x => decide (x.opcode = K.op .PAIR_DEVICE ∧ x.user_data = some c.ptr)) :=
      List.mem_filter.mpr ⟨hm, (List.mem_filter.mp hcmd).2⟩
    rw [hnone] at this
    exact absurd this (List.not_mem_nil _)
  have hfind : find_pairing K (pairing_complete K env s cmd status) c.ptr = none := by
    unfold find_pairing
    split
    · rfl
    · rw [hlist, List.find?_eq_none]
      intro x hx hp
      have : x ∈ (s.cmd_list.erase cmd).filter
          (fun x => decide (x.opcode = K.op .PAIR_DEVICE ∧ x.user_data = some c.ptr)) := by
        refine List.mem_filter.mpr ⟨hx, ?_⟩
        simp only [decide_eq_true_eq] at hp ⊢
        exact ⟨hp.1, hp.2.2⟩
      rw [hnone] at this
      exact absurd this (List.not_mem_nil _)
  refine ⟨?_, ?_, hlist, by rw [hlist]; exact hnot, hfind, ?_⟩
  · rw [e]
    simp [new_trace, mgmt_pending_remove, emit, set_conn, State.after]
  · rw [e]
    have h1 : conn_deref (s.after 1 [Effect.sock_queue_rcv_skb cmd.sk
        (cmd_complete_skb K (cmd.index % 65536).toNat (K.op .PAIR_DEVICE)
          (some (bytes 6 c.dst ++ [status % 256])) sizeof_mgmt_rp_pair_device)]) c.ptr
        = some c := hderef
    exact conn_deref_set_conn _ c _ h1 rfl
  · unfold pairing_complete_cb
    rw [hfind]

/-- C26, witness: the pairing of client 7 with 11:12:13:14:15:16 completes with
status 5; a second report for the connection changes nothing. -/
theorem pairing_complete_once_witness :
    (pairing_complete linux_defs env_ok st0_pairing cmd0_pairing 5).cmd_list = [] ∧
    pairing_complete_cb linux_defs env_ok
        (pairing_complete linux_defs env_ok st0_pairing cmd0_pairing 5) 1 5 =
      pairing_complete linux_defs env_ok st0_pairing cmd0_pairing 5 :=
  ⟨(pairing_complete_once linux_defs env_ok env_ok st0_pairing cmd0_pairing conn0_pairing 5 5
      rfl (by decide) (by decide) rfl).2.2.1.trans (by decide),
   (pairing_complete_once linux_defs env_ok env_ok st0_pairing cmd0_pairing conn0_pairing 5 5
      rfl (by decide) (by decide) rfl).2.2.2.2.2⟩

/-- C27: for every controller name and UUID list, create_eir run on a 240-byte
buffer followed by any further bytes returns what it returns on the 240 bytes
alone, followed by those bytes untouched, and its output on 240 bytes is 240
bytes long; and the loop over the UUIDs, run on the 120 zeroed entries of the
scratch array followed by any further entries, returns what it returns on the
120 entries alone, followed by those entries untouched, with entry 119 of the
array still zero: no store and no scan goes beyond entry 119 of the scratch
array or beyond byte 239 of the buffer. -/
theorem create_eir_stays_in_bounds (hdev : hci_dev) (data tail : List Nat)
    (scratch_tail : List Nat) (eir_len : Nat)
    (hlen : data.length = HCI_MAX_EIR_LENGTH) :
    create_eir hdev (data ++ tail) = create_eir hdev data ++ tail ∧
    (create_eir hdev data).length = HCI_MAX_EIR_LENGTH ∧
    (create_eir_uuids hdev.uuids (List.replicate (HCI_MAX_EIR_LENGTH / 2) 0 ++ scratch_tail)
        eir_len).map (fun r => (r.1, r.2.2)) =
      (create_eir_uuids hdev.uuids (List.replicate (HCI_MAX_EIR_LENGTH / 2) 0) eir_len).map
        (fun r => (r.1 ++ scratch_tail, r.2.2)) ∧
    (∀ r, create_eir_uuids hdev.uuids (List.replicate (HCI_MAX_EIR_LENGTH / 2) 0) eir_len
        = some r →
      r.1.length = HCI_MAX_EIR_LENGTH / 2 ∧ r.1.getD 119 0 = 0) := by
  have hf := eir_fields_length hdev
  have e1 := create_eir_eq_fields hdev data (by rw [hlen]; exact hf)
  have e2 := create_eir_eq_fields hdev (data ++ tail)
    (by rw [List.length_append, hlen]; exact Nat.le_trans hf (Nat.le_add_right _ _))
  have hz : ∀ tl : List Nat,
      ([] : List Nat) ++ List.replicate (120 - ([] : List Nat).length) 0 ++ tl =
        List.replicate (HCI_MAX_EIR_LENGTH / 2) 0 ++ tl := by
    intro tl
    simp only [List.nil_append, List.length_nil]
    rfl
  have hR1 := create_eir_uuids_gather scratch_tail hdev.uuids [] eir_len (by simp) (by simp)
    (by simp)
  have hR0 := create_eir_uuids_gather [] hdev.uuids [] eir_len (by simp) (by simp) (by simp)
  rw [hz] at hR1 hR0
  rw [List.append_nil] at hR0
  refine ⟨?_, ?_, ?_, ?_⟩
  · rw [e1, e2, List.drop_append_of_le_length (by rw [hlen]; exact hf), List.append_assoc]
  · rw [e1, List.length_append, List.length_drop]
    omega
  · rw [hR1]
    rcases hc : create_eir_uuids hdev.uuids (List.replicate (HCI_MAX_EIR_LENGTH / 2) 0) eir_len
      with _ | ⟨l1, e1', t1⟩
    · rw [hc] at hR0
      rcases hg : uuid16_gather (uuid16_values hdev.uuids) [] eir_len with _ | ⟨l, t⟩
      · rfl
      · rw [hg] at hR0
        simp at hR0
    · rw [hc] at hR0
      rcases hg : uuid16_gather (uuid16_values hdev.uuids) [] eir_len with _ | ⟨l, t⟩
      · rw [hg] at hR0
        simp at hR0
      · rw [hg] at hR0
        simp only [Option.map_some', Option.some.injEq, Prod.mk.injEq] at hR0 ⊢
        obtain ⟨h1, h2⟩ := hR0
        rw [h1, h2]
        simp
  · intro r hr
    rw [hr] at hR0
    rcases hg : uuid16_gather (uuid16_values hdev.uuids) [] eir_len with _ | ⟨l, t⟩
    · rw [hg] at hR0
      simp at hR0
    · rw [hg] at hR0
      simp only [Option.map_some', Option.some.injEq, Prod.mk.injEq] at hR0
      obtain ⟨⟨more, hlm, hmo, -⟩, -, -, hb⟩ := uuid16_gather_facts _ _ _ _ _ hg
      simp only [List.length_nil, Nat.sub_zero, HCI_MAX_EIR_LENGTH] at hb
      have hl119 : l.length ≤ 119 := by omega
      rw [hR0.1]
      constructor
      · simp only [List.length_append, List.length_replicate, List.append_nil,
          HCI_MAX_EIR_LENGTH]
        omega
      · rw [List.append_nil, List.getD_append_right _ _ _ _ hl119, List.getD_eq_getElem?_getD,
          List.getElem?_replicate]
        split <;> rfl

set_option maxRecDepth 8000 in
/-- C27, witness: the block of the controller named "AB" with three UUIDs,
built in a 240-byte buffer with three more bytes behind it. -/
theorem create_eir_stays_in_bounds_witness :
    create_eir hdev0_three_uuids (List.replicate HCI_MAX_EIR_LENGTH 0 ++ [7, 8, 9]) =
      create_eir hdev0_three_uuids (List.replicate HCI_MAX_EIR_LENGTH 0) ++ [7, 8, 9] :=
  (create_eir_stays_in_bounds hdev0_three_uuids (List.replicate HCI_MAX_EIR_LENGTH 0) [7, 8, 9]
    [] 0 (by decide)).1

/-- C28, the code at the failing input: a LOAD_KEYS payload of 33 bytes with
key_count = 1 passes the length check (28 <= 33); after the first entry the
loop finds i = 25 < 30 and reads a second entry at offset 25 of the 30 bytes of
key data, whose fixed part would end at offset 50: it is installed from the
five bytes present and whatever follows the payload (shown as 0). -/
theorem load_keys_reads_past_payload :
    key_offsets
        (([0, 1, 0] ++ ([1, 2, 3, 4, 5, 6, 0] ++ List.replicate 16 0xAA ++ [4, 0]) ++
          [9, 9, 9, 9, 9]).drop sizeof_mgmt_cp_load_keys) 30 30 0 = [0, 25] ∧
    25 + sizeof_mgmt_key_info > 30 ∧
    new_trace st0_up (load_keys linux_defs env_ok st0_up 7 0
        ([0, 1, 0] ++ ([1, 2, 3, 4, 5, 6, 0] ++ List.replicate 16 0xAA ++ [4, 0]) ++
          [9, 9, 9, 9, 9]) 33).2 =
      [Effect.hci_link_keys_clear 0,
       Effect.hci_add_link_key 0 [1, 2, 3, 4, 5, 6] (List.replicate 16 0xAA) 0 4,
       Effect.hci_add_link_key 0 [9, 9, 9, 9, 9, 0] (List.replicate 16 0) 0 0,
       Effect.sock_queue_rcv_skb 7 (cmd_complete_skb linux_defs 0 0x000D none 0)] := by
  decide

/-- C29, the code at the failing input: with hci0 in the HCI_SETUP state and
hci1 registered, the reply of read_index_list announces num_controllers = 2 and
is 6 bytes long, but only the index of hci1 has been written into it; the last
two bytes are never written (shown as 0). -/
theorem read_index_list_counts_setup_controllers :
    (read_index_list_loop st_setup.hci_dev_list).2.1 = [1, 0] ∧
    new_trace st_setup (read_index_list linux_defs env_ok st_setup 7).2 =
      [Effect.hci_del_off_timer 0, Effect.hci_del_off_timer 1,
       Effect.sock_queue_rcv_skb 7
         (mgmt_hdr 0x0001 0xFFFF 8 ++ [0x03, 0x00] ++ [2, 0] ++ [1, 0] ++ [0, 0])] := by
  decide

set_option maxRecDepth 8000 in
/-- C30, the code at the failing input: on the powered-up, not connectable
controller hci0, set_pairable(0, 1) returns 0 and sets HCI_PAIRABLE, and the
read_info reply that follows starts with type 0, powered = 1, connectable = 0,
discoverable = 0, pairable = 0: the pairable byte is filled from HCI_PSCAN. -/
theorem read_info_pairable_reports_pscan :
    (set_pairable linux_defs env_ok st0_up 7 0 [1] 1).1 = 0 ∧
    hci_dev_get (set_pairable linux_defs env_ok st0_up 7 0 [1] 1).2 0 =
      some { hdev0_up with flags := { flags0 with up := true, pairable := true } } ∧
    new_trace (set_pairable linux_defs env_ok st0_up 7 0 [1] 1).2
        (read_controller_info linux_defs env_ok
          (set_pairable linux_defs env_ok st0_up 7 0 [1] 1).2 7 0).2 =
      [Effect.hci_del_off_timer 0,
       Effect.sock_queue_rcv_skb 7
         (cmd_complete_skb linux_defs 0 0x0004
           (some (read_info_rp
             { hdev0_up with flags := { flags0 with up := true, pairable := true, mgmt := true } }))
           277)] ∧
    (read_info_rp
      { hdev0_up with flags := { flags0 with up := true, pairable := true, mgmt := true } }).take 5
      = [0, 1, 0, 0, 0] := by
  refine ⟨by decide, by decide, ?_, by decide⟩
  rfl

end Mgmt
